import Mathlib

/-
  Verification of the cali line-oriented calculator core (src/parser.rs,
  src/evaluator.rs, src/currency.rs, src/app.rs).

  Modelling conventions:
  - Rust `String`/`&str` values are modelled as `Str := List Char` (the
    sources only ever manipulate ASCII text; byte indices and char indices
    therefore coincide).
  - Rust `f64` is modelled as `ℚ`.  All arithmetic appearing in the claims
    (+, -, *, /, %, percentage and conversion factors) is exact decimal /
    rational arithmetic; float rounding, infinities and NaN are outside the
    model.  `f64::powf` is modelled exactly on integer exponents.
  - `HashMap` is modelled as an association list with insert-overwrite
    semantics (`ainsert` / `alistGet`); iteration order of a `HashMap` is
    unspecified in Rust and no claim depends on it.
  - The currency cache's periodic network refresh (`fetch_latest_rates`) is
    I/O and is elided: a failed refresh leaves the cache untouched, which is
    exactly the modelled behaviour.  The cache contents are threaded
    explicitly as a `RateTable` value.
  - `chrono` dates are modelled as integer day numbers with day 0 a Monday.
  - Rust panics (`unreachable!()`) are modelled as `none`: the evaluator
    returns `Option Value` and C10 proves the `none` (panic) branches are
    dead.
-/

set_option maxHeartbeats 1000000
set_option synthInstance.maxSize 2000

/- Batteries marks the `Rat` field operations `@[irreducible]`, which stops
`rfl`/`decide` from evaluating concrete rational arithmetic; restore the
ordinary reducibility for this development (the kernel never respected the
attribute anyway). -/
attribute [local semireducible] Rat.add Rat.mul Rat.inv Rat.sub Rat.ofScientific

abbrev Str := List Char

def str (s : String) : Str := s.toList

/-- Association-list lookup, modelling `HashMap::get`. -/
def alistGet {β : Type} (k : Str) : List (Str × β) → Option β
  | [] => none
  | (k2, v) :: rest => if k = k2 then some v else alistGet k rest

/-- Association-list insert, modelling `HashMap::insert` (overwrite). -/
def ainsert {β : Type} (k : Str) (v : β) : List (Str × β) → List (Str × β)
  | [] => [(k, v)]
  | (k2, v2) :: rest => if k = k2 then (k, v) :: rest else (k2, v2) :: ainsert k v rest

/-- `str::trim` (leading and trailing whitespace removed). -/
def trim (s : Str) : Str :=
  ((s.dropWhile Char.isWhitespace).reverse.dropWhile Char.isWhitespace).reverse

def toLowerStr (s : Str) : Str := s.map Char.toLower

def toUpperStr (s : Str) : Str := s.map Char.toUpper

/-- Regex `\w` (ASCII fragment). -/
def wordChar (c : Char) : Bool := c.isAlphanum || c = '_'

/-- `(takeWhile p, dropWhile p)`, the behaviour of a greedy character-class
scan such as `\s+` or `\d+`. -/
def span2 (p : Char → Bool) (s : Str) : Str × Str := (s.takeWhile p, s.dropWhile p)

def digitsToNat (ds : Str) : ℕ := ds.foldl (fun acc c => 10 * acc + (c.toNat - '0'.toNat)) 0

/--
`f64::from_str`, restricted to finite decimal notation:
optional sign, integer digits, optional fractional digits (at least one digit
in total), optional exponent.  The `inf` / `infinity` / `NaN` spellings denote
non-finite floats, which have no rational counterpart; they are mapped to
`none` here.  No claim involves them.
-/
def parseNumber (s : Str) : Option ℚ :=
  let sgnRest : ℚ × Str :=
    match s with
    | '+' :: r => (1, r)
    | '-' :: r => (-1, r)
    | r => (1, r)
  let sgn := sgnRest.1
  let (d1, s2) := span2 Char.isDigit sgnRest.2
  let fracRest : Option Str × Str :=
    match s2 with
    | '.' :: r =>
        let (d2, r2) := span2 Char.isDigit r
        (some d2, r2)
    | r => (none, r)
  let frac := fracRest.1
  let s3 := fracRest.2
  if d1 = [] ∧ frac.getD [] = [] then none
  else
    let mant : ℚ := (digitsToNat d1 : ℚ) +
      (match frac with
       | some d2 => (digitsToNat d2 : ℚ) / (10 : ℚ) ^ d2.length
       | none => 0)
    match s3 with
    | [] => some (sgn * mant)
    | 'e' :: r | 'E' :: r =>
        let esgnRest : Bool × Str :=
          match r with
          | '+' :: r2 => (false, r2)
          | '-' :: r2 => (true, r2)
          | r2 => (false, r2)
        let (ed, r3) := span2 Char.isDigit esgnRest.2
        if ed = [] ∨ r3 ≠ [] then none
        else
          let e : ℚ := (10 : ℚ) ^ (digitsToNat ed)
          some (sgn * mant * (if esgnRest.1 then 1 / e else e))
    | _ => none

/-- `is_currency_code` (evaluator.rs): 3 chars, all ASCII uppercase. -/
def is_currency_code (unit : Str) : Bool := unit.length = 3 && unit.all Char.isUpper

/-- The alias map built in `normalize_unit` (evaluator.rs), in source order. -/
def unitAliases : List (String × String) :=
  [("bit", "bit"), ("s", "s"), ("min", "min"), ("h", "h"), ("day", "day"),
   ("week", "week"), ("month", "month"), ("year", "year"), ("ms", "ms"),
   ("us", "us"), ("ns", "ns"), ("b", "B"),
   ("kb", "KB"), ("mb", "MB"), ("gb", "GB"), ("tb", "TB"), ("pb", "PB"),
   ("c", "C"), ("f", "F"), ("k", "K"),
   ("bytes", "B"), ("kilobytes", "KB"), ("megabytes", "MB"), ("gigabytes", "GB"),
   ("terabytes", "TB"), ("petabytes", "PB"), ("bits", "bit"),
   ("eur", "EUR"), ("usd", "USD"), ("gbp", "GBP"), ("cad", "CAD"),
   ("jpy", "JPY"), ("aud", "AUD"), ("cny", "CNY"), ("inr", "INR"),
   ("minute", "min"), ("minutes", "min"), ("mins", "min"), ("m", "min"),
   ("second", "s"), ("seconds", "s"), ("sec", "s"), ("secs", "s"),
   ("hour", "h"), ("hours", "h"), ("hr", "h"), ("hrs", "h"),
   ("millisecond", "ms"), ("milliseconds", "ms"), ("msec", "ms"), ("msecs", "ms"),
   ("microsecond", "us"), ("microseconds", "us"), ("usec", "us"), ("usecs", "us"),
   ("nanosecond", "ns"), ("nanoseconds", "ns"), ("nsec", "ns"), ("nsecs", "ns"),
   ("days", "day"), ("weeks", "week"), ("months", "month"), ("years", "year"),
   ("meters", "m"), ("metre", "m"), ("metres", "m"),
   ("centimeters", "cm"), ("centimetre", "cm"), ("centimetres", "cm"),
   ("millimeters", "mm"), ("millimetre", "mm"), ("millimetres", "mm"),
   ("kilometers", "km"), ("kilometre", "km"), ("kilometres", "km"),
   ("inches", "in"), ("feet", "ft"), ("foot", "ft"), ("yards", "yd"), ("miles", "mi"),
   ("grams", "g"), ("kilograms", "kg"), ("kgs", "kg"), ("kilos", "kg"),
   ("milligrams", "mg"), ("pounds", "lb"), ("lbs", "lb"), ("ounces", "oz"),
   ("tons", "ton"), ("tonnes", "ton"), ("stones", "st"),
   ("milliliters", "ml"), ("millilitres", "ml"), ("liters", "l"), ("litres", "l"),
   ("teaspoons", "tsp"), ("tablespoons", "tbsp"), ("cups", "cup"),
   ("pints", "pt"), ("quarts", "qt"), ("gallons", "gal"),
   ("fluid ounces", "floz"), ("fluidounces", "floz"),
   ("celsius", "C"), ("centigrade", "C"), ("fahrenheit", "F"), ("kelvin", "K"),
   ("joules", "J"), ("kilojoules", "kJ"), ("calories", "cal"),
   ("kilocalories", "kcal"), ("kcals", "kcal"),
   ("kilowatt hours", "kWh"), ("kilowatt-hours", "kWh"), ("electron volts", "eV"),
   ("watts", "W"), ("kilowatts", "kW"), ("megawatts", "MW"), ("horsepower", "hp"),
   ("pascals", "Pa"), ("kilopascals", "kPa"), ("bars", "bar"),
   ("pounds per square inch", "psi"), ("atmospheres", "atm"),
   ("meters per second", "mps"), ("metres per second", "mps"),
   ("kilometers per hour", "kmph"), ("kilometres per hour", "kmph"),
   ("kph", "kmph"), ("miles per hour", "mph"), ("knots", "knot")]

def lookupAlias (k : Str) : Option Str :=
  (unitAliases.find? (fun p => p.1.toList == k)).map (fun p => p.2.toList)

/-- `normalize_unit` (evaluator.rs). -/
def normalize_unit (unit : Str) : Str :=
  let original := trim unit
  let lowercase := toLowerStr original
  match lookupAlias lowercase with
  | some canonical => canonical
  | none =>
      if lowercase.length = 3 ∧ lowercase.all Char.isAlpha then toUpperStr lowercase
      else lowercase

/-- The non-currency pairwise lookup table inside `convert_units`
(evaluator.rs), including its final same-unit catch-all arm. -/
def tableConvertS (value : ℚ) : String → String → Option ℚ
  | "B", "bit" => some (value * 8)
  | "bit", "B" => some (value / 8)
  | "s", "min" => some (value / 60)
  | "min", "s" => some (value * 60)
  | "min", "h" => some (value / 60)
  | "h", "min" => some (value * 60)
  | "h", "s" => some (value * 3600)
  | "s", "h" => some (value / 3600)
  | "day", "h" => some (value * 24)
  | "h", "day" => some (value / 24)
  | "day", "s" => some (value * 86400)
  | "s", "day" => some (value / 86400)
  | "week", "day" => some (value * 7)
  | "day", "week" => some (value / 7)
  | "month", "day" => some (value * 30.44)
  | "day", "month" => some (value / 30.44)
  | "year", "day" => some (value * 365.25)
  | "day", "year" => some (value / 365.25)
  | "year", "month" => some (value * 12)
  | "month", "year" => some (value / 12)
  | "decade", "year" => some (value * 10)
  | "year", "decade" => some (value / 10)
  | "century", "year" => some (value * 100)
  | "year", "century" => some (value / 100)
  | "ms", "s" => some (value / 1000)
  | "s", "ms" => some (value * 1000)
  | "us", "ms" => some (value / 1000)
  | "ms", "us" => some (value * 1000)
  | "ns", "us" => some (value / 1000)
  | "us", "ns" => some (value * 1000)
  | "cm", "m" => some (value / 100)
  | "m", "cm" => some (value * 100)
  | "cm", "mm" => some (value * 10)
  | "mm", "cm" => some (value / 10)
  | "in", "cm" => some (value * 2.54)
  | "cm", "in" => some (value / 2.54)
  | "ft", "m" => some (value * 0.3048)
  | "m", "ft" => some (value / 0.3048)
  | "mm", "m" => some (value / 1000)
  | "m", "mm" => some (value * 1000)
  | "km", "m" => some (value * 1000)
  | "m", "km" => some (value / 1000)
  | "mi", "km" => some (value * 1.60934)
  | "km", "mi" => some (value / 1.60934)
  | "mi", "m" => some (value * 1609.34)
  | "m", "mi" => some (value / 1609.34)
  | "in", "mm" => some (value * 25.4)
  | "mm", "in" => some (value / 25.4)
  | "ft", "in" => some (value * 12)
  | "in", "ft" => some (value / 12)
  | "yd", "ft" => some (value * 3)
  | "ft", "yd" => some (value / 3)
  | "yd", "m" => some (value * 0.9144)
  | "m", "yd" => some (value / 0.9144)
  | "m2", "cm2" => some (value * 10000)
  | "cm2", "m2" => some (value / 10000)
  | "km2", "m2" => some (value * 1000000)
  | "m2", "km2" => some (value / 1000000)
  | "ha", "m2" => some (value * 10000)
  | "m2", "ha" => some (value / 10000)
  | "acre", "m2" => some (value * 4046.86)
  | "m2", "acre" => some (value / 4046.86)
  | "acre", "ha" => some (value * 0.404686)
  | "ha", "acre" => some (value / 0.404686)
  | "mi2", "km2" => some (value * 2.58999)
  | "km2", "mi2" => some (value / 2.58999)
  | "ml", "l" => some (value / 1000)
  | "l", "ml" => some (value * 1000)
  | "ml", "tsp" => some (value * 0.2)
  | "tsp", "ml" => some (value / 0.2)
  | "ml", "tbsp" => some (value / 15)
  | "tbsp", "ml" => some (value * 15)
  | "ml", "teasp" => some (value * 0.2)
  | "teasp", "ml" => some (value / 0.2)
  | "l", "gal" => some (value * 0.264172)
  | "gal", "l" => some (value / 0.264172)
  | "cup", "ml" => some (value * 236.588)
  | "ml", "cup" => some (value / 236.588)
  | "pt", "ml" => some (value * 473.176)
  | "ml", "pt" => some (value / 473.176)
  | "qt", "ml" => some (value * 946.353)
  | "ml", "qt" => some (value / 946.353)
  | "floz", "ml" => some (value * 29.5735)
  | "ml", "floz" => some (value / 29.5735)
  | "cup", "floz" => some (value * 8)
  | "floz", "cup" => some (value / 8)
  | "m3", "l" => some (value * 1000)
  | "l", "m3" => some (value / 1000)
  | "ft3", "m3" => some (value * 0.0283168)
  | "m3", "ft3" => some (value / 0.0283168)
  | "g", "kg" => some (value / 1000)
  | "kg", "g" => some (value * 1000)
  | "lb", "kg" => some (value * 0.453592)
  | "kg", "lb" => some (value / 0.453592)
  | "oz", "g" => some (value * 28.3495)
  | "g", "oz" => some (value / 28.3495)
  | "mg", "g" => some (value / 1000)
  | "g", "mg" => some (value * 1000)
  | "kg", "ton" => some (value / 1000)
  | "ton", "kg" => some (value * 1000)
  | "lb", "oz" => some (value * 16)
  | "oz", "lb" => some (value / 16)
  | "st", "lb" => some (value * 14)
  | "lb", "st" => some (value / 14)
  | "st", "kg" => some (value * 6.35029)
  | "kg", "st" => some (value / 6.35029)
  | "C", "F" => some (value * 9 / 5 + 32)
  | "F", "C" => some ((value - 32) * 5 / 9)
  | "K", "C" => some (value - 273.15)
  | "C", "K" => some (value + 273.15)
  | "F", "K" => some ((value + 459.67) * 5 / 9)
  | "K", "F" => some (value * 9 / 5 - 459.67)
  | "B", "KB" => some (value / 1024)
  | "KB", "B" => some (value * 1024)
  | "KB", "MB" => some (value / 1024)
  | "MB", "KB" => some (value * 1024)
  | "MB", "GB" => some (value / 1024)
  | "GB", "MB" => some (value * 1024)
  | "GB", "TB" => some (value / 1024)
  | "TB", "GB" => some (value * 1024)
  | "TB", "PB" => some (value / 1024)
  | "PB", "TB" => some (value * 1024)
  | "J", "kJ" => some (value / 1000)
  | "kJ", "J" => some (value * 1000)
  | "cal", "J" => some (value * 4.184)
  | "J", "cal" => some (value / 4.184)
  | "kcal", "cal" => some (value * 1000)
  | "cal", "kcal" => some (value / 1000)
  | "kWh", "J" => some (value * 3600000)
  | "J", "kWh" => some (value / 3600000)
  | "eV", "J" => some (value * 1.602176634e-19)
  | "J", "eV" => some (value / 1.602176634e-19)
  | "W", "kW" => some (value / 1000)
  | "kW", "W" => some (value * 1000)
  | "MW", "kW" => some (value * 1000)
  | "kW", "MW" => some (value / 1000)
  | "hp", "W" => some (value * 745.7)
  | "W", "hp" => some (value / 745.7)
  | "hp", "kW" => some (value * 0.7457)
  | "kW", "hp" => some (value / 0.7457)
  | "Pa", "kPa" => some (value / 1000)
  | "kPa", "Pa" => some (value * 1000)
  | "bar", "kPa" => some (value * 100)
  | "kPa", "bar" => some (value / 100)
  | "psi", "kPa" => some (value * 6.895)
  | "kPa", "psi" => some (value / 6.895)
  | "atm", "kPa" => some (value * 101.325)
  | "kPa", "atm" => some (value / 101.325)
  | "mps", "kmph" => some (value * 3.6)
  | "kmph", "mps" => some (value / 3.6)
  | "mph", "kmph" => some (value * 1.60934)
  | "kmph", "mph" => some (value / 1.60934)
  | "mph", "mps" => some (value * 0.44704)
  | "mps", "mph" => some (value / 0.44704)
  | "knot", "kmph" => some (value * 1.852)
  | "kmph", "knot" => some (value / 1.852)
  | a, b => if a = b then some value else none

/-- The currency cache: base code to (target code to rate), currency.rs. -/
abbrev RateTable := List (Str × List (Str × ℚ))

def lookupRate (rates : RateTable) (f t : Str) : Option ℚ :=
  (alistGet f rates).bind (alistGet t)

/-- `calculate_exchange_rate` (currency.rs): direct entry, else USD bridge. -/
def calculate_exchange_rate (f t : Str) (rates : RateTable) : Option ℚ :=
  match lookupRate rates f t with
  | some rate => some rate
  | none =>
      if f ≠ str "USD" ∧ t ≠ str "USD" then
        match lookupRate rates (str "USD") f, lookupRate rates (str "USD") t with
        | some fromUsd, some usdTo => some ((1 / fromUsd) * usdTo)
        | _, _ => none
      else none

/-- `get_exchange_rate` (currency.rs).  The TTL-based network refresh is
elided (see the header comment): on refresh failure the cache is unchanged,
which is the behaviour modelled here. -/
def get_exchange_rate (rates : RateTable) (f t : Str) : Option ℚ :=
  if f = t then some 1 else calculate_exchange_rate f t rates

/-- `set_exchange_rate` (currency.rs).  Returns `none` exactly when the
source returns `false` (non-positive rate, no mutation); otherwise returns
the updated cache. -/
def set_exchange_rate (rates : RateTable) (f t : Str) (rate : ℚ) : Option RateTable :=
  if rate ≤ 0 then none
  else
    let r1 := if (alistGet f rates).isSome then rates else ainsert f [] rates
    let r2 := if (alistGet t r1).isSome then r1 else ainsert t [] r1
    let r3 := match alistGet f r2 with
      | some m => ainsert f (ainsert t rate m) r2
      | none => r2
    let r4 := match alistGet t r3 with
      | some m => ainsert t (ainsert f (1 / rate) m) r3
      | none => r3
    some r4

/-- `initialize_fallback_rates` (currency.rs). -/
def mkRates (l : List (String × List (String × ℚ))) : RateTable :=
  l.map (fun p => (p.1.toList, p.2.map (fun q => (q.1.toList, q.2))))

def fallbackRates : RateTable := mkRates
  [("USD", [("EUR", 0.85), ("GBP", 0.72), ("CAD", 1.25), ("JPY", 115.0),
            ("AUD", 1.35), ("CNY", 6.45), ("INR", 75.0), ("USD", 1.0)]),
   ("EUR", [("USD", 1.18), ("GBP", 0.86), ("CAD", 1.47), ("JPY", 135.0),
            ("AUD", 1.59), ("CNY", 7.60), ("INR", 88.0), ("EUR", 1.0)]),
   ("GBP", [("USD", 1.39), ("EUR", 1.16), ("CAD", 1.70), ("JPY", 155.0),
            ("AUD", 1.85), ("CNY", 8.85), ("INR", 102.0), ("GBP", 1.0)]),
   ("CAD", [("USD", 0.80), ("EUR", 0.68), ("GBP", 0.59), ("JPY", 92.0),
            ("AUD", 1.10), ("CNY", 5.20), ("INR", 60.0), ("CAD", 1.0)])]

/-- `convert_units` (evaluator.rs). -/
def convert_units (rates : RateTable) (value : ℚ) (from_unit to_unit : Str) : Option ℚ :=
  if from_unit = to_unit then some value
  else
    let f := normalize_unit from_unit
    let t := normalize_unit to_unit
    if f = t then some value
    else
      if is_currency_code f ∧ is_currency_code t then
        match get_exchange_rate rates f t with
        | some rate => some (value * rate)
        | none => none
      else tableConvertS value (String.mk f) (String.mk t)

/-- `Op` (parser.rs). -/
inductive Op
  | add
  | subtract
  | multiply
  | divide
  | modulo
  | power
deriving DecidableEq, Repr

/-- `Expr` (parser.rs).  `Variable` is spelled `var` (`variable` is a Lean
keyword); `Box<Expr>` is direct nesting. -/
inductive Expr
  | assignment (name : Str) (e : Expr)
  | binaryOp (l : Expr) (op : Op) (r : Expr)
  | number (n : ℚ)
  | var (name : Str)
  | unitValue (v : ℚ) (u : Str)
  | percentOf (percent : Expr) (value : Expr)
  | convert (value : Expr) (targetUnit : Str)
  | dateOffset (day : Str) (amount : ℤ) (unit : Str)
  | error (msg : Str)
  | percentage (p : ℚ)
deriving DecidableEq, Repr

/-- `Value` (evaluator.rs). -/
inductive Value
  | number (n : ℚ)
  | percentage (p : ℚ)
  | unit (v : ℚ) (u : Str)
  | date (d : ℤ)
  | error (msg : Str)
  | assignment (name : Str) (v : Value)
deriving DecidableEq, Repr

/-- The variable environment `HashMap<String, Value>`. -/
abbrev VarEnv := List (Str × Value)

/-- Rust `Debug` output for `Op` (derived). -/
def debugOp : Op → Str
  | .add => str "Add"
  | .subtract => str "Subtract"
  | .multiply => str "Multiply"
  | .divide => str "Divide"
  | .modulo => str "Modulo"
  | .power => str "Power"

/-- `f64` truncation toward zero (`f64::trunc`, and the `as i64` cast). -/
def ratTrunc (q : ℚ) : ℤ := if q < 0 then -((-q).floor) else q.floor

/-- `i64::MAX`; `f64 as i64` truncates toward zero and saturates here. -/
def i64Max : ℤ := 9223372036854775807

/-- `i64::MIN`. -/
def i64Min : ℤ := -9223372036854775808

/-- The saturating part of Rust's `f64 as i64` cast (applied after
truncation). -/
def satI64 (z : ℤ) : ℤ := max i64Min (min i64Max z)

/-- Two's-complement wrap-around of `i64` arithmetic: the release-profile
behaviour of the multiplications `amount * 7` and `amount * 30` in
`calculate_date_offset` (overflow checks are off in release builds; a debug
build would abort at the multiply instead — the profiles only differ on
astronomically large week/month counts, where either way no date results). -/
def wrapI64 (z : ℤ) : ℤ :=
  (z + 9223372036854775808).emod 18446744073709551616 - 9223372036854775808

/-- `chrono::Duration::days` (`TimeDelta::days`) panics when the duration
leaves `[-i64::MAX, i64::MAX]` milliseconds; in whole days the bound is
`(2^63 - 1) / 86400000` = 106751991167. -/
def durationMaxDays : ℤ := 106751991167

/-- `chrono::NaiveDate::MIN` (`-262144-01-01`) as a day number of the date
model (day 0 = 2001-01-01). -/
def dateMinDay : ℤ := -96476981

/-- `chrono::NaiveDate::MAX` (`262143-12-31`) as a day number of the date
model (day 0 = 2001-01-01). -/
def dateMaxDay : ℤ := 95015278

/-- `date + Duration::days(n)` (and, with `n` negated, `date - ...`):
`none` models the chrono panic, raised when `Duration::days(n)` itself is
out of bounds or when the resulting date leaves `NaiveDate`'s range. -/
def date_plus_days (d n : ℤ) : Option ℤ :=
  if n < -durationMaxDays ∨ durationMaxDays < n then none
  else if d + n < dateMinDay ∨ dateMaxDay < d + n then none
  else some (d + n)

/-- Rust `%` on `f64`: remainder with the sign of the dividend. -/
def fRem (a b : ℚ) : ℚ := a - b * (ratTrunc (a / b) : ℚ)

/-- `f64::powf`, modelled exactly on integer exponents.  A non-integer
exponent generally has an irrational result with no counterpart in the
rational model; those cases (unused by every claim) are mapped to 0. -/
def powf (a b : ℚ) : ℚ := if b.den = 1 then a ^ b.num else 0

/-- Round half away from zero, used for `{:.N}` fixed-point formatting. -/
def roundHalfAway (q : ℚ) : ℤ := if q < 0 then -((-q + 1 / 2).floor) else (q + 1 / 2).floor

/-- Left-pad a numeral with zeros. -/
def padZeros (width : ℕ) (s : Str) : Str :=
  List.replicate (width - s.length) '0' ++ s

/-- Rust `{:.d}` fixed-point formatting of a finite float, on rationals.
(Exact-half ties, which a binary float almost never produces, round away
from zero here.) -/
def fmtFixed (d : ℕ) (q : ℚ) : Str :=
  let scaled := roundHalfAway (q * (10 : ℚ) ^ d)
  let sign : Str := if scaled < 0 then ['-'] else []
  let a := scaled.natAbs
  let ip := a / 10 ^ d
  let fp := a % 10 ^ d
  sign ++ (Nat.repr ip).toList ++
    (if d = 0 then [] else '.' :: padZeros d (Nat.repr fp).toList)

/-- Rust `{}` display of a finite `f64`, on rationals: integral values print
without a decimal part, exact decimal fractions print with their digits.
(Rationals without a finite decimal expansion cannot arise from the decimal
model; they fall back to 17 fractional digits.) -/
def displayF64 (q : ℚ) : Str :=
  if q.den = 1 then (Int.repr q.num).toList
  else
    match (List.range 18).find? (fun k => (q * (10 : ℚ) ^ k).den = 1) with
    | some k =>
        let scaled := (q * (10 : ℚ) ^ k).num
        let sign : Str := if scaled < 0 then ['-'] else []
        let a := scaled.natAbs
        sign ++ (Nat.repr (a / 10 ^ k)).toList ++ '.' :: padZeros k (Nat.repr (a % 10 ^ k)).toList
    | none => fmtFixed 17 q

/-- `chrono::NaiveDate` display (`yyyy-mm-dd`).  Dates are modelled as
integer day numbers with day 0 = 2001-01-01 (a Monday). -/
def dateDisplay (d : ℤ) : Str :=
  let z := d + 730791
  let era := z.fdiv 146097
  let doe := z - era * 146097
  let yoe := (doe - doe.fdiv 1460 + doe.fdiv 36524 - doe.fdiv 146096).fdiv 365
  let y := yoe + era * 400
  let doy := doe - (365 * yoe + yoe.fdiv 4 - yoe.fdiv 100)
  let mp := (5 * doy + 2).fdiv 153
  let dd := doy - (153 * mp + 2).fdiv 5 + 1
  let mm := mp + (if mp < 10 then 3 else -9)
  let yy := y + (if mm ≤ 2 then 1 else 0)
  padZeros 4 (Nat.repr yy.natAbs).toList ++ '-' ::
    (padZeros 2 (Nat.repr mm.natAbs).toList ++ '-' :: padZeros 2 (Nat.repr dd.natAbs).toList)

/-- Approximate model of Rust `{:?}` for `f64` (exact on decimal values,
which are the only ones the sources produce in `Debug` positions). -/
def debugRat (q : ℚ) : Str :=
  if q.den = 1 then (Int.repr q.num).toList ++ str ".0" else displayF64 q

/-- Approximate model of Rust `{:?}` for `Value` (derived `Debug`).  Only
ever used inside error-message strings that no claim inspects verbatim. -/
def debugValue : Value → Str
  | .number n => str "Number(" ++ debugRat n ++ str ")"
  | .percentage p => str "Percentage(" ++ debugRat p ++ str ")"
  | .unit v u => str "Unit(" ++ debugRat v ++ str ", \"" ++ u ++ str "\")"
  | .date d => str "Date(" ++ dateDisplay d ++ str ")"
  | .error m => str "Error(\"" ++ m ++ str "\")"
  | .assignment n v => str "Assignment(\"" ++ n ++ str "\", " ++ debugValue v ++ str ")"

/-- The `Add | Subtract` arms of the differing-units case of
`evaluate_binary_op` (evaluator.rs lines 202-242).  The source reaches this
code through the pattern `op @ (Op::Add | Op::Subtract)` and then matches
`op` again inside; the `_ => unreachable!()` inner arms are modelled as
`none` (a panic). -/
def unit_diff_add_sub (rates : RateTable) (a : ℚ) (unit_a : Str) (op : Op) (b : ℚ) (unit_b : Str) :
    Option Value :=
  let normalized_unit_a := normalize_unit unit_a
  let normalized_unit_b := normalize_unit unit_b
  if normalized_unit_a = normalized_unit_b then
    match op with
    | .add => some (.unit (a + b) unit_a)
    | .subtract => some (.unit (a - b) unit_a)
    | _ => none
  else
    let is_unit_a_currency := is_currency_code normalized_unit_a
    let is_unit_b_currency := is_currency_code normalized_unit_b
    if is_unit_a_currency && is_unit_b_currency then
      match convert_units rates b normalized_unit_b normalized_unit_a with
      | some converted_b =>
          match op with
          | .add => some (.unit (a + converted_b) unit_a)
          | .subtract => some (.unit (a - converted_b) unit_a)
          | _ => none
      | none => some (.error (str "Cannot convert from " ++ unit_b ++ str " to " ++ unit_a))
    else
      match convert_units rates b normalized_unit_b normalized_unit_a with
      | some converted_b =>
          match op with
          | .add => some (.unit (a + converted_b) unit_a)
          | .subtract => some (.unit (a - converted_b) unit_a)
          | _ => none
      | none =>
          some (.error (str "Cannot perform " ++ debugOp op ++ str " on " ++ unit_a ++
            str " and " ++ unit_b))

/-- The value-level dispatch of `evaluate_binary_op` (evaluator.rs): the
source first evaluates both operands (done by the caller in this model) and
then matches on `(left_val, op, right_val)`; the arms below are in source
order, with each `if unit_a == unit_b` match guard folded into its arm
(guard failure falls through to the differing-units arm, exactly as in the
source). -/
def evaluate_binary_op (rates : RateTable) (left_val : Value) (op : Op) (right_val : Value) :
    Option Value :=
  match left_val, op, right_val with
  | .number a, .add, .number b => some (.number (a + b))
  | .number a, .subtract, .number b => some (.number (a - b))
  | .number a, .multiply, .number b => some (.number (a * b))
  | .number a, .multiply, .percentage p => some (.number (a * (p / 100)))
  | .percentage p, .multiply, .number a => some (.number ((p / 100) * a))
  | .number a, .add, .percentage p => some (.number (a + (a * p / 100)))
  | .unit a u, .add, .percentage p => some (.unit (a + (a * p / 100)) u)
  | .number a, .subtract, .percentage p => some (.number (a - (a * p / 100)))
  | .unit a u, .subtract, .percentage p => some (.unit (a - (a * p / 100)) u)
  | .number a, .divide, .number b =>
      if b = 0 then some (.error (str "Division by zero")) else some (.number (a / b))
  | .number a, .modulo, .number b =>
      if b = 0 then some (.error (str "Modulo by zero")) else some (.number (fRem a b))
  | .number a, .power, .number b => some (.number (powf a b))
  | .unit a unit_a, .add, .unit b unit_b =>
      if unit_a = unit_b then some (.unit (a + b) unit_a)
      else unit_diff_add_sub rates a unit_a .add b unit_b
  | .unit a unit_a, .subtract, .unit b unit_b =>
      if unit_a = unit_b then some (.unit (a - b) unit_a)
      else unit_diff_add_sub rates a unit_a .subtract b unit_b
  | .unit a u, .multiply, .number b => some (.unit (a * b) u)
  | .unit a u, .divide, .number b =>
      if b = 0 then some (.error (str "Division by zero")) else some (.unit (a / b) u)
  | .number a, .add, .unit b u => some (.unit (a + b) u)
  | .number a, .subtract, .unit b u => some (.unit (a - b) u)
  | .number a, .multiply, .unit b u => some (.unit (a * b) u)
  | .date d, .add, .number days => (date_plus_days d (satI64 (ratTrunc days))).map .date
  | .date d, .subtract, .number days =>
      (date_plus_days d (-satI64 (ratTrunc days))).map .date
  | a, o, b =>
      some (.error (str "Cannot perform " ++ debugOp o ++ str " on " ++ debugValue a ++
        str " and " ++ debugValue b))

/-- The value-level part of `evaluate_percent_of` (evaluator.rs). -/
def evaluate_percent_of (percent_val value_val : Value) : Value :=
  match percent_val, value_val with
  | .number p, .number v => .number ((p / 100) * v)
  | .percentage p, .number v => .number ((p / 100) * v)
  | .number p, .unit v u => .unit ((p / 100) * v) u
  | .percentage p, .unit v u => .unit ((p / 100) * v) u
  | _, _ => .error (str "Invalid percentage calculation")

/-- The value-level part of `convert_unit` (evaluator.rs). -/
def convert_unit (rates : RateTable) (value : Value) (target_unit : Str) : Value :=
  let normalized_target_unit := normalize_unit target_unit
  let display_unit :=
    if [str "KB", str "MB", str "GB", str "TB", str "PB", str "B"].contains
        normalized_target_unit then
      normalized_target_unit
    else if target_unit.all Char.isUpper then target_unit
    else normalized_target_unit
  match value with
  | .unit v source_unit =>
      let normalized_source_unit := normalize_unit source_unit
      if normalized_source_unit = normalized_target_unit then .unit v display_unit
      else
        match convert_units rates v normalized_source_unit normalized_target_unit with
        | some converted_value => .unit converted_value display_unit
        | none =>
            .error (str "Cannot convert from " ++ source_unit ++ str " to " ++ target_unit)
  | .number v => .unit v display_unit
  | _ =>
      .error (str "Cannot convert value to " ++ target_unit ++
        str ". Try assigning the unit first with \x27variable * 1 " ++ target_unit ++ str "\x27")

/-- `calculate_date_offset` (evaluator.rs).  `today` is the process-local
current date, passed explicitly; weekdays follow the day-0-is-Monday
convention of the date model.  Every `+ Duration::days(..)` of the source
goes through `date_plus_days`: the result is `none` exactly when chrono
would panic (an out-of-bounds `Duration` or a date outside `NaiveDate`'s
range), which is reachable, e.g. with an offset of 100000000 days. -/
def calculate_date_offset (today : ℤ) (day_name : Str) (amount : ℤ) (unit : Str) :
    Option Value :=
  let day_of_week : Option ℤ :=
    if day_name = str "monday" then some 0
    else if day_name = str "tuesday" then some 1
    else if day_name = str "wednesday" then some 2
    else if day_name = str "thursday" then some 3
    else if day_name = str "friday" then some 4
    else if day_name = str "saturday" then some 5
    else if day_name = str "sunday" then some 6
    else none
  match day_of_week with
  | none => some (.error (str "Unknown day: " ++ day_name))
  | some dw =>
      let today_weekday := today.emod 7
      let days_until := (dw + 7 - today_weekday).emod 7
      let days_until := if days_until = 0 then 7 else days_until
      match date_plus_days today days_until with
      | none => none
      | some next_day =>
          if unit = str "days" ∨ unit = str "day" then
            (date_plus_days next_day amount).map .date
          else if unit = str "weeks" ∨ unit = str "week" then
            (date_plus_days next_day (wrapI64 (amount * 7))).map .date
          else if unit = str "months" ∨ unit = str "month" then
            (date_plus_days next_day (wrapI64 (amount * 30))).map .date
          else some (.error (str "Unknown time unit: " ++ unit))

/-- `evaluate` (evaluator.rs).  The `&mut HashMap` borrow is made explicit:
the environment is threaded in and returned (C8 proves it is returned
unchanged).  The result is `none` exactly when the source would panic:
either through the `unreachable!()` arms of `evaluate_binary_op` (dead —
proven as part of C10) or through a chrono date-overflow panic in the date
arithmetic (reachable — C10's counterexample). -/
def evaluate (today : ℤ) (rates : RateTable) : Expr → VarEnv → Option Value × VarEnv
  | .number n, vars => (some (.number n), vars)
  | .percentage p, vars => (some (.percentage p), vars)
  | .var name, vars =>
      match alistGet name vars with
      | some value => (some value, vars)
      | none => (some (.error (str "Unknown variable: " ++ name)), vars)
  | .unitValue value unit, vars => (some (.unit value unit), vars)
  | .assignment name e, vars =>
      let (value, variables1) := evaluate today rates e vars
      (value.map (fun v => .assignment name v), variables1)
  | .binaryOp left op right, vars =>
      let (left_val, variables1) := evaluate today rates left vars
      match left_val with
      | none => (none, variables1)
      | some lv =>
          let (right_val, variables2) := evaluate today rates right variables1
          match right_val with
          | none => (none, variables2)
          | some rv => (evaluate_binary_op rates lv op rv, variables2)
  | .percentOf percent value, vars =>
      let (percent_val, variables1) := evaluate today rates percent vars
      match percent_val with
      | none => (none, variables1)
      | some pv =>
          let (value_val, variables2) := evaluate today rates value variables1
          match value_val with
          | none => (none, variables2)
          | some vv => (some (evaluate_percent_of pv vv), variables2)
  | .convert value_expr target_unit, vars =>
      let (value, variables1) := evaluate today rates value_expr vars
      match value with
      | none => (none, variables1)
      | some v => (some (convert_unit rates v target_unit), variables1)
  | .dateOffset day_name amount unit, vars =>
      (calculate_date_offset today day_name amount unit, vars)
  | .error msg, vars => (some (.error msg), vars)

/-- The reactive engine's view of `evaluate`.  The `getD` default stands in
for a process abort: it is reached exactly on the chrono date-overflow
panics (never through the `unreachable!()` arms), so engine-level claims
concern documents that do not crash the process. -/
def evalValue (today : ℤ) (rates : RateTable) (e : Expr) (vars : VarEnv) : Value :=
  ((evaluate today rates e vars).1).getD (.error (str "unreachable"))

/-- Comment stripping in `parse_line` (parser.rs): everything before the
first `#`. -/
def stripComment (s : Str) : Str := s.takeWhile (fun c => c ≠ '#')

/-- Leftmost-match search: try the matcher at every start position, first
success wins (the regex engine's unanchored scan). -/
def scan_left {α : Type} (matchAt : Str → Option α) : Str → Option α
  | [] => none
  | c :: rest =>
      match matchAt (c :: rest) with
      | some x => some x
      | none => scan_left matchAt rest

/-- Greedy-first-group split `(.+)<tail>`: the end position of the first
capture is scanned descending, so the leftmost capture is as long as
possible (regex greedy backtracking). -/
def greedy_split_from (tail : Str → Option Str) : Nat → Str → Option (Str × Str)
  | 0, _ => none
  | i + 1, t =>
      match tail (t.drop (i + 1)) with
      | some rest => some (t.take (i + 1), rest)
      | none => greedy_split_from tail i t

/-- Consume a case-insensitive literal (for the `(?i)` regexes); `pat` is
given in lowercase. -/
def stripCI (pat : Str) (s : Str) : Option Str :=
  match pat, s with
  | [], rest => some rest
  | p :: ps, c :: cs => if c.toLower = p then stripCI ps cs else none
  | _ :: _, [] => none

/-- Consume a case-sensitive literal. -/
def stripLit (pat : Str) (s : Str) : Option Str :=
  match pat, s with
  | [], rest => some rest
  | p :: ps, c :: cs => if c = p then stripLit ps cs else none
  | _ :: _, [] => none

/-- Regex `\s+` (greedy, at least one). -/
def wsPlus (s : Str) : Option Str :=
  if (span2 Char.isWhitespace s).1 = [] then none
  else some (span2 Char.isWhitespace s).2

/-- Regex `\s*`. -/
def wsStar (s : Str) : Str := s.dropWhile Char.isWhitespace

/-- Regex `[A-Z]{3}` under `(?i)`: exactly three ASCII letters. -/
def takeAlpha3 (s : Str) : Option (Str × Str) :=
  match s with
  | a :: b :: c :: rest =>
      if a.isAlpha && b.isAlpha && c.isAlpha then some ([a, b, c], rest) else none
  | _ => none

/-- Match `SET_RATE_RE` at the start of the input; returns the three
captures (codes as written, rate literal).  The trailing part of the input
is unconstrained (the regex is unanchored). -/
def set_rate_at (s : Str) : Option (Str × Str × Str) := do
  let s1 ← stripCI (str "setrate") s
  let s2 ← wsPlus s1
  let (a, s3) ← takeAlpha3 s2
  let s4 ← wsPlus s3
  let s5 ← (match stripCI (str "to") s4 with
            | some r => some r
            | none => stripCI (str "in") s4)
  let s6 ← wsPlus s5
  let (b, s7) ← takeAlpha3 s6
  let s8 := wsStar s7
  let s9 ← (match s8 with | '=' :: r => some r | _ => none)
  let s10 := wsStar s9
  let (d1, s11) := span2 Char.isDigit s10
  if d1 = [] then none
  else
    let lit : Str :=
      match s11 with
      | '.' :: r =>
          let (d2, _) := span2 Char.isDigit r
          if d2 = [] then d1 else d1 ++ '.' :: d2
      | _ => d1
    some (a, b, lit)

/-- Leftmost match of `SET_RATE_RE`. -/
def set_rate_find (s : Str) : Option (Str × Str × Str) := scan_left set_rate_at s

/-- `parse_set_rate` (parser.rs).  The `crate::currency::set_exchange_rate`
side effect is returned as the updated cache. -/
def parse_set_rate (rates : RateTable) (line : Str) : Option (Expr × RateTable) :=
  match set_rate_find line with
  | none => none
  | some (a, b, lit) =>
      let from_currency := toUpperStr a
      let to_currency := toUpperStr b
      match parseNumber lit with
      | none => none
      | some rate =>
          match set_exchange_rate rates from_currency to_currency rate with
          | some rates2 => some (.unitValue rate to_currency, rates2)
          | none => none

/-- `line.splitn(2, '=')` with two parts (parse_assignment, parser.rs):
the text before the first `=` and everything after it. -/
def splitAssign (s : Str) : Option (Str × Str) :=
  match (span2 (fun c => c ≠ '=') s).2 with
  | '=' :: rest => some ((span2 (fun c => c ≠ '=') s).1, rest)
  | _ => none

/-- The final `\s+(.+)` of a tail pattern: greedy whitespace (at least
one), backing off one whitespace character into the capture when the
remainder would otherwise be empty (`.+` needs one character). -/
def wsField (s : Str) : Option Str :=
  let w := (span2 Char.isWhitespace s).1
  let r := (span2 Char.isWhitespace s).2
  if w = [] then none
  else if r ≠ [] then some r
  else if 2 ≤ w.length then some (w.drop (w.length - 1))
  else none

/-- Match the tail `\s+(?:in|to)\s+(.+)` of `CONVERSION_RE`; returns the
final capture. -/
def conv_tail (s : Str) : Option Str := do
  let s1 ← wsPlus s
  let s2 ← (match stripLit (str "in") s1 with
            | some r => some r
            | none => stripLit (str "to") s1)
  wsField s2

/-- Greedy split for `CONVERSION_RE`. -/
def parse_conversion_split (t : Str) : Option (Str × Str) :=
  greedy_split_from conv_tail (t.length - 1) t

/-- Match the tail `%\s+of\s+(.+)` of `PERCENT_OF_RE`. -/
def pct_tail (s : Str) : Option Str := do
  let s1 ← (match s with | '%' :: r => some r | _ => none)
  let s2 ← wsPlus s1
  let s3 ← stripLit (str "of") s2
  wsField s3

/-- Greedy split for `PERCENT_OF_RE`. -/
def parse_percent_split (t : Str) : Option (Str × Str) :=
  greedy_split_from pct_tail (t.length - 1) t

/-- Match `VAR_OF_RE` = `(\w+)\s+of\s+(.+)` at the start of the input. -/
def var_of_at (s : Str) : Option (Str × Str) :=
  match s with
  | [] => none
  | c :: _ =>
      if wordChar c then do
        let s2 ← wsPlus (span2 wordChar s).2
        let s3 ← stripLit (str "of") s2
        let r ← wsField s3
        some ((span2 wordChar s).1, r)
      else none

/-- Leftmost match of `VAR_OF_RE`. -/
def var_of_find (s : Str) : Option (Str × Str) := scan_left var_of_at s

/-- The `VAR_OF_RE` stage of `parse_percentage` (parser.rs): the match only
captures when the name is a bound variable. -/
def var_of_guarded (line : Str) (vars : VarEnv) : Option (Str × Str) :=
  match var_of_find line with
  | some (nm0, rest) =>
      let var_name := trim nm0
      if (alistGet var_name vars).isSome then some (var_name, rest) else none
  | none => none

/-- Match the tail `\s+of\s+what\s+is\s+(.+)` of `PERCENT_OF_WHAT_RE`. -/
def of_what_tail (s : Str) : Option Str := do
  let s1 ← wsPlus s
  let s2 ← stripLit (str "of") s1
  let s3 ← wsPlus s2
  let s4 ← stripLit (str "what") s3
  let s5 ← wsPlus s4
  let s6 ← stripLit (str "is") s5
  wsField s6

/-- Greedy split for `PERCENT_OF_WHAT_RE`. -/
def of_what_split (t : Str) : Option (Str × Str) :=
  greedy_split_from of_what_tail (t.length - 1) t

/-- Match `DATE_EXPR_RE` at the start of the input: `next\s+(\w+)` with the
optional `(?:\s*\+\s*(\d+)\s+(\w+))?` suffix. -/
def date_at (s : Str) : Option (Str × Option (Str × Str)) := do
  let s1 ← stripCI (str "next") s
  let s2 ← wsPlus s1
  let (day, r1) := span2 wordChar s2
  if day = [] then none
  else
    let opt : Option (Str × Str) := do
      let t1 := wsStar r1
      let t2 ← (match t1 with | '+' :: r => some r | _ => none)
      let t3 := wsStar t2
      let (amt, t4) := span2 Char.isDigit t3
      if amt = [] then none
      else do
        let t5 ← wsPlus t4
        let (u, _) := span2 wordChar t5
        if u = [] then none else some (amt, u)
    some (day, opt)

/-- Leftmost match of `DATE_EXPR_RE`. -/
def date_find (s : Str) : Option (Str × Option (Str × Str)) := scan_left date_at s

/-- `parse_date_expression` (parser.rs).  The captured digits go through
`parse::<i64>().unwrap_or(0)`: a digit string whose value exceeds
`i64::MAX` parses to 0. -/
def parse_date_expression (line : Str) : Option Expr :=
  (date_find line).map (fun x =>
    let day := toLowerStr x.1
    let amount : ℤ :=
      match x.2 with
      | some (amt, _) =>
          if (digitsToNat amt : ℤ) ≤ i64Max then (digitsToNat amt : ℤ) else 0
      | none => 0
    let unit := match x.2 with | some (_, u) => toLowerStr u | none => str "days"
    .dateOffset day amount unit)

/-- The lazy/greedy split of `ADD_SUB_RE` / `MUL_DIV_RE`
`(.+?)([ops])(.+)`: the first operator character at position ≥ 1 that has a
non-empty remainder after it. -/
def split_first_op (ops : List Char) : Str → Option (Str × Char × Str)
  | [] => none
  | c0 :: rest => go [c0] rest
where
  go (acc : Str) : Str → Option (Str × Char × Str)
    | [] => none
    | c :: cs =>
        if ops.contains c && cs ≠ [] then some (acc.reverse, c, cs)
        else go (c :: acc) cs

def addSubOps : List Char := ['+', '-']

def mulDivOps : List Char := ['*', '/', '^', '%']

def add_sub_op (c : Char) : Op := if c = '+' then .add else .subtract

def mul_div_op (c : Char) : Op :=
  if c = '*' then .multiply
  else if c = '/' then .divide
  else if c = '^' then .power
  else .modulo

/-- Match `NUMBER_UNIT_RE` = `(-?\d+(?:\.\d+)?)\s*([a-zA-Z][a-zA-Z0-9]*)`
at the start of the input (the optional sign backtracks to the bare-digit
start, which the position scan of the caller covers). -/
def number_unit_at (s : Str) : Option (Str × Str) :=
  let core := fun (t : Str) (neg : Bool) =>
    let (d1, r1) := span2 Char.isDigit t
    if d1 = [] then none
    else
      let fracSplit : Str × Str :=
        match r1 with
        | '.' :: r2 =>
            let (d2, r3) := span2 Char.isDigit r2
            if d2 = [] then ([], r1) else ('.' :: d2, r3)
        | _ => ([], r1)
      let numLit := (if neg then ['-'] else []) ++ d1 ++ fracSplit.1
      let r4 := fracSplit.2.dropWhile Char.isWhitespace
      match r4 with
      | c :: cs =>
          if c.isAlpha then
            let (an, _) := span2 Char.isAlphanum cs
            some (numLit, c :: an)
          else none
      | [] => none
  match s with
  | '-' :: t => core t true
  | t => core t false

/-- Leftmost match of `NUMBER_UNIT_RE`. -/
def number_unit_find (s : Str) : Option (Str × Str) := scan_left number_unit_at s

/-- `parse_unit_value` (parser.rs). -/
def parse_unit_value (text : Str) : Option (ℚ × Str) :=
  match number_unit_find text with
  | some (lit, u) => (parseNumber lit).map (fun v => (v, trim u))
  | none => none

/-- Match `VAR_UNIT_RE` = `([a-zA-Z][a-zA-Z0-9]*)\s+([A-Z]{3})` at the
start of the input. -/
def var_unit_at (s : Str) : Option (Str × Str) :=
  match s with
  | [] => none
  | c :: cs =>
      if c.isAlpha then
        let (an, r1) := span2 Char.isAlphanum cs
        match wsPlus r1 with
        | some s2 =>
            match s2 with
            | a :: b :: c3 :: _ =>
                if a.isUpper && b.isUpper && c3.isUpper then some (c :: an, [a, b, c3])
                else none
            | _ => none
        | none => none
      else none

/-- Leftmost match of `VAR_UNIT_RE`. -/
def var_unit_find (s : Str) : Option (Str × Str) := scan_left var_unit_at s

/-- `parse_simple_value` (parser.rs). -/
def parse_simple_value (line0 : Str) (vars : VarEnv) : Expr :=
  let line := trim line0
  let pct : Option Expr :=
    match line.getLast? with
    | some '%' => (parseNumber (trim line.dropLast)).map .percentage
    | _ => none
  match pct with
  | some e => e
  | none =>
    match parse_unit_value line with
    | some (v, u) => .unitValue v u
    | none =>
      let vu : Option Expr :=
        match var_unit_find line with
        | some (nm0, u) =>
            let var_name := trim nm0
            if (alistGet var_name vars).isSome then
              some (.binaryOp (.var var_name) .multiply (.unitValue 1 u))
            else none
        | none => none
      match vu with
      | some e => e
      | none =>
        match parseNumber line with
        | some n => .number n
        | none =>
            if (alistGet line vars).isSome then .var line
            else .error (str "Cannot parse expression: " ++ line)

/-- The stage cascade of `parse_line` (parser.rs) on the comment-stripped,
trimmed line, with the recursive sub-parses abstracted as `recur` (which
receives the sub-line and the current currency cache). -/
def parseTrimmed (recur : Str → RateTable → Expr × RateTable) (rates : RateTable) (line : Str)
    (vars : VarEnv) : Expr × RateTable :=
  if line = [] then (.error (str "Empty expression"), rates)
  else
    match parse_set_rate rates line with
    | some res => res
    | none =>
    match splitAssign line with
    | some (nm, rest) =>
        let (e, rates1) := recur rest rates
        (.assignment (trim nm) e, rates1)
    | none =>
    match parse_conversion_split line with
    | some (pre, target) =>
        let (e, rates1) := recur pre rates
        (.convert e (trim target), rates1)
    | none =>
    match parse_percent_split line with
    | some (pre, rest) =>
        let (e, rates1) := recur rest rates
        (.percentOf (parse_simple_value pre vars) e, rates1)
    | none =>
    match var_of_guarded line vars with
    | some (nm, rest) =>
        let (e, rates1) := recur rest rates
        (.percentOf (.var nm) e, rates1)
    | none =>
    match of_what_split line with
    | some (pre, rest) =>
        let (e, rates1) := recur rest rates
        (.percentOf (parse_simple_value pre vars) e, rates1)
    | none =>
    match parse_date_expression line with
    | some e => (e, rates)
    | none =>
    match split_first_op addSubOps line with
    | some (l, c, r) =>
        let (le, rates1) := recur l rates
        let (re, rates2) := recur r rates1
        (.binaryOp le (add_sub_op c) re, rates2)
    | none =>
    match split_first_op mulDivOps line with
    | some (l, c, r) =>
        let (le, rates1) := recur l rates
        let (re, rates2) := recur r rates1
        (.binaryOp le (mul_div_op c) re, rates2)
    | none => (parse_simple_value line vars, rates)

/-- One layer of `parse_line` (parser.rs): strip the inline comment, trim,
and run the stage cascade. -/
def parseBody (recur : Str → RateTable → Expr × RateTable) (rates : RateTable) (line0 : Str)
    (vars : VarEnv) : Expr × RateTable :=
  parseTrimmed recur rates (trim (stripComment line0)) vars

/-- Fuel-indexed unfolding of the recursive `parse_line`.  Every recursive
sub-parse is on a strictly shorter line, so any fuel above the line length
yields the same result (`parse_line_fuel_irrel` below); the fuel-0 value is
never reached from `parse_line`. -/
def parse_line_fuel : Nat → RateTable → Str → VarEnv → Expr × RateTable
  | 0, rates, _, _ => (.error (str "Empty expression"), rates)
  | fuel + 1, rates, line, vars =>
      parseBody (fun p r => parse_line_fuel fuel r p vars) rates line vars

/-- `parse_line` (parser.rs), with the currency cache threaded through. -/
def parse_line (rates : RateTable) (line : Str) (vars : VarEnv) : Expr × RateTable :=
  parse_line_fuel (line.length + 1) rates line vars

/-- `Display for Value` (evaluator.rs). -/
def fmt_value : Value → Str
  | .number n =>
      if n.den = 1 then fmtFixed 0 n
      else
        let s := fmtFixed 2 n
        match parseNumber s with
        | some parsed => if |parsed - n| < 1e-10 then s else fmtFixed 6 n
        | none => fmtFixed 6 n
  | .percentage p => displayF64 p ++ ['%']
  | .unit v u =>
      if is_currency_code u then
        if u = str "USD" then '$' :: (if v.den = 1 then fmtFixed 0 v else fmtFixed 2 v)
        else if u = str "EUR" then '€' :: (if v.den = 1 then fmtFixed 0 v else fmtFixed 2 v)
        else if u = str "GBP" then '£' :: (if v.den = 1 then fmtFixed 0 v else fmtFixed 2 v)
        else (if v.den = 1 then fmtFixed 0 v else fmtFixed 2 v) ++ ' ' :: u
      else if v.den = 1 then fmtFixed 0 v ++ ' ' :: u
      else
        let s := fmtFixed 2 v
        match parseNumber s with
        | some parsed => if |parsed - v| < 1e-10 then s ++ ' ' :: u else fmtFixed 6 v ++ ' ' :: u
        | none => fmtFixed 6 v ++ ' ' :: u
  | .date d => dateDisplay d
  | .error e => str "Error: " ++ e
  | .assignment _ v => fmt_value v

def isErrorV : Value → Bool
  | .error _ => true
  | _ => false

/-- `str::contains` (substring containment). -/
def isSubstr (needle : Str) : Str → Bool
  | [] => needle.isEmpty
  | c :: rest => needle.isPrefixOf (c :: rest) || isSubstr needle rest

/--
The reactive-engine state (`App`, app.rs), restricted to the fields the
incremental evaluation algorithm reads or writes.  Rendering-only fields
(cursor, scrolling, panels, status bar, clipboard) are out of the spec's
scope and omitted.  `rates` is the process-wide currency cache threaded
explicitly; `today` is the process-local date; `withinDebounce` models
`last_keystroke.elapsed() < debounce_period` (constant across one pass:
no keystroke arrives during a synchronous evaluation pass).
-/
structure AppState where
  lines : List Str
  vars : VarEnv
  results : List Str
  debounced_results : List Str
  modified_lines : List Nat
  cached_variables : VarEnv
  rates : RateTable
  today : ℤ
  withinDebounce : Bool
deriving DecidableEq, Repr

/-- `update_result_for_line` (app.rs). -/
def update_result_for_line (st : AppState) (line_idx : Nat) (result : Value) : AppState :=
  if line_idx < st.results.length then
    let st1 :=
      match result with
      | .assignment name value => { st with vars := ainsert name value st.vars }
      | _ => st
    let result_str :=
      if st.withinDebounce && isErrorV result then []
      else fmt_value result
    { st1 with
        results := st1.results.set line_idx result_str,
        debounced_results := st1.debounced_results.set line_idx (fmt_value result) }
  else st

/-- `evaluate_modified_lines` (app.rs): the first pass over the sorted list
of dirty lines. -/
def evaluate_modified_lines (st : AppState) (modified : List Nat) : AppState :=
  modified.foldl
    (fun st line_idx =>
      if line_idx < st.lines.length then
        let line := st.lines.getD line_idx []
        let trimmed := trim line
        if trimmed = [] ∨ trimmed.head? = some '#' then st
        else
          let pr := parse_line st.rates line st.vars
          let result := evalValue st.today pr.2 pr.1 st.vars
          update_result_for_line { st with rates := pr.2 } line_idx result
      else st)
    st

/-- `find_changed_variables` (app.rs): names whose current value differs
from the pre-pass snapshot (or are newly bound). -/
def find_changed_variables (st : AppState) (prev_variables : VarEnv) : List Str :=
  (st.vars.filter (fun p => decide (alistGet p.1 prev_variables ≠ some p.2))).map Prod.fst

/-- One iteration of the `reevaluate_dependent_lines` loop at index `i`. -/
def reeval_dep_step (changed_vars : List Str) (st : AppState) (i : Nat) : AppState :=
  let line := st.lines.getD i []
  if changed_vars.any (fun v => isSubstr v line) then
    let pr := parse_line st.rates line st.vars
    let result := evalValue st.today pr.2 pr.1 st.vars
    update_result_for_line { st with rates := pr.2 } i result
  else st

/-- The `for i in 0..self.lines.len()` loop of `reevaluate_dependent_lines`
(app.rs), fuel-indexed from position `i` (the loop never changes
`self.lines`, so the initial length is the loop bound). -/
def reeval_dep_from (changed_vars : List Str) : Nat → Nat → AppState → AppState
  | 0, _, st => st
  | fuel + 1, i, st =>
      if i < st.lines.length then
        reeval_dep_from changed_vars fuel (i + 1) (reeval_dep_step changed_vars st i)
      else st

/-- `reevaluate_dependent_lines` (app.rs). -/
def reevaluate_dependent_lines (changed_vars : List Str) (st : AppState) : AppState :=
  reeval_dep_from changed_vars st.lines.length 0 st

/-- Ascending insert without duplicates (one step of collecting the
`HashSet<usize>` of dirty lines into a sorted `Vec`). -/
def insertSortedNat (n : Nat) : List Nat → List Nat
  | [] => [n]
  | m :: ms =>
      if n < m then n :: m :: ms
      else if n = m then m :: ms
      else m :: insertSortedNat n ms

/-- `modified.sort()` over the collected `HashSet` (sorted, duplicate-free). -/
def sortNats (l : List Nat) : List Nat := l.foldl (fun acc n => insertSortedNat n acc) []

/-- `evaluate_expressions` (app.rs): snapshot, first pass over dirty lines,
change detection, dependent re-evaluation, bookkeeping. -/
def evaluate_expressions (st : AppState) : AppState :=
  let prev_variables := st.vars
  if st.modified_lines = [] then st
  else
    let modified := sortNats st.modified_lines
    let st1 := evaluate_modified_lines st modified
    let changed_vars := find_changed_variables st1 prev_variables
    let st2 :=
      if changed_vars = [] then st1
      else reevaluate_dependent_lines changed_vars st1
    { st2 with modified_lines := [], cached_variables := st2.vars }

/-- A freshly loaded document: all lines dirty, empty environment and
results — the state after a bulk load marks every added line modified
(`add_line`, app.rs). -/
def loadApp (rates : RateTable) (today : ℤ) (withinDebounce : Bool)
    (ls : List String) : AppState :=
  { lines := ls.map str,
    vars := [],
    results := ls.map (fun _ => []),
    debounced_results := ls.map (fun _ => []),
    modified_lines := List.range ls.length,
    cached_variables := [],
    rates := rates,
    today := today,
    withinDebounce := withinDebounce }

/-- Parse one line and evaluate it (the `parse` + `evaluate` pipeline used
throughout §8 of the spec), against an explicit date, cache and
environment. -/
def parse_eval (today : ℤ) (rates : RateTable) (line : Str) (vars : VarEnv) : Value :=
  let pr := parse_line rates line vars
  evalValue today pr.2 pr.1 vars

/-- The (from, to) pairs that have an entry in the non-currency conversion
table of `convert_units` (evaluator.rs), in source order. -/
def tablePairs : List (String × String) :=
  [("B", "bit"), ("bit", "B"),
   ("s", "min"), ("min", "s"), ("min", "h"), ("h", "min"), ("h", "s"), ("s", "h"),
   ("day", "h"), ("h", "day"), ("day", "s"), ("s", "day"), ("week", "day"), ("day", "week"),
   ("month", "day"), ("day", "month"), ("year", "day"), ("day", "year"),
   ("year", "month"), ("month", "year"), ("decade", "year"), ("year", "decade"),
   ("century", "year"), ("year", "century"),
   ("ms", "s"), ("s", "ms"), ("us", "ms"), ("ms", "us"), ("ns", "us"), ("us", "ns"),
   ("cm", "m"), ("m", "cm"), ("cm", "mm"), ("mm", "cm"), ("in", "cm"), ("cm", "in"),
   ("ft", "m"), ("m", "ft"), ("mm", "m"), ("m", "mm"), ("km", "m"), ("m", "km"),
   ("mi", "km"), ("km", "mi"), ("mi", "m"), ("m", "mi"), ("in", "mm"), ("mm", "in"),
   ("ft", "in"), ("in", "ft"), ("yd", "ft"), ("ft", "yd"), ("yd", "m"), ("m", "yd"),
   ("m2", "cm2"), ("cm2", "m2"), ("km2", "m2"), ("m2", "km2"), ("ha", "m2"), ("m2", "ha"),
   ("acre", "m2"), ("m2", "acre"), ("acre", "ha"), ("ha", "acre"),
   ("mi2", "km2"), ("km2", "mi2"),
   ("ml", "l"), ("l", "ml"), ("ml", "tsp"), ("tsp", "ml"), ("ml", "tbsp"), ("tbsp", "ml"),
   ("ml", "teasp"), ("teasp", "ml"), ("l", "gal"), ("gal", "l"), ("cup", "ml"), ("ml", "cup"),
   ("pt", "ml"), ("ml", "pt"), ("qt", "ml"), ("ml", "qt"), ("floz", "ml"), ("ml", "floz"),
   ("cup", "floz"), ("floz", "cup"), ("m3", "l"), ("l", "m3"), ("ft3", "m3"), ("m3", "ft3"),
   ("g", "kg"), ("kg", "g"), ("lb", "kg"), ("kg", "lb"), ("oz", "g"), ("g", "oz"),
   ("mg", "g"), ("g", "mg"), ("kg", "ton"), ("ton", "kg"), ("lb", "oz"), ("oz", "lb"),
   ("st", "lb"), ("lb", "st"), ("st", "kg"), ("kg", "st"),
   ("C", "F"), ("F", "C"), ("K", "C"), ("C", "K"), ("F", "K"), ("K", "F"),
   ("B", "KB"), ("KB", "B"), ("KB", "MB"), ("MB", "KB"), ("MB", "GB"), ("GB", "MB"),
   ("GB", "TB"), ("TB", "GB"), ("TB", "PB"), ("PB", "TB"),
   ("J", "kJ"), ("kJ", "J"), ("cal", "J"), ("J", "cal"), ("kcal", "cal"), ("cal", "kcal"),
   ("kWh", "J"), ("J", "kWh"), ("eV", "J"), ("J", "eV"),
   ("W", "kW"), ("kW", "W"), ("MW", "kW"), ("kW", "MW"), ("hp", "W"), ("W", "hp"),
   ("hp", "kW"), ("kW", "hp"),
   ("Pa", "kPa"), ("kPa", "Pa"), ("bar", "kPa"), ("kPa", "bar"), ("psi", "kPa"),
   ("kPa", "psi"), ("atm", "kPa"), ("kPa", "atm"),
   ("mps", "kmph"), ("kmph", "mps"), ("mph", "kmph"), ("kmph", "mph"), ("mph", "mps"),
   ("mps", "mph"), ("knot", "kmph"), ("kmph", "knot")]

/-- An unsigned number literal of the grammar: `\d+(\.\d+)?`. -/
def isUnsignedLit (s : Str) : Bool :=
  let (ds, rest) := span2 Char.isDigit s
  decide (ds ≠ []) &&
    (rest.isEmpty ||
      (match rest with
       | '.' :: r2 =>
           let (d2, r3) := span2 Char.isDigit r2
           decide (d2 ≠ []) && r3.isEmpty
       | _ => false))

/-- A number literal with an optional leading minus sign: `-?\d+(\.\d+)?`. -/
def isSignedLit (s : Str) : Bool :=
  match s with
  | '-' :: r => isUnsignedLit r
  | r => isUnsignedLit r

/-- The dirty-line pass of `evaluate_expressions` (app.rs), as reached from
a state with a non-empty dirty set. -/
def first_pass (st : AppState) : AppState :=
  evaluate_modified_lines st (sortNats st.modified_lines)

/-- The changed-variable set computed by `evaluate_expressions` after its
dirty-line pass. -/
def pass_changed (st : AppState) : List Str :=
  find_changed_variables (first_pass st) st.vars

/-- The engine state when the `reevaluate_dependent_lines` loop of the pass
starting at `st` reaches index `i` (lines `0..i-1` already handled). -/
def dep_reach (st : AppState) (i : Nat) : AppState :=
  reeval_dep_from (pass_changed st) i 0 (first_pass st)

/-- The (live, debounced) result strings obtained by re-parsing and
re-evaluating line `i` against the environment and cache current when the
dependent pass reaches it. -/
def recompute_at (st : AppState) (i : Nat) : Str × Str :=
  let stp := dep_reach st i
  let line := stp.lines.getD i []
  let pr := parse_line stp.rates line stp.vars
  let v := evalValue stp.today pr.2 pr.1 stp.vars
  (if stp.withinDebounce && isErrorV v then [] else fmt_value v, fmt_value v)

/-- Line `i`'s raw text contains some changed variable's name as a literal
substring (the engine's conservative dependency test). -/
def contains_changed (changed_vars : List Str) (st : AppState) (i : Nat) : Bool :=
  changed_vars.any (fun v => isSubstr v (st.lines.getD i []))

theorem evaluate_vars_eq (today : ℤ) (rates : RateTable) (e : Expr) :
    ∀ vars : VarEnv, (evaluate today rates e vars).2 = vars := by
  induction e with
  | assignment n e ih =>
      intro vars
      cases hl : evaluate today rates e vars with
      | mk v v1 =>
          have h1 : v1 = vars := by have h := ih vars; rw [hl] at h; exact h
          subst h1
          cases v <;> simp [evaluate, hl]
  | binaryOp l op r ihl ihr =>
      intro vars
      cases hl : evaluate today rates l vars with
      | mk lv v1 =>
          have h1 : v1 = vars := by have h := ihl vars; rw [hl] at h; exact h
          subst h1
          cases lv with
          | none => simp [evaluate, hl]
          | some x =>
              cases hr : evaluate today rates r v1 with
              | mk rv v2 =>
                  have h2 : v2 = v1 := by have h := ihr v1; rw [hr] at h; exact h
                  subst h2
                  cases rv <;> simp [evaluate, hl, hr]
  | percentOf p v ihp ihv =>
      intro vars
      cases hl : evaluate today rates p vars with
      | mk pv v1 =>
          have h1 : v1 = vars := by have h := ihp vars; rw [hl] at h; exact h
          subst h1
          cases pv with
          | none => simp [evaluate, hl]
          | some x =>
              cases hr : evaluate today rates v v1 with
              | mk vv v2 =>
                  have h2 : v2 = v1 := by have h := ihv v1; rw [hr] at h; exact h
                  subst h2
                  cases vv <;> simp [evaluate, hl, hr]
  | convert e t ih =>
      intro vars
      cases hl : evaluate today rates e vars with
      | mk v v1 =>
          have h1 : v1 = vars := by have h := ih vars; rw [hl] at h; exact h
          subst h1
          cases v <;> simp [evaluate, hl]
  | number n => intro vars; simp [evaluate]
  | var n => intro vars; unfold evaluate; cases alistGet n vars <;> simp
  | unitValue v u => intro vars; simp [evaluate]
  | dateOffset d a u => intro vars; simp [evaluate]
  | error m => intro vars; simp [evaluate]
  | percentage p => intro vars; simp [evaluate]

theorem unit_diff_add_sub_isSome (rates : RateTable) (a : ℚ) (ua : Str) (op : Op) (b : ℚ)
    (ub : Str) (h : op = Op.add ∨ op = Op.subtract) :
    (unit_diff_add_sub rates a ua op b ub).isSome := by
  rcases h with rfl | rfl <;>
    · dsimp only [unit_diff_add_sub]
      split
      · simp
      · split
        · cases convert_units rates b (normalize_unit ub) (normalize_unit ua) <;> simp
        · cases convert_units rates b (normalize_unit ub) (normalize_unit ua) <;> simp

/-- Date-free values: no `Date` anywhere (looking through the `Assignment`
wrapper).  Dates originate only in `calculate_date_offset`, the one place
the model can panic. -/
def dfValue : Value → Bool
  | .date _ => false
  | .assignment _ v => dfValue v
  | _ => true

/-- Date-free expressions: no `DateOffset` node. -/
def dfExpr : Expr → Bool
  | .dateOffset _ _ _ => false
  | .assignment _ e => dfExpr e
  | .binaryOp l _ r => dfExpr l && dfExpr r
  | .percentOf a b => dfExpr a && dfExpr b
  | .convert e _ => dfExpr e
  | _ => true

/-- Date-free environments: every stored value is date-free. -/
def dfEnv (vars : VarEnv) : Bool := vars.all (fun p => dfValue p.2)

theorem unit_diff_add_sub_df (rates : RateTable) (a : ℚ) (ua : Str) (op : Op) (b : ℚ)
    (ub : Str) (v : Value) (h : unit_diff_add_sub rates a ua op b ub = some v) :
    dfValue v = true := by
  dsimp only [unit_diff_add_sub] at h
  repeat' split at h
  all_goals
    first
    | exact Option.noConfusion h
    | (injection h with h2; rw [← h2]; rfl)

theorem evaluate_binary_op_df (rates : RateTable) (lv : Value) (op : Op) (rv : Value)
    (hl : dfValue lv = true) (hr : dfValue rv = true) :
    ∃ v, evaluate_binary_op rates lv op rv = some v ∧ dfValue v = true := by
  have hs : (evaluate_binary_op rates lv op rv).isSome = true := by
    cases lv <;> cases op <;> cases rv <;>
      first
      | exact Bool.noConfusion hl
      | exact Bool.noConfusion hr
      | (simp only [evaluate_binary_op, Option.isSome_some] <;>
          first
          | rfl
          | (split <;>
              first
              | simp
              | exact unit_diff_add_sub_isSome rates _ _ _ _ _ (Or.inl rfl)
              | exact unit_diff_add_sub_isSome rates _ _ _ _ _ (Or.inr rfl)))
  obtain ⟨v, hv⟩ := Option.isSome_iff_exists.mp hs
  refine ⟨v, hv, ?_⟩
  cases lv <;> cases op <;> cases rv <;>
    first
    | exact Bool.noConfusion hl
    | exact Bool.noConfusion hr
    | (simp only [evaluate_binary_op] at hv
       repeat' split at hv
       all_goals
         first
         | exact Option.noConfusion hv
         | (injection hv with h2; rw [← h2]; rfl)
         | exact unit_diff_add_sub_df rates _ _ _ _ _ _ hv)

theorem dfEnv_get {n : Str} {v : Value} :
    ∀ {vars : VarEnv}, dfEnv vars = true → alistGet n vars = some v →
      dfValue v = true := by
  intro vars
  induction vars with
  | nil => intro _ hg; exact Option.noConfusion hg
  | cons p rest ih =>
      intro he hg
      simp only [dfEnv, List.all_cons, Bool.and_eq_true] at he
      rw [alistGet] at hg
      split at hg
      · injection hg with h2
        rw [← h2]
        exact he.1
      · exact ih he.2 hg

theorem evaluate_percent_of_df (pv vv : Value) :
    dfValue (evaluate_percent_of pv vv) = true := by
  cases pv <;> cases vv <;> rfl

theorem convert_unit_df (rates : RateTable) (v : Value) (t : Str) :
    dfValue (convert_unit rates v t) = true := by
  cases v <;>
    (simp only [convert_unit]
     repeat' split
     all_goals rfl)

theorem evaluate_df (today : ℤ) (rates : RateTable) (e : Expr) :
    ∀ vars : VarEnv, dfExpr e = true → dfEnv vars = true →
      ∃ v, (evaluate today rates e vars).1 = some v ∧ dfValue v = true := by
  induction e with
  | assignment n e ih =>
      intro vars he henv
      rw [show dfExpr (.assignment n e) = dfExpr e from rfl] at he
      obtain ⟨v, hv, hdf⟩ := ih vars he henv
      cases hl : evaluate today rates e vars with
      | mk v0 v1 =>
          rw [hl] at hv
          refine ⟨.assignment n v, ?_, hdf⟩
          simp [evaluate, hl, hv]
  | binaryOp l op r ihl ihr =>
      intro vars he henv
      simp only [dfExpr, Bool.and_eq_true] at he
      obtain ⟨lv, hlv, hldf⟩ := ihl vars he.1 henv
      cases hl : evaluate today rates l vars with
      | mk lv0 v1 =>
          have hlv2 : lv0 = some lv := by rw [hl] at hlv; exact hlv
          have hv1 : v1 = vars := by
            have h2 := evaluate_vars_eq today rates l vars
            rw [hl] at h2
            exact h2
          rw [hv1] at hl
          obtain ⟨rv, hrv, hrdf⟩ := ihr vars he.2 henv
          cases hr : evaluate today rates r vars with
          | mk rv0 v2 =>
              have hrv2 : rv0 = some rv := by rw [hr] at hrv; exact hrv
              obtain ⟨v, hv, hdf⟩ := evaluate_binary_op_df rates lv op rv hldf hrdf
              refine ⟨v, ?_, hdf⟩
              simp [evaluate, hl, hr, hlv2, hrv2, hv]
  | percentOf p q ihp ihq =>
      intro vars he henv
      simp only [dfExpr, Bool.and_eq_true] at he
      obtain ⟨pv, hpv, hpdf⟩ := ihp vars he.1 henv
      cases hl : evaluate today rates p vars with
      | mk pv0 v1 =>
          have hpv2 : pv0 = some pv := by rw [hl] at hpv; exact hpv
          have hv1 : v1 = vars := by
            have h2 := evaluate_vars_eq today rates p vars
            rw [hl] at h2
            exact h2
          rw [hv1] at hl
          obtain ⟨qv, hqv, hqdf⟩ := ihq vars he.2 henv
          cases hr : evaluate today rates q vars with
          | mk qv0 v2 =>
              have hqv2 : qv0 = some qv := by rw [hr] at hqv; exact hqv
              refine ⟨evaluate_percent_of pv qv, ?_, evaluate_percent_of_df pv qv⟩
              simp [evaluate, hl, hr, hpv2, hqv2]
  | convert e t ih =>
      intro vars he henv
      rw [show dfExpr (.convert e t) = dfExpr e from rfl] at he
      obtain ⟨v, hv, hdf⟩ := ih vars he henv
      cases hl : evaluate today rates e vars with
      | mk v0 v1 =>
          rw [hl] at hv
          refine ⟨convert_unit rates v t, ?_, convert_unit_df rates v t⟩
          simp [evaluate, hl, hv]
  | number n => intro vars _ _; exact ⟨.number n, rfl, rfl⟩
  | percentage p => intro vars _ _; exact ⟨.percentage p, rfl, rfl⟩
  | unitValue v u => intro vars _ _; exact ⟨.unit v u, rfl, rfl⟩
  | error m => intro vars _ _; exact ⟨.error m, rfl, rfl⟩
  | var n =>
      intro vars _ henv
      cases hg : alistGet n vars with
      | none =>
          refine ⟨.error (str "Unknown variable: " ++ n), ?_, rfl⟩
          simp [evaluate, hg]
      | some v =>
          refine ⟨v, ?_, dfEnv_get henv hg⟩
          simp [evaluate, hg]
  | dateOffset d a u =>
      intro vars he _
      exact absurd he (by simp [dfExpr])


/--
C8: for every expression tree and every variable environment, `evaluate`
leaves the variable environment unchanged (the threaded environment is
returned exactly as it was passed in: the evaluator never inserts, removes
or overwrites a binding), and an `Assignment` expression only returns an
`Assignment` value wrapping its inner result — the commit is the caller's
job.
-/
theorem C8_evaluate_never_mutates_environment (today : ℤ) (rates : RateTable) (e : Expr)
    (vars : VarEnv) :
    (evaluate today rates e vars).2 = vars ∧
    ∀ (name : Str) (inner : Expr),
      (evaluate today rates (Expr.assignment name inner) vars).1 =
        ((evaluate today rates inner vars).1).map (Value.assignment name) := by
  refine ⟨evaluate_vars_eq today rates e vars, ?_⟩
  intro name inner
  cases hl : evaluate today rates inner vars with
  | mk v v1 => cases v <;> simp [evaluate, hl]

/-- C10 counterexample: totality is false of the program.  The line
"next monday + 100000000 days" parses to a DateOffset whose amount fits
`i64`, and evaluating it panics inside `evaluate`: `next_day +
Duration::days(100000000)` leaves `NaiveDate`'s range (about 9.5e7 days
above day 0), the modelled `none` — so `evaluate` does not return a
`Value` on every expression. -/
theorem C10_date_overflow_counterexample :
    (parse_line [] (str "next monday + 100000000 days") []).1 =
      Expr.dateOffset (str "monday") 100000000 (str "days") ∧
    (evaluate 0 [] (Expr.dateOffset (str "monday") 100000000 (str "days")) []).1 = none ∧
    ¬ ∀ (e : Expr) (vars : VarEnv), ((evaluate 0 [] e vars).1).isSome = true := by
  refine ⟨by decide, by decide, ?_⟩
  intro h
  have h2 := h (Expr.dateOffset (str "monday") 100000000 (str "days")) []
  rw [show (evaluate 0 [] (Expr.dateOffset (str "monday") 100000000 (str "days")) []).1 =
    none from by decide] at h2
  exact Bool.noConfusion h2

/-- C10 (amended): `evaluate` returns a `Value` on every DATE-FREE input —
an expression with no DateOffset node over an environment storing no Date
value, which keeps it away from chrono's panicking date arithmetic, the
one reachable panic — and the `unreachable!()` arms of the `Unit ± Unit`
handling are dead: `unit_diff_add_sub` always produces a value when the
operator is Add or Subtract, the only patterns under which the source
reaches it. -/
theorem C10_evaluate_total_amended (today : ℤ) (rates : RateTable) (e : Expr) (vars : VarEnv) :
    (dfExpr e = true → dfEnv vars = true →
      ∃ v : Value, (evaluate today rates e vars).1 = some v) ∧
    ∀ (a : ℚ) (ua : Str) (op : Op) (b : ℚ) (ub : Str),
      op = Op.add ∨ op = Op.subtract →
        ∃ v : Value, unit_diff_add_sub rates a ua op b ub = some v := by
  constructor
  · intro he henv
    obtain ⟨v, hv, _⟩ := evaluate_df today rates e vars he henv
    exact ⟨v, hv⟩
  · intro a ua op b ub h
    exact Option.isSome_iff_exists.mp (unit_diff_add_sub_isSome rates a ua op b ub h)

/-- C10 witness: the amended theorem applied to the date-free expression
1 + 2 over the empty environment, and its dead-arm part at `Op.add`. -/
theorem C10_evaluate_total_amended_witness :
    (∃ v : Value,
      (evaluate 0 [] (Expr.binaryOp (Expr.number 1) Op.add (Expr.number 2)) []).1 = some v) ∧
    (∃ v : Value, unit_diff_add_sub [] 1 (str "kg") Op.add 1 (str "g") = some v) :=
  ⟨(C10_evaluate_total_amended 0 [] (Expr.binaryOp (Expr.number 1) Op.add (Expr.number 2)) []).1
      (by decide) (by decide),
   (C10_evaluate_total_amended 0 [] (Expr.number 0) []).2 1 (str "kg") Op.add 1 (str "g") (Or.inl rfl)⟩

/--
C2: `"20% of 50"` parses and evaluates to `Number(10.0)` and
`"20% of 50 USD"` to `Unit(10.0, "USD")`, under every variable environment,
cache and date; in general, evaluating `PercentOf(p, v)` where `p` evaluates
to `Number(P)` or `Percentage(P)` yields `Number((P/100)*V)` when `v`
evaluates to `Number(V)` and `Unit((P/100)*V, u)` when `v` evaluates to
`Unit(V, u)`.
-/
theorem C2_percent_of (today : ℤ) (rates : RateTable) (vars : VarEnv) :
    parse_eval today rates (str "20% of 50") vars = Value.number 10 ∧
    parse_eval today rates (str "20% of 50 USD") vars = Value.unit 10 (str "USD") ∧
    (∀ (p v : Expr) (P V : ℚ),
      ((evaluate today rates p vars).1 = some (Value.number P) ∨
        (evaluate today rates p vars).1 = some (Value.percentage P)) →
      (evaluate today rates v vars).1 = some (Value.number V) →
      (evaluate today rates (Expr.percentOf p v) vars).1 =
        some (Value.number ((P / 100) * V))) ∧
    (∀ (p v : Expr) (P V : ℚ) (u : Str),
      ((evaluate today rates p vars).1 = some (Value.number P) ∨
        (evaluate today rates p vars).1 = some (Value.percentage P)) →
      (evaluate today rates v vars).1 = some (Value.unit V u) →
      (evaluate today rates (Expr.percentOf p v) vars).1 =
        some (Value.unit ((P / 100) * V) u)) := by
  refine ⟨?_, ?_, ?_, ?_⟩
  · have h : parse_eval today rates (str "20% of 50") vars =
        Value.number ((20 / 100) * 50) := rfl
    rw [h]
    norm_num
  · have h : parse_eval today rates (str "20% of 50 USD") vars =
        Value.unit ((20 / 100) * 50) (str "USD") := rfl
    rw [h]
    norm_num
  · intro p v P V hP hV
    cases hl : evaluate today rates p vars with
    | mk pv v1 =>
        have h1 : v1 = vars := by have h := evaluate_vars_eq today rates p vars; rw [hl] at h; exact h
        subst h1
        cases hr : evaluate today rates v v1 with
        | mk vv v2 =>
            rw [hl] at hP
            rw [hr] at hV
            simp only at hP hV
            rcases hP with hP | hP <;>
              · subst hP
                subst hV
                simp [evaluate, hl, hr, evaluate_percent_of]
  · intro p v P V u hP hV
    cases hl : evaluate today rates p vars with
    | mk pv v1 =>
        have h1 : v1 = vars := by have h := evaluate_vars_eq today rates p vars; rw [hl] at h; exact h
        subst h1
        cases hr : evaluate today rates v v1 with
        | mk vv v2 =>
            rw [hl] at hP
            rw [hr] at hV
            simp only at hP hV
            rcases hP with hP | hP <;>
              · subst hP
                subst hV
                simp [evaluate, hl, hr, evaluate_percent_of]

/-- Closed witness for C2, discharging the evaluation hypotheses at
`PercentOf(Percentage 20, UnitValue(50, "USD"))`. -/
theorem C2_percent_of_witness :
    (evaluate 0 [] (Expr.percentOf (Expr.percentage 20) (Expr.unitValue 50 (str "USD"))) []).1 =
      some (Value.unit 10 (str "USD")) := by
  have h := (C2_percent_of 0 [] []).2.2.2 (Expr.percentage 20) (Expr.unitValue 50 (str "USD"))
    20 50 (str "USD") (Or.inr rfl) rfl
  rw [h]
  norm_num

theorem alistGet_ainsert_self {β : Type} (k : Str) (v : β) :
    ∀ l : List (Str × β), alistGet k (ainsert k v l) = some v := by
  intro l
  induction l with
  | nil => simp [ainsert, alistGet]
  | cons p rest ih =>
      by_cases h : k = p.1
      · simp [ainsert, alistGet, h]
      · simp [ainsert, alistGet, h, ih]

/--
C6 (falsified by the code): the claim says every value stored in the
variable environment is a non-`Assignment` value, the wrapper being
unwrapped exactly one level before storage, "in particular … for nested
assignments such as `x = y = 5`".  The engine really does unwrap exactly
one level, so on the document `["x = y = 5"]` it stores
`Assignment("y", Number 5)` — itself an `Assignment` — as `x`'s value,
violating the invariant.
-/
theorem C6_nested_assignment_stores_assignment_value :
    alistGet (str "x") (evaluate_expressions (loadApp [] 0 false ["x = y = 5"])).vars =
      some (Value.assignment (str "y") (Value.number 5)) := by decide

/--
C7 counterexample: the claim says an assignment line whose right-hand side
evaluates to an `Error` never stores a binding.  On the document
`["x = 1 / 0"]` the evaluation pass does store a binding for `x` — the
`Error` value itself.
-/
theorem C7_error_assignment_stored_counterexample :
    alistGet (str "x") (evaluate_expressions (loadApp [] 0 false ["x = 1 / 0"])).vars =
      some (Value.error (str "Division by zero")) ∧
    alistGet (str "x") (evaluate_expressions (loadApp [] 0 false ["x = 1 / 0"])).vars ≠
      none := by
  constructor
  · decide
  · decide

/--
C7 as amended: for every assignment whose right-hand side evaluates to an
`Error`, the evaluator wraps the error in an `Assignment` value anyway (it
has no special case for errors), and the engine's commit in
`update_result_for_line` therefore stores the `Error` value as the
variable's binding — later references see the error value.
-/
theorem C7_error_assignments_commit (today : ℤ) (rates : RateTable) (vars : VarEnv)
    (name : Str) (rhs : Expr) (msg : Str)
    (h : (evaluate today rates rhs vars).1 = some (Value.error msg)) :
    (evaluate today rates (Expr.assignment name rhs) vars).1 =
      some (Value.assignment name (Value.error msg)) ∧
    ∀ (st : AppState) (i : Nat), i < st.results.length →
      alistGet name
          (update_result_for_line st i (Value.assignment name (Value.error msg))).vars =
        some (Value.error msg) := by
  constructor
  · cases hl : evaluate today rates rhs vars with
    | mk v v1 =>
        rw [hl] at h
        simp only at h
        subst h
        simp [evaluate, hl]
  · intro st i hi
    simp only [update_result_for_line, if_pos hi]
    exact alistGet_ainsert_self name (Value.error msg) st.vars

/-- Closed witness for C7's amended theorem at `x = 1 / 0`. -/
theorem C7_error_assignments_commit_witness :
    (evaluate 0 []
        (Expr.assignment (str "x") (Expr.binaryOp (Expr.number 1) Op.divide (Expr.number 0)))
        []).1 =
      some (Value.assignment (str "x") (Value.error (str "Division by zero"))) ∧
    alistGet (str "x")
        (update_result_for_line (loadApp [] 0 false ["x = 1 / 0"]) 0
          (Value.assignment (str "x") (Value.error (str "Division by zero")))).vars =
      some (Value.error (str "Division by zero")) := by
  have h := C7_error_assignments_commit 0 [] [] (str "x")
    (Expr.binaryOp (Expr.number 1) Op.divide (Expr.number 0)) (str "Division by zero")
    (by decide)
  exact ⟨h.1, h.2 (loadApp [] 0 false ["x = 1 / 0"]) 0 (by decide)⟩

theorem conv_round_trip_aux (u1 u2 : Str) (f g : ℚ → ℚ)
    (hf : ∀ (rates : RateTable) (v : ℚ), convert_units rates v u1 u2 = some (f v))
    (hg : ∀ (rates : RateTable) (v : ℚ), convert_units rates v u2 u1 = some (g v))
    (hinv : ∀ v, g (f v) = v) (rates : RateTable) (v : ℚ) :
    ∃ w v2 : ℚ, convert_units rates v u1 u2 = some w ∧
      convert_units rates w u2 u1 = some v2 ∧ |v2 - v| ≤ 1e-9 * |v| := by
  refine ⟨f v, v, hf rates v, ?_, ?_⟩
  · rw [hg rates (f v), hinv v]
  · simp only [sub_self, abs_zero]
    positivity

/--
C4 counterexample: the claim asserts the round trip for every pair with an
entry in the conversion table, but `convert_units` normalizes its unit
arguments first, and normalization maps `tsp` to the currency-shaped `TSP`,
so the table entry `("ml", "tsp")` is unreachable: the forward conversion
of 10 ml to tsp returns `none` and no round trip exists at all.
-/
theorem C4_round_trip_counterexample :
    ("ml", "tsp") ∈ tablePairs ∧
    convert_units [] 10 (str "ml") (str "tsp") = none ∧
    ¬∃ w v2 : ℚ, convert_units [] 10 (str "ml") (str "tsp") = some w ∧
      convert_units [] w (str "tsp") (str "ml") = some v2 ∧ |v2 - 10| ≤ 1e-9 * |(10 : ℚ)| := by
  refine ⟨by decide, by decide, ?_⟩
  rintro ⟨w, v2, hw, -, -⟩
  rw [show convert_units [] 10 (str "ml") (str "tsp") = none from by decide] at hw
  exact Option.noConfusion hw

theorem conv_rt_chunk1 :
    ∀ p ∈ ([("B", "bit"), ("bit", "B"), ("s", "min"), ("min", "s"), ("min", "h"), ("h", "min"), ("h", "s"), ("s", "h"), ("day", "h"), ("h", "day"), ("day", "s"), ("s", "day"), ("week", "day"), ("day", "week"), ("month", "day"), ("day", "month"), ("year", "day"), ("day", "year"), ("year", "month"), ("month", "year")] : List (String × String)),
      normalize_unit (str p.1) = str p.1 →
      normalize_unit (str p.2) = str p.2 →
      ∀ (rates : RateTable) (v : ℚ),
        ∃ w v2 : ℚ, convert_units rates v (str p.1) (str p.2) = some w ∧
          convert_units rates w (str p.2) (str p.1) = some v2 ∧ |v2 - v| ≤ 1e-9 * |v| := by
  intro p hp
  fin_cases hp
  · exact fun _ _ rates v =>
      conv_round_trip_aux (str "B") (str "bit") (fun v => v * 8) (fun v => v / 8)
        (fun _ _ => rfl) (fun _ _ => rfl) (fun v => by ring) rates v
  · exact fun _ _ rates v =>
      conv_round_trip_aux (str "bit") (str "B") (fun v => v / 8) (fun v => v * 8)
        (fun _ _ => rfl) (fun _ _ => rfl) (fun v => by ring) rates v
  · exact fun _ _ rates v =>
      conv_round_trip_aux (str "s") (str "min") (fun v => v / 60) (fun v => v * 60)
        (fun _ _ => rfl) (fun _ _ => rfl) (fun v => by ring) rates v
  · exact fun _ _ rates v =>
      conv_round_trip_aux (str "min") (str "s") (fun v => v * 60) (fun v => v / 60)
        (fun _ _ => rfl) (fun _ _ => rfl) (fun v => by ring) rates v
  · exact fun _ _ rates v =>
      conv_round_trip_aux (str "min") (str "h") (fun v => v / 60) (fun v => v * 60)
        (fun _ _ => rfl) (fun _ _ => rfl) (fun v => by ring) rates v
  · exact fun _ _ rates v =>
      conv_round_trip_aux (str "h") (str "min") (fun v => v * 60) (fun v => v / 60)
        (fun _ _ => rfl) (fun _ _ => rfl) (fun v => by ring) rates v
  · exact fun _ _ rates v =>
      conv_round_trip_aux (str "h") (str "s") (fun v => v * 3600) (fun v => v / 3600)
        (fun _ _ => rfl) (fun _ _ => rfl) (fun v => by ring) rates v
  · exact fun _ _ rates v =>
      conv_round_trip_aux (str "s") (str "h") (fun v => v / 3600) (fun v => v * 3600)
        (fun _ _ => rfl) (fun _ _ => rfl) (fun v => by ring) rates v
  · exact fun _ _ rates v =>
      conv_round_trip_aux (str "day") (str "h") (fun v => v * 24) (fun v => v / 24)
        (fun _ _ => rfl) (fun _ _ => rfl) (fun v => by ring) rates v
  · exact fun _ _ rates v =>
      conv_round_trip_aux (str "h") (str "day") (fun v => v / 24) (fun v => v * 24)
        (fun _ _ => rfl) (fun _ _ => rfl) (fun v => by ring) rates v
  · exact fun _ _ rates v =>
      conv_round_trip_aux (str "day") (str "s") (fun v => v * 86400) (fun v => v / 86400)
        (fun _ _ => rfl) (fun _ _ => rfl) (fun v => by ring) rates v
  · exact fun _ _ rates v =>
      conv_round_trip_aux (str "s") (str "day") (fun v => v / 86400) (fun v => v * 86400)
        (fun _ _ => rfl) (fun _ _ => rfl) (fun v => by ring) rates v
  · exact fun _ _ rates v =>
      conv_round_trip_aux (str "week") (str "day") (fun v => v * 7) (fun v => v / 7)
        (fun _ _ => rfl) (fun _ _ => rfl) (fun v => by ring) rates v
  · exact fun _ _ rates v =>
      conv_round_trip_aux (str "day") (str "week") (fun v => v / 7) (fun v => v * 7)
        (fun _ _ => rfl) (fun _ _ => rfl) (fun v => by ring) rates v
  · exact fun _ _ rates v =>
      conv_round_trip_aux (str "month") (str "day") (fun v => v * 30.44) (fun v => v / 30.44)
        (fun _ _ => rfl) (fun _ _ => rfl) (fun v => by ring) rates v
  · exact fun _ _ rates v =>
      conv_round_trip_aux (str "day") (str "month") (fun v => v / 30.44) (fun v => v * 30.44)
        (fun _ _ => rfl) (fun _ _ => rfl) (fun v => by ring) rates v
  · exact fun _ _ rates v =>
      conv_round_trip_aux (str "year") (str "day") (fun v => v * 365.25) (fun v => v / 365.25)
        (fun _ _ => rfl) (fun _ _ => rfl) (fun v => by ring) rates v
  · exact fun _ _ rates v =>
      conv_round_trip_aux (str "day") (str "year") (fun v => v / 365.25) (fun v => v * 365.25)
        (fun _ _ => rfl) (fun _ _ => rfl) (fun v => by ring) rates v
  · exact fun _ _ rates v =>
      conv_round_trip_aux (str "year") (str "month") (fun v => v * 12) (fun v => v / 12)
        (fun _ _ => rfl) (fun _ _ => rfl) (fun v => by ring) rates v
  · exact fun _ _ rates v =>
      conv_round_trip_aux (str "month") (str "year") (fun v => v / 12) (fun v => v * 12)
        (fun _ _ => rfl) (fun _ _ => rfl) (fun v => by ring) rates v

theorem conv_rt_chunk2 :
    ∀ p ∈ ([("decade", "year"), ("year", "decade"), ("century", "year"), ("year", "century"), ("ms", "s"), ("s", "ms"), ("us", "ms"), ("ms", "us"), ("ns", "us"), ("us", "ns"), ("cm", "m"), ("m", "cm"), ("cm", "mm"), ("mm", "cm"), ("in", "cm"), ("cm", "in"), ("ft", "m"), ("m", "ft"), ("mm", "m"), ("m", "mm")] : List (String × String)),
      normalize_unit (str p.1) = str p.1 →
      normalize_unit (str p.2) = str p.2 →
      ∀ (rates : RateTable) (v : ℚ),
        ∃ w v2 : ℚ, convert_units rates v (str p.1) (str p.2) = some w ∧
          convert_units rates w (str p.2) (str p.1) = some v2 ∧ |v2 - v| ≤ 1e-9 * |v| := by
  intro p hp
  fin_cases hp
  · exact fun _ _ rates v =>
      conv_round_trip_aux (str "decade") (str "year") (fun v => v * 10) (fun v => v / 10)
        (fun _ _ => rfl) (fun _ _ => rfl) (fun v => by ring) rates v
  · exact fun _ _ rates v =>
      conv_round_trip_aux (str "year") (str "decade") (fun v => v / 10) (fun v => v * 10)
        (fun _ _ => rfl) (fun _ _ => rfl) (fun v => by ring) rates v
  · exact fun _ _ rates v =>
      conv_round_trip_aux (str "century") (str "year") (fun v => v * 100) (fun v => v / 100)
        (fun _ _ => rfl) (fun _ _ => rfl) (fun v => by ring) rates v
  · exact fun _ _ rates v =>
      conv_round_trip_aux (str "year") (str "century") (fun v => v / 100) (fun v => v * 100)
        (fun _ _ => rfl) (fun _ _ => rfl) (fun v => by ring) rates v
  · exact fun _ _ rates v =>
      conv_round_trip_aux (str "ms") (str "s") (fun v => v / 1000) (fun v => v * 1000)
        (fun _ _ => rfl) (fun _ _ => rfl) (fun v => by ring) rates v
  · exact fun _ _ rates v =>
      conv_round_trip_aux (str "s") (str "ms") (fun v => v * 1000) (fun v => v / 1000)
        (fun _ _ => rfl) (fun _ _ => rfl) (fun v => by ring) rates v
  · exact fun _ _ rates v =>
      conv_round_trip_aux (str "us") (str "ms") (fun v => v / 1000) (fun v => v * 1000)
        (fun _ _ => rfl) (fun _ _ => rfl) (fun v => by ring) rates v
  · exact fun _ _ rates v =>
      conv_round_trip_aux (str "ms") (str "us") (fun v => v * 1000) (fun v => v / 1000)
        (fun _ _ => rfl) (fun _ _ => rfl) (fun v => by ring) rates v
  · exact fun _ _ rates v =>
      conv_round_trip_aux (str "ns") (str "us") (fun v => v / 1000) (fun v => v * 1000)
        (fun _ _ => rfl) (fun _ _ => rfl) (fun v => by ring) rates v
  · exact fun _ _ rates v =>
      conv_round_trip_aux (str "us") (str "ns") (fun v => v * 1000) (fun v => v / 1000)
        (fun _ _ => rfl) (fun _ _ => rfl) (fun v => by ring) rates v
  · exact fun _ h2 => absurd h2 (by decide)
  · exact fun h1 _ => absurd h1 (by decide)
  · exact fun _ _ rates v =>
      conv_round_trip_aux (str "cm") (str "mm") (fun v => v * 10) (fun v => v / 10)
        (fun _ _ => rfl) (fun _ _ => rfl) (fun v => by ring) rates v
  · exact fun _ _ rates v =>
      conv_round_trip_aux (str "mm") (str "cm") (fun v => v / 10) (fun v => v * 10)
        (fun _ _ => rfl) (fun _ _ => rfl) (fun v => by ring) rates v
  · exact fun _ _ rates v =>
      conv_round_trip_aux (str "in") (str "cm") (fun v => v * 2.54) (fun v => v / 2.54)
        (fun _ _ => rfl) (fun _ _ => rfl) (fun v => by ring) rates v
  · exact fun _ _ rates v =>
      conv_round_trip_aux (str "cm") (str "in") (fun v => v / 2.54) (fun v => v * 2.54)
        (fun _ _ => rfl) (fun _ _ => rfl) (fun v => by ring) rates v
  · exact fun _ h2 => absurd h2 (by decide)
  · exact fun h1 _ => absurd h1 (by decide)
  · exact fun _ h2 => absurd h2 (by decide)
  · exact fun h1 _ => absurd h1 (by decide)

theorem conv_rt_chunk3 :
    ∀ p ∈ ([("km", "m"), ("m", "km"), ("mi", "km"), ("km", "mi"), ("mi", "m"), ("m", "mi"), ("in", "mm"), ("mm", "in"), ("ft", "in"), ("in", "ft"), ("yd", "ft"), ("ft", "yd"), ("yd", "m"), ("m", "yd"), ("m2", "cm2"), ("cm2", "m2"), ("km2", "m2"), ("m2", "km2"), ("ha", "m2"), ("m2", "ha")] : List (String × String)),
      normalize_unit (str p.1) = str p.1 →
      normalize_unit (str p.2) = str p.2 →
      ∀ (rates : RateTable) (v : ℚ),
        ∃ w v2 : ℚ, convert_units rates v (str p.1) (str p.2) = some w ∧
          convert_units rates w (str p.2) (str p.1) = some v2 ∧ |v2 - v| ≤ 1e-9 * |v| := by
  intro p hp
  fin_cases hp
  · exact fun _ h2 => absurd h2 (by decide)
  · exact fun h1 _ => absurd h1 (by decide)
  · exact fun _ _ rates v =>
      conv_round_trip_aux (str "mi") (str "km") (fun v => v * 1.60934) (fun v => v / 1.60934)
        (fun _ _ => rfl) (fun _ _ => rfl) (fun v => by ring) rates v
  · exact fun _ _ rates v =>
      conv_round_trip_aux (str "km") (str "mi") (fun v => v / 1.60934) (fun v => v * 1.60934)
        (fun _ _ => rfl) (fun _ _ => rfl) (fun v => by ring) rates v
  · exact fun _ h2 => absurd h2 (by decide)
  · exact fun h1 _ => absurd h1 (by decide)
  · exact fun _ _ rates v =>
      conv_round_trip_aux (str "in") (str "mm") (fun v => v * 25.4) (fun v => v / 25.4)
        (fun _ _ => rfl) (fun _ _ => rfl) (fun v => by ring) rates v
  · exact fun _ _ rates v =>
      conv_round_trip_aux (str "mm") (str "in") (fun v => v / 25.4) (fun v => v * 25.4)
        (fun _ _ => rfl) (fun _ _ => rfl) (fun v => by ring) rates v
  · exact fun _ _ rates v =>
      conv_round_trip_aux (str "ft") (str "in") (fun v => v * 12) (fun v => v / 12)
        (fun _ _ => rfl) (fun _ _ => rfl) (fun v => by ring) rates v
  · exact fun _ _ rates v =>
      conv_round_trip_aux (str "in") (str "ft") (fun v => v / 12) (fun v => v * 12)
        (fun _ _ => rfl) (fun _ _ => rfl) (fun v => by ring) rates v
  · exact fun _ _ rates v =>
      conv_round_trip_aux (str "yd") (str "ft") (fun v => v * 3) (fun v => v / 3)
        (fun _ _ => rfl) (fun _ _ => rfl) (fun v => by ring) rates v
  · exact fun _ _ rates v =>
      conv_round_trip_aux (str "ft") (str "yd") (fun v => v / 3) (fun v => v * 3)
        (fun _ _ => rfl) (fun _ _ => rfl) (fun v => by ring) rates v
  · exact fun _ h2 => absurd h2 (by decide)
  · exact fun h1 _ => absurd h1 (by decide)
  · exact fun _ _ rates v =>
      conv_round_trip_aux (str "m2") (str "cm2") (fun v => v * 10000) (fun v => v / 10000)
        (fun _ _ => rfl) (fun _ _ => rfl) (fun v => by ring) rates v
  · exact fun _ _ rates v =>
      conv_round_trip_aux (str "cm2") (str "m2") (fun v => v / 10000) (fun v => v * 10000)
        (fun _ _ => rfl) (fun _ _ => rfl) (fun v => by ring) rates v
  · exact fun _ _ rates v =>
      conv_round_trip_aux (str "km2") (str "m2") (fun v => v * 1000000) (fun v => v / 1000000)
        (fun _ _ => rfl) (fun _ _ => rfl) (fun v => by ring) rates v
  · exact fun _ _ rates v =>
      conv_round_trip_aux (str "m2") (str "km2") (fun v => v / 1000000) (fun v => v * 1000000)
        (fun _ _ => rfl) (fun _ _ => rfl) (fun v => by ring) rates v
  · exact fun _ _ rates v =>
      conv_round_trip_aux (str "ha") (str "m2") (fun v => v * 10000) (fun v => v / 10000)
        (fun _ _ => rfl) (fun _ _ => rfl) (fun v => by ring) rates v
  · exact fun _ _ rates v =>
      conv_round_trip_aux (str "m2") (str "ha") (fun v => v / 10000) (fun v => v * 10000)
        (fun _ _ => rfl) (fun _ _ => rfl) (fun v => by ring) rates v

theorem conv_rt_chunk4 :
    ∀ p ∈ ([("acre", "m2"), ("m2", "acre"), ("acre", "ha"), ("ha", "acre"), ("mi2", "km2"), ("km2", "mi2"), ("ml", "l"), ("l", "ml"), ("ml", "tsp"), ("tsp", "ml"), ("ml", "tbsp"), ("tbsp", "ml"), ("ml", "teasp"), ("teasp", "ml"), ("l", "gal"), ("gal", "l"), ("cup", "ml"), ("ml", "cup"), ("pt", "ml"), ("ml", "pt")] : List (String × String)),
      normalize_unit (str p.1) = str p.1 →
      normalize_unit (str p.2) = str p.2 →
      ∀ (rates : RateTable) (v : ℚ),
        ∃ w v2 : ℚ, convert_units rates v (str p.1) (str p.2) = some w ∧
          convert_units rates w (str p.2) (str p.1) = some v2 ∧ |v2 - v| ≤ 1e-9 * |v| := by
  intro p hp
  fin_cases hp
  · exact fun _ _ rates v =>
      conv_round_trip_aux (str "acre") (str "m2") (fun v => v * 4046.86) (fun v => v / 4046.86)
        (fun _ _ => rfl) (fun _ _ => rfl) (fun v => by ring) rates v
  · exact fun _ _ rates v =>
      conv_round_trip_aux (str "m2") (str "acre") (fun v => v / 4046.86) (fun v => v * 4046.86)
        (fun _ _ => rfl) (fun _ _ => rfl) (fun v => by ring) rates v
  · exact fun _ _ rates v =>
      conv_round_trip_aux (str "acre") (str "ha") (fun v => v * 0.404686) (fun v => v / 0.404686)
        (fun _ _ => rfl) (fun _ _ => rfl) (fun v => by ring) rates v
  · exact fun _ _ rates v =>
      conv_round_trip_aux (str "ha") (str "acre") (fun v => v / 0.404686) (fun v => v * 0.404686)
        (fun _ _ => rfl) (fun _ _ => rfl) (fun v => by ring) rates v
  · exact fun _ _ rates v =>
      conv_round_trip_aux (str "mi2") (str "km2") (fun v => v * 2.58999) (fun v => v / 2.58999)
        (fun _ _ => rfl) (fun _ _ => rfl) (fun v => by ring) rates v
  · exact fun _ _ rates v =>
      conv_round_trip_aux (str "km2") (str "mi2") (fun v => v / 2.58999) (fun v => v * 2.58999)
        (fun _ _ => rfl) (fun _ _ => rfl) (fun v => by ring) rates v
  · exact fun _ _ rates v =>
      conv_round_trip_aux (str "ml") (str "l") (fun v => v / 1000) (fun v => v * 1000)
        (fun _ _ => rfl) (fun _ _ => rfl) (fun v => by ring) rates v
  · exact fun _ _ rates v =>
      conv_round_trip_aux (str "l") (str "ml") (fun v => v * 1000) (fun v => v / 1000)
        (fun _ _ => rfl) (fun _ _ => rfl) (fun v => by ring) rates v
  · exact fun _ h2 => absurd h2 (by decide)
  · exact fun h1 _ => absurd h1 (by decide)
  · exact fun _ _ rates v =>
      conv_round_trip_aux (str "ml") (str "tbsp") (fun v => v / 15) (fun v => v * 15)
        (fun _ _ => rfl) (fun _ _ => rfl) (fun v => by ring) rates v
  · exact fun _ _ rates v =>
      conv_round_trip_aux (str "tbsp") (str "ml") (fun v => v * 15) (fun v => v / 15)
        (fun _ _ => rfl) (fun _ _ => rfl) (fun v => by ring) rates v
  · exact fun _ _ rates v =>
      conv_round_trip_aux (str "ml") (str "teasp") (fun v => v * 0.2) (fun v => v / 0.2)
        (fun _ _ => rfl) (fun _ _ => rfl) (fun v => by ring) rates v
  · exact fun _ _ rates v =>
      conv_round_trip_aux (str "teasp") (str "ml") (fun v => v / 0.2) (fun v => v * 0.2)
        (fun _ _ => rfl) (fun _ _ => rfl) (fun v => by ring) rates v
  · exact fun _ h2 => absurd h2 (by decide)
  · exact fun h1 _ => absurd h1 (by decide)
  · exact fun h1 _ => absurd h1 (by decide)
  · exact fun _ h2 => absurd h2 (by decide)
  · exact fun _ _ rates v =>
      conv_round_trip_aux (str "pt") (str "ml") (fun v => v * 473.176) (fun v => v / 473.176)
        (fun _ _ => rfl) (fun _ _ => rfl) (fun v => by ring) rates v
  · exact fun _ _ rates v =>
      conv_round_trip_aux (str "ml") (str "pt") (fun v => v / 473.176) (fun v => v * 473.176)
        (fun _ _ => rfl) (fun _ _ => rfl) (fun v => by ring) rates v

theorem conv_rt_chunk5 :
    ∀ p ∈ ([("qt", "ml"), ("ml", "qt"), ("floz", "ml"), ("ml", "floz"), ("cup", "floz"), ("floz", "cup"), ("m3", "l"), ("l", "m3"), ("ft3", "m3"), ("m3", "ft3"), ("g", "kg"), ("kg", "g"), ("lb", "kg"), ("kg", "lb"), ("oz", "g"), ("g", "oz"), ("mg", "g"), ("g", "mg"), ("kg", "ton"), ("ton", "kg")] : List (String × String)),
      normalize_unit (str p.1) = str p.1 →
      normalize_unit (str p.2) = str p.2 →
      ∀ (rates : RateTable) (v : ℚ),
        ∃ w v2 : ℚ, convert_units rates v (str p.1) (str p.2) = some w ∧
          convert_units rates w (str p.2) (str p.1) = some v2 ∧ |v2 - v| ≤ 1e-9 * |v| := by
  intro p hp
  fin_cases hp
  · exact fun _ _ rates v =>
      conv_round_trip_aux (str "qt") (str "ml") (fun v => v * 946.353) (fun v => v / 946.353)
        (fun _ _ => rfl) (fun _ _ => rfl) (fun v => by ring) rates v
  · exact fun _ _ rates v =>
      conv_round_trip_aux (str "ml") (str "qt") (fun v => v / 946.353) (fun v => v * 946.353)
        (fun _ _ => rfl) (fun _ _ => rfl) (fun v => by ring) rates v
  · exact fun _ _ rates v =>
      conv_round_trip_aux (str "floz") (str "ml") (fun v => v * 29.5735) (fun v => v / 29.5735)
        (fun _ _ => rfl) (fun _ _ => rfl) (fun v => by ring) rates v
  · exact fun _ _ rates v =>
      conv_round_trip_aux (str "ml") (str "floz") (fun v => v / 29.5735) (fun v => v * 29.5735)
        (fun _ _ => rfl) (fun _ _ => rfl) (fun v => by ring) rates v
  · exact fun h1 _ => absurd h1 (by decide)
  · exact fun _ h2 => absurd h2 (by decide)
  · exact fun _ _ rates v =>
      conv_round_trip_aux (str "m3") (str "l") (fun v => v * 1000) (fun v => v / 1000)
        (fun _ _ => rfl) (fun _ _ => rfl) (fun v => by ring) rates v
  · exact fun _ _ rates v =>
      conv_round_trip_aux (str "l") (str "m3") (fun v => v / 1000) (fun v => v * 1000)
        (fun _ _ => rfl) (fun _ _ => rfl) (fun v => by ring) rates v
  · exact fun _ _ rates v =>
      conv_round_trip_aux (str "ft3") (str "m3") (fun v => v * 0.0283168) (fun v => v / 0.0283168)
        (fun _ _ => rfl) (fun _ _ => rfl) (fun v => by ring) rates v
  · exact fun _ _ rates v =>
      conv_round_trip_aux (str "m3") (str "ft3") (fun v => v / 0.0283168) (fun v => v * 0.0283168)
        (fun _ _ => rfl) (fun _ _ => rfl) (fun v => by ring) rates v
  · exact fun _ _ rates v =>
      conv_round_trip_aux (str "g") (str "kg") (fun v => v / 1000) (fun v => v * 1000)
        (fun _ _ => rfl) (fun _ _ => rfl) (fun v => by ring) rates v
  · exact fun _ _ rates v =>
      conv_round_trip_aux (str "kg") (str "g") (fun v => v * 1000) (fun v => v / 1000)
        (fun _ _ => rfl) (fun _ _ => rfl) (fun v => by ring) rates v
  · exact fun _ _ rates v =>
      conv_round_trip_aux (str "lb") (str "kg") (fun v => v * 0.453592) (fun v => v / 0.453592)
        (fun _ _ => rfl) (fun _ _ => rfl) (fun v => by ring) rates v
  · exact fun _ _ rates v =>
      conv_round_trip_aux (str "kg") (str "lb") (fun v => v / 0.453592) (fun v => v * 0.453592)
        (fun _ _ => rfl) (fun _ _ => rfl) (fun v => by ring) rates v
  · exact fun _ _ rates v =>
      conv_round_trip_aux (str "oz") (str "g") (fun v => v * 28.3495) (fun v => v / 28.3495)
        (fun _ _ => rfl) (fun _ _ => rfl) (fun v => by ring) rates v
  · exact fun _ _ rates v =>
      conv_round_trip_aux (str "g") (str "oz") (fun v => v / 28.3495) (fun v => v * 28.3495)
        (fun _ _ => rfl) (fun _ _ => rfl) (fun v => by ring) rates v
  · exact fun _ _ rates v =>
      conv_round_trip_aux (str "mg") (str "g") (fun v => v / 1000) (fun v => v * 1000)
        (fun _ _ => rfl) (fun _ _ => rfl) (fun v => by ring) rates v
  · exact fun _ _ rates v =>
      conv_round_trip_aux (str "g") (str "mg") (fun v => v * 1000) (fun v => v / 1000)
        (fun _ _ => rfl) (fun _ _ => rfl) (fun v => by ring) rates v
  · exact fun _ h2 => absurd h2 (by decide)
  · exact fun h1 _ => absurd h1 (by decide)

theorem conv_rt_chunk6 :
    ∀ p ∈ ([("lb", "oz"), ("oz", "lb"), ("st", "lb"), ("lb", "st"), ("st", "kg"), ("kg", "st"), ("C", "F"), ("F", "C"), ("K", "C"), ("C", "K"), ("F", "K"), ("K", "F"), ("B", "KB"), ("KB", "B"), ("KB", "MB"), ("MB", "KB"), ("MB", "GB"), ("GB", "MB"), ("GB", "TB"), ("TB", "GB")] : List (String × String)),
      normalize_unit (str p.1) = str p.1 →
      normalize_unit (str p.2) = str p.2 →
      ∀ (rates : RateTable) (v : ℚ),
        ∃ w v2 : ℚ, convert_units rates v (str p.1) (str p.2) = some w ∧
          convert_units rates w (str p.2) (str p.1) = some v2 ∧ |v2 - v| ≤ 1e-9 * |v| := by
  intro p hp
  fin_cases hp
  · exact fun _ _ rates v =>
      conv_round_trip_aux (str "lb") (str "oz") (fun v => v * 16) (fun v => v / 16)
        (fun _ _ => rfl) (fun _ _ => rfl) (fun v => by ring) rates v
  · exact fun _ _ rates v =>
      conv_round_trip_aux (str "oz") (str "lb") (fun v => v / 16) (fun v => v * 16)
        (fun _ _ => rfl) (fun _ _ => rfl) (fun v => by ring) rates v
  · exact fun _ _ rates v =>
      conv_round_trip_aux (str "st") (str "lb") (fun v => v * 14) (fun v => v / 14)
        (fun _ _ => rfl) (fun _ _ => rfl) (fun v => by ring) rates v
  · exact fun _ _ rates v =>
      conv_round_trip_aux (str "lb") (str "st") (fun v => v / 14) (fun v => v * 14)
        (fun _ _ => rfl) (fun _ _ => rfl) (fun v => by ring) rates v
  · exact fun _ _ rates v =>
      conv_round_trip_aux (str "st") (str "kg") (fun v => v * 6.35029) (fun v => v / 6.35029)
        (fun _ _ => rfl) (fun _ _ => rfl) (fun v => by ring) rates v
  · exact fun _ _ rates v =>
      conv_round_trip_aux (str "kg") (str "st") (fun v => v / 6.35029) (fun v => v * 6.35029)
        (fun _ _ => rfl) (fun _ _ => rfl) (fun v => by ring) rates v
  · exact fun _ _ rates v =>
      conv_round_trip_aux (str "C") (str "F") (fun v => v * 9 / 5 + 32) (fun v => (v - 32) * 5 / 9)
        (fun _ _ => rfl) (fun _ _ => rfl) (fun v => by ring) rates v
  · exact fun _ _ rates v =>
      conv_round_trip_aux (str "F") (str "C") (fun v => (v - 32) * 5 / 9) (fun v => v * 9 / 5 + 32)
        (fun _ _ => rfl) (fun _ _ => rfl) (fun v => by ring) rates v
  · exact fun _ _ rates v =>
      conv_round_trip_aux (str "K") (str "C") (fun v => v - 273.15) (fun v => v + 273.15)
        (fun _ _ => rfl) (fun _ _ => rfl) (fun v => by ring) rates v
  · exact fun _ _ rates v =>
      conv_round_trip_aux (str "C") (str "K") (fun v => v + 273.15) (fun v => v - 273.15)
        (fun _ _ => rfl) (fun _ _ => rfl) (fun v => by ring) rates v
  · exact fun _ _ rates v =>
      conv_round_trip_aux (str "F") (str "K") (fun v => (v + 459.67) * 5 / 9) (fun v => v * 9 / 5 - 459.67)
        (fun _ _ => rfl) (fun _ _ => rfl) (fun v => by ring) rates v
  · exact fun _ _ rates v =>
      conv_round_trip_aux (str "K") (str "F") (fun v => v * 9 / 5 - 459.67) (fun v => (v + 459.67) * 5 / 9)
        (fun _ _ => rfl) (fun _ _ => rfl) (fun v => by ring) rates v
  · exact fun _ _ rates v =>
      conv_round_trip_aux (str "B") (str "KB") (fun v => v / 1024) (fun v => v * 1024)
        (fun _ _ => rfl) (fun _ _ => rfl) (fun v => by ring) rates v
  · exact fun _ _ rates v =>
      conv_round_trip_aux (str "KB") (str "B") (fun v => v * 1024) (fun v => v / 1024)
        (fun _ _ => rfl) (fun _ _ => rfl) (fun v => by ring) rates v
  · exact fun _ _ rates v =>
      conv_round_trip_aux (str "KB") (str "MB") (fun v => v / 1024) (fun v => v * 1024)
        (fun _ _ => rfl) (fun _ _ => rfl) (fun v => by ring) rates v
  · exact fun _ _ rates v =>
      conv_round_trip_aux (str "MB") (str "KB") (fun v => v * 1024) (fun v => v / 1024)
        (fun _ _ => rfl) (fun _ _ => rfl) (fun v => by ring) rates v
  · exact fun _ _ rates v =>
      conv_round_trip_aux (str "MB") (str "GB") (fun v => v / 1024) (fun v => v * 1024)
        (fun _ _ => rfl) (fun _ _ => rfl) (fun v => by ring) rates v
  · exact fun _ _ rates v =>
      conv_round_trip_aux (str "GB") (str "MB") (fun v => v * 1024) (fun v => v / 1024)
        (fun _ _ => rfl) (fun _ _ => rfl) (fun v => by ring) rates v
  · exact fun _ _ rates v =>
      conv_round_trip_aux (str "GB") (str "TB") (fun v => v / 1024) (fun v => v * 1024)
        (fun _ _ => rfl) (fun _ _ => rfl) (fun v => by ring) rates v
  · exact fun _ _ rates v =>
      conv_round_trip_aux (str "TB") (str "GB") (fun v => v * 1024) (fun v => v / 1024)
        (fun _ _ => rfl) (fun _ _ => rfl) (fun v => by ring) rates v

theorem conv_rt_chunk7 :
    ∀ p ∈ ([("TB", "PB"), ("PB", "TB"), ("J", "kJ"), ("kJ", "J"), ("cal", "J"), ("J", "cal"), ("kcal", "cal"), ("cal", "kcal"), ("kWh", "J"), ("J", "kWh"), ("eV", "J"), ("J", "eV"), ("W", "kW"), ("kW", "W"), ("MW", "kW"), ("kW", "MW"), ("hp", "W"), ("W", "hp"), ("hp", "kW"), ("kW", "hp")] : List (String × String)),
      normalize_unit (str p.1) = str p.1 →
      normalize_unit (str p.2) = str p.2 →
      ∀ (rates : RateTable) (v : ℚ),
        ∃ w v2 : ℚ, convert_units rates v (str p.1) (str p.2) = some w ∧
          convert_units rates w (str p.2) (str p.1) = some v2 ∧ |v2 - v| ≤ 1e-9 * |v| := by
  intro p hp
  fin_cases hp
  · exact fun _ _ rates v =>
      conv_round_trip_aux (str "TB") (str "PB") (fun v => v / 1024) (fun v => v * 1024)
        (fun _ _ => rfl) (fun _ _ => rfl) (fun v => by ring) rates v
  · exact fun _ _ rates v =>
      conv_round_trip_aux (str "PB") (str "TB") (fun v => v * 1024) (fun v => v / 1024)
        (fun _ _ => rfl) (fun _ _ => rfl) (fun v => by ring) rates v
  · exact fun h1 _ => absurd h1 (by decide)
  · exact fun h1 _ => absurd h1 (by decide)
  · exact fun h1 _ => absurd h1 (by decide)
  · exact fun h1 _ => absurd h1 (by decide)
  · exact fun _ h2 => absurd h2 (by decide)
  · exact fun h1 _ => absurd h1 (by decide)
  · exact fun h1 _ => absurd h1 (by decide)
  · exact fun h1 _ => absurd h1 (by decide)
  · exact fun h1 _ => absurd h1 (by decide)
  · exact fun h1 _ => absurd h1 (by decide)
  · exact fun h1 _ => absurd h1 (by decide)
  · exact fun h1 _ => absurd h1 (by decide)
  · exact fun h1 _ => absurd h1 (by decide)
  · exact fun h1 _ => absurd h1 (by decide)
  · exact fun _ h2 => absurd h2 (by decide)
  · exact fun h1 _ => absurd h1 (by decide)
  · exact fun _ h2 => absurd h2 (by decide)
  · exact fun h1 _ => absurd h1 (by decide)

theorem conv_rt_chunk8 :
    ∀ p ∈ ([("Pa", "kPa"), ("kPa", "Pa"), ("bar", "kPa"), ("kPa", "bar"), ("psi", "kPa"), ("kPa", "psi"), ("atm", "kPa"), ("kPa", "atm"), ("mps", "kmph"), ("kmph", "mps"), ("mph", "kmph"), ("kmph", "mph"), ("mph", "mps"), ("mps", "mph"), ("knot", "kmph"), ("kmph", "knot")] : List (String × String)),
      normalize_unit (str p.1) = str p.1 →
      normalize_unit (str p.2) = str p.2 →
      ∀ (rates : RateTable) (v : ℚ),
        ∃ w v2 : ℚ, convert_units rates v (str p.1) (str p.2) = some w ∧
          convert_units rates w (str p.2) (str p.1) = some v2 ∧ |v2 - v| ≤ 1e-9 * |v| := by
  intro p hp
  fin_cases hp
  · exact fun h1 _ => absurd h1 (by decide)
  · exact fun h1 _ => absurd h1 (by decide)
  · exact fun h1 _ => absurd h1 (by decide)
  · exact fun h1 _ => absurd h1 (by decide)
  · exact fun h1 _ => absurd h1 (by decide)
  · exact fun h1 _ => absurd h1 (by decide)
  · exact fun h1 _ => absurd h1 (by decide)
  · exact fun h1 _ => absurd h1 (by decide)
  · exact fun h1 _ => absurd h1 (by decide)
  · exact fun _ h2 => absurd h2 (by decide)
  · exact fun h1 _ => absurd h1 (by decide)
  · exact fun _ h2 => absurd h2 (by decide)
  · exact fun h1 _ => absurd h1 (by decide)
  · exact fun h1 _ => absurd h1 (by decide)
  · exact fun _ _ rates v =>
      conv_round_trip_aux (str "knot") (str "kmph") (fun v => v * 1.852) (fun v => v / 1.852)
        (fun _ _ => rfl) (fun _ _ => rfl) (fun v => by ring) rates v
  · exact fun _ _ rates v =>
      conv_round_trip_aux (str "kmph") (str "knot") (fun v => v / 1.852) (fun v => v * 1.852)
        (fun _ _ => rfl) (fun _ _ => rfl) (fun v => by ring) rates v

/--
C4 as amended: for every pair `(u1, u2)` of the conversion table whose two
spellings are fixed points of `normalize_unit` (these are exactly the pairs
reachable through `convert_units`; pairs containing a spelling that
normalization rewrites — such as `m`→`min`, `tsp`→`TSP`, `J`→`j` — are
unreachable and excluded), converting any magnitude `v` from `u1` to `u2`
and back yields exactly `v` (in the exact rational model), in particular
within the claimed `1e-9` relative tolerance.  This covers the affine
temperature pairs C/F/K and the multiplicative pairs such as ml/l.
-/
theorem C4_round_trip_amended :
    ∀ p ∈ tablePairs,
      normalize_unit (str p.1) = str p.1 →
      normalize_unit (str p.2) = str p.2 →
      ∀ (rates : RateTable) (v : ℚ),
        ∃ w v2 : ℚ, convert_units rates v (str p.1) (str p.2) = some w ∧
          convert_units rates w (str p.2) (str p.1) = some v2 ∧ |v2 - v| ≤ 1e-9 * |v| := by
  intro p hp
  rw [show tablePairs = ([("B", "bit"), ("bit", "B"), ("s", "min"), ("min", "s"), ("min", "h"), ("h", "min"), ("h", "s"), ("s", "h"), ("day", "h"), ("h", "day"), ("day", "s"), ("s", "day"), ("week", "day"), ("day", "week"), ("month", "day"), ("day", "month"), ("year", "day"), ("day", "year"), ("year", "month"), ("month", "year")] : List (String × String)) ++ ([("decade", "year"), ("year", "decade"), ("century", "year"), ("year", "century"), ("ms", "s"), ("s", "ms"), ("us", "ms"), ("ms", "us"), ("ns", "us"), ("us", "ns"), ("cm", "m"), ("m", "cm"), ("cm", "mm"), ("mm", "cm"), ("in", "cm"), ("cm", "in"), ("ft", "m"), ("m", "ft"), ("mm", "m"), ("m", "mm")] ++ ([("km", "m"), ("m", "km"), ("mi", "km"), ("km", "mi"), ("mi", "m"), ("m", "mi"), ("in", "mm"), ("mm", "in"), ("ft", "in"), ("in", "ft"), ("yd", "ft"), ("ft", "yd"), ("yd", "m"), ("m", "yd"), ("m2", "cm2"), ("cm2", "m2"), ("km2", "m2"), ("m2", "km2"), ("ha", "m2"), ("m2", "ha")] ++ ([("acre", "m2"), ("m2", "acre"), ("acre", "ha"), ("ha", "acre"), ("mi2", "km2"), ("km2", "mi2"), ("ml", "l"), ("l", "ml"), ("ml", "tsp"), ("tsp", "ml"), ("ml", "tbsp"), ("tbsp", "ml"), ("ml", "teasp"), ("teasp", "ml"), ("l", "gal"), ("gal", "l"), ("cup", "ml"), ("ml", "cup"), ("pt", "ml"), ("ml", "pt")] ++ ([("qt", "ml"), ("ml", "qt"), ("floz", "ml"), ("ml", "floz"), ("cup", "floz"), ("floz", "cup"), ("m3", "l"), ("l", "m3"), ("ft3", "m3"), ("m3", "ft3"), ("g", "kg"), ("kg", "g"), ("lb", "kg"), ("kg", "lb"), ("oz", "g"), ("g", "oz"), ("mg", "g"), ("g", "mg"), ("kg", "ton"), ("ton", "kg")] ++ ([("lb", "oz"), ("oz", "lb"), ("st", "lb"), ("lb", "st"), ("st", "kg"), ("kg", "st"), ("C", "F"), ("F", "C"), ("K", "C"), ("C", "K"), ("F", "K"), ("K", "F"), ("B", "KB"), ("KB", "B"), ("KB", "MB"), ("MB", "KB"), ("MB", "GB"), ("GB", "MB"), ("GB", "TB"), ("TB", "GB")] ++ ([("TB", "PB"), ("PB", "TB"), ("J", "kJ"), ("kJ", "J"), ("cal", "J"), ("J", "cal"), ("kcal", "cal"), ("cal", "kcal"), ("kWh", "J"), ("J", "kWh"), ("eV", "J"), ("J", "eV"), ("W", "kW"), ("kW", "W"), ("MW", "kW"), ("kW", "MW"), ("hp", "W"), ("W", "hp"), ("hp", "kW"), ("kW", "hp")] ++ ([("Pa", "kPa"), ("kPa", "Pa"), ("bar", "kPa"), ("kPa", "bar"), ("psi", "kPa"), ("kPa", "psi"), ("atm", "kPa"), ("kPa", "atm"), ("mps", "kmph"), ("kmph", "mps"), ("mph", "kmph"), ("kmph", "mph"), ("mph", "mps"), ("mps", "mph"), ("knot", "kmph"), ("kmph", "knot")]))))))) from rfl] at hp
  rcases List.mem_append.mp hp with h | hp
  · exact conv_rt_chunk1 p h
  rcases List.mem_append.mp hp with h | hp
  · exact conv_rt_chunk2 p h
  rcases List.mem_append.mp hp with h | hp
  · exact conv_rt_chunk3 p h
  rcases List.mem_append.mp hp with h | hp
  · exact conv_rt_chunk4 p h
  rcases List.mem_append.mp hp with h | hp
  · exact conv_rt_chunk5 p h
  rcases List.mem_append.mp hp with h | hp
  · exact conv_rt_chunk6 p h
  rcases List.mem_append.mp hp with h | hp
  · exact conv_rt_chunk7 p h
  exact conv_rt_chunk8 p hp

/-- Closed witness for C4's amended theorem at the pair `("s", "min")` and
`v = 120`. -/
theorem C4_round_trip_amended_witness :
    ∃ w v2 : ℚ, convert_units [] 120 (str "s") (str "min") = some w ∧
      convert_units [] w (str "min") (str "s") = some v2 ∧ |v2 - 120| ≤ 1e-9 * |(120 : ℚ)| :=
  C4_round_trip_amended ("s", "min") (by decide) (by decide) (by decide) [] 120

theorem dropWhile_length_le (p : Char → Bool) (l : Str) : (l.dropWhile p).length ≤ l.length := by
  induction l with
  | nil => simp
  | cons c cs ih =>
      by_cases h : p c
      · simp only [List.dropWhile_cons, h, if_pos]
        exact Nat.le_trans ih (Nat.le_succ _)
      · simp [List.dropWhile_cons, h]

theorem takeWhile_length_le (p : Char → Bool) (l : Str) : (l.takeWhile p).length ≤ l.length := by
  induction l with
  | nil => simp
  | cons c cs ih =>
      by_cases h : p c
      · simpa [List.takeWhile_cons, h] using ih
      · simp [List.takeWhile_cons, h]

theorem trim_length_le (s : Str) : (trim s).length ≤ s.length := by
  unfold trim
  calc ((s.dropWhile Char.isWhitespace).reverse.dropWhile Char.isWhitespace).reverse.length
      = ((s.dropWhile Char.isWhitespace).reverse.dropWhile Char.isWhitespace).length := by
        simp
    _ ≤ (s.dropWhile Char.isWhitespace).reverse.length := dropWhile_length_le _ _
    _ = (s.dropWhile Char.isWhitespace).length := by simp
    _ ≤ s.length := dropWhile_length_le _ _

theorem stripComment_length_le (s : Str) : (stripComment s).length ≤ s.length :=
  takeWhile_length_le _ s

theorem span2_snd_length_le (p : Char → Bool) (s : Str) : (span2 p s).2.length ≤ s.length :=
  dropWhile_length_le p s

theorem span2_append (p : Char → Bool) (s : Str) : (span2 p s).1 ++ (span2 p s).2 = s := by
  simp [span2, List.takeWhile_append_dropWhile]

theorem span2_snd_length_lt (p : Char → Bool) (s : Str) (h : (span2 p s).1 ≠ []) :
    (span2 p s).2.length < s.length := by
  have hsplit := congrArg List.length (span2_append p s)
  simp only [List.length_append] at hsplit
  have h1 : 0 < (span2 p s).1.length := List.length_pos.mpr h
  omega

theorem wsPlus_length_lt {s r : Str} (h : wsPlus s = some r) : r.length < s.length := by
  unfold wsPlus at h
  by_cases h1 : (span2 Char.isWhitespace s).1 = []
  · simp [h1] at h
  · rw [if_neg h1] at h
    have h2 := span2_snd_length_lt Char.isWhitespace s h1
    have h3 : (span2 Char.isWhitespace s).2 = r := Option.some_inj.mp h
    rw [h3] at h2
    exact h2

theorem stripLit_length_le (pat : Str) : ∀ {s r : Str}, stripLit pat s = some r →
    r.length ≤ s.length := by
  induction pat with
  | nil =>
      intro s r h
      simp only [stripLit, Option.some_inj] at h
      subst h
      exact le_rfl
  | cons p ps ih =>
      intro s r h
      cases s with
      | nil => simp [stripLit] at h
      | cons c cs =>
          simp only [stripLit] at h
          by_cases hc : c = p
          · rw [if_pos hc] at h
            exact Nat.le_trans (ih h) (Nat.le_succ _)
          · rw [if_neg hc] at h
            exact absurd h (by simp)

theorem wsField_length_le {s r : Str} (h : wsField s = some r) : r.length ≤ s.length := by
  unfold wsField at h
  by_cases h1 : (span2 Char.isWhitespace s).1 = []
  · simp [h1] at h
  · rw [if_neg h1] at h
    by_cases h2 : (span2 Char.isWhitespace s).2 ≠ []
    · rw [if_pos h2] at h
      have h3 := Option.some_inj.mp h
      subst h3
      exact span2_snd_length_le _ _
    · rw [if_neg h2] at h
      split at h
      · have h3 := Option.some_inj.mp h
        subst h3
        have h4 : (span2 Char.isWhitespace s).1.length ≤ s.length := takeWhile_length_le _ _
        simp only [List.length_drop]
        omega
      · simp at h

theorem keywordAlt_length_le {k1 k2 s1 s2 : Str}
    (h : (match stripLit k1 s1 with
          | some r => some r
          | none => stripLit k2 s1) = some s2) : s2.length ≤ s1.length := by
  cases hin : stripLit k1 s1 with
  | some r =>
      rw [hin] at h
      have h3 := Option.some_inj.mp h
      subst h3
      exact stripLit_length_le k1 hin
  | none =>
      rw [hin] at h
      exact stripLit_length_le k2 h

theorem conv_tail_length {s r : Str} (h : conv_tail s = some r) : r.length < s.length := by
  unfold conv_tail at h
  simp only [Option.bind_eq_bind, Option.bind_eq_some] at h
  obtain ⟨s1, hs1, h⟩ := h
  obtain ⟨s2, hs2, h⟩ := h
  have l1 : s1.length < s.length := wsPlus_length_lt hs1
  have l2 : s2.length ≤ s1.length := keywordAlt_length_le hs2
  have l3 : r.length ≤ s2.length := wsField_length_le h
  omega

theorem pct_tail_length {s r : Str} (h : pct_tail s = some r) : r.length < s.length := by
  unfold pct_tail at h
  simp only [Option.bind_eq_bind, Option.bind_eq_some] at h
  obtain ⟨s1, hs1, h⟩ := h
  obtain ⟨s2, hs2, h⟩ := h
  obtain ⟨s3, hs3, h⟩ := h
  have l1 : s1.length + 1 = s.length := by
    cases s with
    | nil => simp at hs1
    | cons c cs =>
        split at hs1
        · rename_i rr heq
          injection heq with hc hcs
          injection hs1 with hr
          simp [hcs, hr]
        · simp at hs1
  have l2 : s2.length < s1.length := wsPlus_length_lt hs2
  have l3 : s3.length ≤ s2.length := stripLit_length_le _ hs3
  have l4 : r.length ≤ s3.length := wsField_length_le h
  omega

theorem of_what_tail_length {s r : Str} (h : of_what_tail s = some r) : r.length < s.length := by
  unfold of_what_tail at h
  simp only [Option.bind_eq_bind, Option.bind_eq_some] at h
  obtain ⟨s1, hs1, h⟩ := h
  obtain ⟨s2, hs2, h⟩ := h
  obtain ⟨s3, hs3, h⟩ := h
  obtain ⟨s4, hs4, h⟩ := h
  obtain ⟨s5, hs5, h⟩ := h
  obtain ⟨s6, hs6, h⟩ := h
  have l1 : s1.length < s.length := wsPlus_length_lt hs1
  have l2 : s2.length ≤ s1.length := stripLit_length_le _ hs2
  have l3 : s3.length < s2.length := wsPlus_length_lt hs3
  have l4 : s4.length ≤ s3.length := stripLit_length_le _ hs4
  have l5 : s5.length < s4.length := wsPlus_length_lt hs5
  have l6 : s6.length ≤ s5.length := stripLit_length_le _ hs6
  have l7 : r.length ≤ s6.length := wsField_length_le h
  omega

theorem var_of_at_length {s : Str} {w r : Str} (h : var_of_at s = some (w, r)) :
    r.length < s.length := by
  cases s with
  | nil => simp [var_of_at] at h
  | cons c cs =>
      simp only [var_of_at] at h
      by_cases hw : wordChar c
      · rw [if_pos hw] at h
        simp only [Option.bind_eq_bind, Option.bind_eq_some] at h
        obtain ⟨s2, hws, h⟩ := h
        obtain ⟨s3, hof, h⟩ := h
        obtain ⟨r2, hwf, h⟩ := h
        simp only [Option.some_inj, Prod.mk.injEq] at h
        obtain ⟨-, hr⟩ := h
        subst hr
        have l1 : (span2 wordChar (c :: cs)).2.length ≤ (c :: cs).length :=
          span2_snd_length_le _ _
        have l2 : s2.length < (span2 wordChar (c :: cs)).2.length := wsPlus_length_lt hws
        have l3 : s3.length ≤ s2.length := stripLit_length_le _ hof
        have l4 : r2.length ≤ s3.length := wsField_length_le hwf
        omega
      · rw [if_neg hw] at h
        simp at h

theorem scan_left_bound {α : Type} (matchAt : Str → Option α)
    (P : α → Prop) (hP : ∀ t x, matchAt t = some x → P x) :
    ∀ {s : Str} {x : α}, scan_left matchAt s = some x → P x := by
  intro s
  induction s with
  | nil => intro x h; simp [scan_left] at h
  | cons c cs ih =>
      intro x h
      unfold scan_left at h
      cases hm : matchAt (c :: cs) with
      | some y =>
          rw [hm] at h
          have hx := Option.some_inj.mp h
          subst hx
          exact hP _ _ hm
      | none =>
          rw [hm] at h
          exact ih h

theorem var_of_find_length {s w r : Str} (h : var_of_find s = some (w, r)) :
    r.length < s.length := by
  unfold var_of_find at h
  induction s with
  | nil => simp [scan_left] at h
  | cons c cs ih =>
      unfold scan_left at h
      cases hm : var_of_at (c :: cs) with
      | some y =>
          rw [hm] at h
          have hx := Option.some_inj.mp h
          subst hx
          exact var_of_at_length hm
      | none =>
          rw [hm] at h
          exact Nat.lt_trans (ih h) (by simp)

theorem greedy_split_some (tail : Str → Option Str) :
    ∀ (i : Nat) {t pre rest : Str}, greedy_split_from tail i t = some (pre, rest) →
      ∃ j, j + 1 ≤ i ∧ pre = t.take (j + 1) ∧ tail (t.drop (j + 1)) = some rest := by
  intro i
  induction i with
  | zero => intro t pre rest h; simp [greedy_split_from] at h
  | succ i ih =>
      intro t pre rest h
      unfold greedy_split_from at h
      cases hm : tail (t.drop (i + 1)) with
      | some r2 =>
          rw [hm] at h
          simp only [Option.some_inj, Prod.mk.injEq] at h
          obtain ⟨h1, h2⟩ := h
          subst h2
          exact ⟨i, le_rfl, h1.symm, hm⟩
      | none =>
          rw [hm] at h
          obtain ⟨j, hj, h1, h2⟩ := ih h
          exact ⟨j, Nat.le_succ_of_le hj, h1, h2⟩

theorem greedy_split_lengths (tail : Str → Option Str)
    (htail : ∀ {s r : Str}, tail s = some r → r.length < s.length)
    {t pre rest : Str} (h : greedy_split_from tail (t.length - 1) t = some (pre, rest)) :
    pre.length < t.length ∧ rest.length < t.length := by
  obtain ⟨j, hj, h1, h2⟩ := greedy_split_some tail (t.length - 1) h
  have l1 : rest.length < (t.drop (j + 1)).length := htail h2
  have l2 : (t.drop (j + 1)).length = t.length - (j + 1) := by simp
  have l3 : pre.length = min (j + 1) t.length := by rw [h1]; simp
  omega

theorem split_first_op_go_length (ops : List Char) :
    ∀ (xs acc : Str) {l : Str} {c : Char} {r : Str},
      split_first_op.go ops (acc : Str) xs = some (l, c, r) →
      l.length + r.length + 1 = acc.length + xs.length ∧ r.length < xs.length := by
  intro xs
  induction xs with
  | nil => intro acc l c r h; simp [split_first_op.go] at h
  | cons x xs2 ih =>
      intro acc l c r h
      unfold split_first_op.go at h
      by_cases hc : (ops.contains x && decide ¬xs2 = []) = true
      · rw [if_pos hc] at h
        simp only [Option.some_inj, Prod.mk.injEq] at h
        obtain ⟨h1, h2, h3⟩ := h
        subst h3
        have hl : l.length = acc.length := by rw [← h1]; simp
        simp only [List.length_cons]
        omega
      · rw [if_neg hc] at h
        obtain ⟨h1, h2⟩ := ih (x :: acc) h
        simp only [List.length_cons] at h1
        simp only [List.length_cons]
        omega

theorem split_first_op_lengths {ops : List Char} {s l : Str} {c : Char} {r : Str}
    (h : split_first_op ops s = some (l, c, r)) :
    l.length < s.length ∧ r.length < s.length := by
  cases s with
  | nil => simp [split_first_op] at h
  | cons c0 rest =>
      unfold split_first_op at h
      obtain ⟨h1, h2⟩ := split_first_op_go_length ops rest [c0] h
      simp only [List.length_cons, List.length_nil] at h1 h2 ⊢
      omega

theorem splitAssign_length {s nm rest : Str} (h : splitAssign s = some (nm, rest)) :
    rest.length < s.length := by
  unfold splitAssign at h
  split at h
  · rename_i tl heq
    simp only [Option.some_inj, Prod.mk.injEq] at h
    obtain ⟨-, h2⟩ := h
    subst h2
    have l1 : (span2 (fun c => c ≠ '=') s).2.length ≤ s.length := span2_snd_length_le _ _
    rw [heq] at l1
    simp only [List.length_cons] at l1
    omega
  · simp at h

theorem var_of_guarded_length {t : Str} {vars : VarEnv} {nm rest : Str}
    (h : var_of_guarded t vars = some (nm, rest)) : rest.length < t.length := by
  unfold var_of_guarded at h
  cases hf : var_of_find t with
  | none => rw [hf] at h; exact absurd h (by simp)
  | some pr =>
      obtain ⟨nm0, rest0⟩ := pr
      simp only [hf] at h
      split at h
      · simp only [Option.some_inj, Prod.mk.injEq] at h
        obtain ⟨-, h2⟩ := h
        subst h2
        exact var_of_find_length hf
      · exact absurd h (by simp)

theorem parse_conversion_split_lengths {t pre target : Str}
    (h : parse_conversion_split t = some (pre, target)) :
    pre.length < t.length ∧ target.length < t.length :=
  greedy_split_lengths conv_tail (fun h => conv_tail_length h) h

theorem parse_percent_split_lengths {t pre rest : Str}
    (h : parse_percent_split t = some (pre, rest)) :
    pre.length < t.length ∧ rest.length < t.length :=
  greedy_split_lengths pct_tail (fun h => pct_tail_length h) h

theorem of_what_split_lengths {t pre rest : Str}
    (h : of_what_split t = some (pre, rest)) :
    pre.length < t.length ∧ rest.length < t.length :=
  greedy_split_lengths of_what_tail (fun h => of_what_tail_length h) h

theorem parseTrimmed_congr (line : Str) (vars : VarEnv) (rates : RateTable)
    (rec1 rec2 : Str → RateTable → Expr × RateTable)
    (h : ∀ p r, p.length < line.length → rec1 p r = rec2 p r) :
    parseTrimmed rec1 rates line vars = parseTrimmed rec2 rates line vars := by
  unfold parseTrimmed
  by_cases h0 : line = []
  · simp [h0]
  · rw [if_neg h0, if_neg h0]
    cases hsr : parse_set_rate rates line with
    | some res => simp only [hsr]
    | none =>
    simp only [hsr]
    cases ha : splitAssign line with
    | some pr =>
        obtain ⟨nm, rest⟩ := pr
        simp only [ha]
        rw [h rest rates (splitAssign_length ha)]
    | none =>
    simp only [ha]
    cases hc : parse_conversion_split line with
    | some pr =>
        obtain ⟨pre, target⟩ := pr
        simp only [hc]
        rw [h pre rates (parse_conversion_split_lengths hc).1]
    | none =>
    simp only [hc]
    cases hp : parse_percent_split line with
    | some pr =>
        obtain ⟨pre, rest⟩ := pr
        simp only [hp]
        rw [h rest rates (parse_percent_split_lengths hp).2]
    | none =>
    simp only [hp]
    cases hv : var_of_guarded line vars with
    | some pr =>
        obtain ⟨nm, rest⟩ := pr
        simp only [hv]
        rw [h rest rates (var_of_guarded_length hv)]
    | none =>
    simp only [hv]
    cases hw : of_what_split line with
    | some pr =>
        obtain ⟨pre, rest⟩ := pr
        simp only [hw]
        rw [h rest rates (of_what_split_lengths hw).2]
    | none =>
    simp only [hw]
    cases hd : parse_date_expression line with
    | some e => simp only [hd]
    | none =>
    simp only [hd]
    cases has : split_first_op addSubOps line with
    | some pr =>
        obtain ⟨l, c, r⟩ := pr
        simp only [has]
        rw [h l rates (split_first_op_lengths has).1]
        cases hrec : rec2 l rates with
        | mk le rates1 =>
            simp only [hrec]
            rw [h r rates1 (split_first_op_lengths has).2]
    | none =>
    simp only [has]
    cases hms : split_first_op mulDivOps line with
    | some pr =>
        obtain ⟨l, c, r⟩ := pr
        simp only [hms]
        rw [h l rates (split_first_op_lengths hms).1]
        cases hrec : rec2 l rates with
        | mk le rates1 =>
            simp only [hrec]
            rw [h r rates1 (split_first_op_lengths hms).2]
    | none =>
    simp only [hms]

theorem parseBody_congr (line0 : Str) (vars : VarEnv) (rates : RateTable)
    (rec1 rec2 : Str → RateTable → Expr × RateTable)
    (h : ∀ p r, p.length < line0.length → rec1 p r = rec2 p r) :
    parseBody rec1 rates line0 vars = parseBody rec2 rates line0 vars := by
  unfold parseBody
  apply parseTrimmed_congr
  intro p r hp
  apply h
  calc p.length < (trim (stripComment line0)).length := hp
    _ ≤ (stripComment line0).length := trim_length_le _
    _ ≤ line0.length := stripComment_length_le _

theorem parse_line_fuel_irrel :
    ∀ (n f g : Nat) (rates : RateTable) (s : Str) (vars : VarEnv),
      s.length ≤ n → s.length < f → s.length < g →
      parse_line_fuel f rates s vars = parse_line_fuel g rates s vars := by
  intro n
  induction n with
  | zero =>
      intro f g rates s vars h hf hg
      obtain ⟨f1, rfl⟩ : ∃ f1, f = f1 + 1 := ⟨f - 1, by omega⟩
      obtain ⟨g1, rfl⟩ : ∃ g1, g = g1 + 1 := ⟨g - 1, by omega⟩
      show parseBody (fun p r => parse_line_fuel f1 r p vars) rates s vars =
        parseBody (fun p r => parse_line_fuel g1 r p vars) rates s vars
      apply parseBody_congr
      intro p r hp
      exact absurd hp (by omega)
  | succ n ih =>
      intro f g rates s vars h hf hg
      obtain ⟨f1, rfl⟩ : ∃ f1, f = f1 + 1 := ⟨f - 1, by omega⟩
      obtain ⟨g1, rfl⟩ : ∃ g1, g = g1 + 1 := ⟨g - 1, by omega⟩
      show parseBody (fun p r => parse_line_fuel f1 r p vars) rates s vars =
        parseBody (fun p r => parse_line_fuel g1 r p vars) rates s vars
      apply parseBody_congr
      intro p r hp
      exact ih f1 g1 r p vars (by omega) (by omega) (by omega)

/-- The master unfolding equation for `parse_line`: one layer of the stage
cascade, with every recursive sub-parse again a full `parse_line`. -/
theorem parse_line_eq (rates : RateTable) (s : Str) (vars : VarEnv) :
    parse_line rates s vars = parseBody (fun p r => parse_line r p vars) rates s vars := by
  show parseBody (fun p r => parse_line_fuel s.length r p vars) rates s vars =
    parseBody (fun p r => parse_line r p vars) rates s vars
  apply parseBody_congr
  intro p r hp
  show parse_line_fuel s.length r p vars = parse_line_fuel (p.length + 1) r p vars
  exact parse_line_fuel_irrel p.length s.length (p.length + 1) r p vars le_rfl hp (by omega)

/-- C5 counterexample: the lines "5-" and "-5" each contain an additive
operator character and are captured by no earlier grammar stage, yet the
parser does not split at that character: "5-" (empty remainder) parses to an
Error expression and "-5" (empty left part) parses to the number -5 — neither
is a binaryOp, contradicting the claim's "splits at the first + or - scanned
from the left" for every such line. -/
theorem C5_no_split_counterexample :
    ((str "5-").contains '-' = true ∧
     parse_set_rate [] (str "5-") = none ∧ splitAssign (str "5-") = none ∧
     parse_conversion_split (str "5-") = none ∧ parse_percent_split (str "5-") = none ∧
     var_of_guarded (str "5-") [] = none ∧ of_what_split (str "5-") = none ∧
     parse_date_expression (str "5-") = none ∧
     (parse_line [] (str "5-") []).1 = Expr.error (str "Cannot parse expression: 5-") ∧
     ∀ a op b, (parse_line [] (str "5-") []).1 ≠ Expr.binaryOp a op b) ∧
    ((str "-5").contains '-' = true ∧
     (parse_line [] (str "-5") []).1 = Expr.number (-5) ∧
     ∀ a op b, (parse_line [] (str "-5") []).1 ≠ Expr.binaryOp a op b) := by
  refine ⟨⟨by decide, by decide, by decide, by decide, by decide, by decide, by decide,
    by decide, by decide, ?_⟩, by decide, by decide, ?_⟩
  · intro a op b h
    have h9 : (parse_line [] (str "5-") []).1 = Expr.error (str "Cannot parse expression: 5-") := by
      decide
    rw [h9] at h
    exact Expr.noConfusion h
  · intro a op b h
    have h9 : (parse_line [] (str "-5") []).1 = Expr.number (-5) := by decide
    rw [h9] at h
    exact Expr.noConfusion h

/-- C5 (amended): for every line whose comment-stripped trim t is non-empty,
is declined by every earlier grammar stage, and on which ADD_SUB_RE matches —
i.e. t splits as l ++ c :: r with c an additive operator at position ≥ 1 and
r non-empty, at the leftmost such position — parse_line returns the binary
expression whose left operand is the parse of l and whose right operand is
the re-parse of the entire remainder r (with the currency cache threaded left
to right), making additive chains right-associative: "3 - 2 - 1" parses as
3 - (2 - 1) and evaluates to 2, and additive splitting is tried before
multiplicative, so "2 + 3 * 4" parses as 2 + (3 * 4) and evaluates to 14. -/
theorem C5_additive_split_amended (rates : RateTable) (s : Str) (vars : VarEnv)
    (t l : Str) (c : Char) (r : Str)
    (ht : trim (stripComment s) = t)
    (h0 : t ≠ [])
    (h1 : parse_set_rate rates t = none)
    (h2 : splitAssign t = none)
    (h3 : parse_conversion_split t = none)
    (h4 : parse_percent_split t = none)
    (h5 : var_of_guarded t vars = none)
    (h6 : of_what_split t = none)
    (h7 : parse_date_expression t = none)
    (h8 : split_first_op addSubOps t = some (l, c, r)) :
    (parse_line rates s vars =
      (Expr.binaryOp (parse_line rates l vars).1 (add_sub_op c)
        (parse_line (parse_line rates l vars).2 r vars).1,
       (parse_line (parse_line rates l vars).2 r vars).2)) ∧
    (parse_line [] (str "3 - 2 - 1") []).1 =
      Expr.binaryOp (Expr.number 3) Op.subtract
        (Expr.binaryOp (Expr.number 2) Op.subtract (Expr.number 1)) ∧
    parse_eval 0 [] (str "3 - 2 - 1") [] = Value.number 2 ∧
    (parse_line [] (str "2 + 3 * 4") []).1 =
      Expr.binaryOp (Expr.number 2) Op.add
        (Expr.binaryOp (Expr.number 3) Op.multiply (Expr.number 4)) ∧
    parse_eval 0 [] (str "2 + 3 * 4") [] = Value.number 14 := by
  refine ⟨?_, by decide, by decide, by decide, by decide⟩
  rw [parse_line_eq]
  show parseTrimmed (fun p r => parse_line r p vars) rates (trim (stripComment s)) vars = _
  rw [ht]
  unfold parseTrimmed
  rw [if_neg h0]
  simp only [h1, h2, h3, h4, h5, h6, h7, h8]

/-- C5 witness: the amended theorem applied to the concrete line "1+2". -/
theorem C5_additive_split_amended_witness :
    parse_line [] (str "1+2") [] =
      (Expr.binaryOp (parse_line [] (str "1") []).1 (add_sub_op '+')
        (parse_line (parse_line [] (str "1") []).2 (str "2") []).1,
       (parse_line (parse_line [] (str "1") []).2 (str "2") []).2) :=
  (C5_additive_split_amended [] (str "1+2") [] (str "1+2") (str "1") '+' (str "2")
    (by decide) (by decide) (by decide) (by decide) (by decide) (by decide)
    (by decide) (by decide) (by decide) (by decide)).1

theorem alistGet_ainsert {β : Type} (k k2 : Str) (v : β) :
    ∀ l : List (Str × β), alistGet k (ainsert k2 v l) =
      if k = k2 then some v else alistGet k l := by
  intro l
  induction l with
  | nil => by_cases h : k = k2 <;> simp [ainsert, alistGet, h]
  | cons p rest ih =>
      by_cases h2 : k2 = p.1
      · by_cases h : k = k2
        · simp [ainsert, alistGet, h2, h]
        · have h3 : k ≠ p.1 := by rw [← h2]; exact h
          simp [ainsert, alistGet, h2, h, h3]
      · by_cases h : k = p.1
        · have h4 : k ≠ k2 := by rw [h]; exact fun hq => h2 hq.symm
          have h5 : p.1 ≠ k2 := fun hq => h2 hq.symm
          simp [ainsert, alistGet, h2, h, h4, h5]
        · simp [ainsert, alistGet, h2, h, ih]

/-- C3 counterexample: the claim quantifies over every pair of 3-letter
codes, but for A = B it fails: "setrate USD to USD = 2" is accepted (the
expression echoes UnitValue(2, "USD")), yet the second, reciprocal insert of
set_exchange_rate overwrites the first, so the cache ends with
rate(USD,USD) = 1/2, not the claimed rate(A,B) = r = 2. -/
theorem C3_setrate_self_pair_counterexample :
    (parse_line fallbackRates (str "setrate USD to USD = 2") []).1 =
      Expr.unitValue 2 (str "USD") ∧
    lookupRate ((parse_line fallbackRates (str "setrate USD to USD = 2") []).2)
      (str "USD") (str "USD") = some (1 / 2) ∧
    ((1 : ℚ) / 2) ≠ 2 := by
  exact ⟨by decide, by decide, by decide⟩

/-- C3 (amended): for every pair of DISTINCT codes A ≠ B and every rate
r > 0, set_exchange_rate succeeds and installs rate(A,B) = r and the exact
reciprocal rate(B,A) = 1/r; whenever SET_RATE_RE matches a line and the
captured literal parses, a successful cache update makes parse_set_rate
return UnitValue(rate, B) echoing the new rate with the updated cache, and a
non-positive rate makes parse_set_rate decline (fall through to the later
stages).  Concretely, after "setrate USD to GBP = 0.65" on the fallback
cache, "10 USD in GBP" evaluates to Unit(6.5, "GBP") and "20 GBP in USD" to
Unit(400/13, "USD") (the exact reciprocal of 0.65). -/
theorem C3_setrate_amended (rates : RateTable) (A B : Str) (r : ℚ)
    (hAB : A ≠ B) (hr : 0 < r) :
    ((set_exchange_rate rates A B r).isSome = true ∧
     lookupRate ((set_exchange_rate rates A B r).getD []) A B = some r ∧
     lookupRate ((set_exchange_rate rates A B r).getD []) B A = some (1 / r)) ∧
    (∀ line a b lit rate rates2,
        set_rate_find line = some (a, b, lit) →
        parseNumber lit = some rate →
        set_exchange_rate rates (toUpperStr a) (toUpperStr b) rate = some rates2 →
        parse_set_rate rates line = some (.unitValue rate (toUpperStr b), rates2)) ∧
    (∀ line a b lit rate,
        set_rate_find line = some (a, b, lit) →
        parseNumber lit = some rate →
        rate ≤ 0 →
        parse_set_rate rates line = none) ∧
    (parse_line fallbackRates (str "setrate USD to GBP = 0.65") []).1 =
      Expr.unitValue (13 / 20) (str "GBP") ∧
    parse_eval 0 ((parse_line fallbackRates (str "setrate USD to GBP = 0.65") []).2)
      (str "10 USD in GBP") [] = Value.unit (13 / 2) (str "GBP") ∧
    parse_eval 0 ((parse_line fallbackRates (str "setrate USD to GBP = 0.65") []).2)
      (str "20 GBP in USD") [] = Value.unit (400 / 13) (str "USD") := by
  have hnle : ¬ r ≤ 0 := not_le.mpr hr
  have hBA : B ≠ A := fun hq => hAB hq.symm
  refine ⟨?_, ?_, ?_, by decide, by decide, by decide⟩
  · cases hA : alistGet A rates <;> cases hB : alistGet B rates <;>
      simp [set_exchange_rate, if_neg hnle, hA, hB, alistGet_ainsert, hAB, hBA,
        lookupRate, alistGet_ainsert_self]
  · intro line a b lit rate rates2 hfind hnum hset
    simp only [parse_set_rate, hfind, hnum, hset]
  · intro line a b lit rate hfind hnum hrate
    simp only [parse_set_rate, hfind, hnum, set_exchange_rate, if_pos hrate]

/-- C3 witness: the amended theorem applied to the empty cache, the distinct
codes "AAA", "BBB" and the rate 2. -/
theorem C3_setrate_amended_witness :
    ((set_exchange_rate [] (str "AAA") (str "BBB") 2).isSome = true ∧
     lookupRate ((set_exchange_rate [] (str "AAA") (str "BBB") 2).getD [])
       (str "AAA") (str "BBB") = some 2 ∧
     lookupRate ((set_exchange_rate [] (str "AAA") (str "BBB") 2).getD [])
       (str "BBB") (str "AAA") = some (1 / 2)) ∧
    (∀ line a b lit rate rates2,
        set_rate_find line = some (a, b, lit) →
        parseNumber lit = some rate →
        set_exchange_rate [] (toUpperStr a) (toUpperStr b) rate = some rates2 →
        parse_set_rate [] line = some (.unitValue rate (toUpperStr b), rates2)) ∧
    (∀ line a b lit rate,
        set_rate_find line = some (a, b, lit) →
        parseNumber lit = some rate →
        rate ≤ 0 →
        parse_set_rate [] line = none) ∧
    (parse_line fallbackRates (str "setrate USD to GBP = 0.65") []).1 =
      Expr.unitValue (13 / 20) (str "GBP") ∧
    parse_eval 0 ((parse_line fallbackRates (str "setrate USD to GBP = 0.65") []).2)
      (str "10 USD in GBP") [] = Value.unit (13 / 2) (str "GBP") ∧
    parse_eval 0 ((parse_line fallbackRates (str "setrate USD to GBP = 0.65") []).2)
      (str "20 GBP in USD") [] = Value.unit (400 / 13) (str "USD") :=
  C3_setrate_amended [] (str "AAA") (str "BBB") 2 (by decide) (by decide)

/-- The characters that can occur in a rendered division line `a / b`:
digits, the decimal point, the sign, the spaces and the slash.  None of them
can start (or continue) any keyword of the grammar's regex stages. -/
def inertChar (c : Char) : Bool :=
  c.isDigit || c = '.' || c = '-' || c = ' ' || c = '/'

theorem uint32_le_toNat {a b : UInt32} (h : a ≤ b) : a.toNat ≤ b.toNat := h

theorem isDigit_range {c : Char} (h : c.isDigit = true) :
    48 ≤ c.toNat ∧ c.toNat ≤ 57 := by
  simp only [Char.isDigit, Bool.and_eq_true, decide_eq_true_eq] at h
  exact ⟨uint32_le_toNat h.1, uint32_le_toNat h.2⟩

theorem digit_toLower {c : Char} (h : c.isDigit = true) : c.toLower = c := by
  have hr := isDigit_range h
  unfold Char.toLower
  rw [if_neg (by omega)]

theorem digit_ne {x : Char} (hx : x.isDigit = false) {c : Char}
    (h : c.isDigit = true) : c ≠ x := by
  intro he
  rw [he, hx] at h
  exact Bool.noConfusion h

theorem digit_not_ws {c : Char} (h : c.isDigit = true) : c.isWhitespace = false := by
  have hr := isDigit_range h
  have h1 : c ≠ ' ' := digit_ne (by decide) h
  have h2 : c ≠ '\t' := digit_ne (by decide) h
  have h3 : c ≠ '\r' := digit_ne (by decide) h
  have h4 : c ≠ '\n' := digit_ne (by decide) h
  simp [Char.isWhitespace, h1, h2, h3, h4]

theorem digit_not_alpha {c : Char} (h : c.isDigit = true) : c.isAlpha = false := by
  have hr := isDigit_range h
  have hv : c.val.toNat = c.toNat := rfl
  have h65 : (65 : UInt32).toNat = 65 := rfl
  have h97 : (97 : UInt32).toNat = 97 := rfl
  simp only [Char.isAlpha, Char.isUpper, Char.isLower, Bool.or_eq_false_iff,
    Bool.and_eq_false_iff]
  constructor
  · refine Or.inl ?_
    simp only [decide_eq_false_iff_not]
    intro hle
    have h2 := uint32_le_toNat hle
    rw [hv, h65] at h2
    omega
  · refine Or.inl ?_
    simp only [decide_eq_false_iff_not]
    intro hle
    have h2 := uint32_le_toNat hle
    rw [hv, h97] at h2
    omega

theorem inert_cases {c : Char} (h : inertChar c = true) :
    c.isDigit = true ∨ c = '.' ∨ c = '-' ∨ c = ' ' ∨ c = '/' := by
  simp only [inertChar, Bool.or_eq_true, decide_eq_true_eq] at h
  tauto

theorem inert_toLower_self {c : Char} (h : inertChar c = true) : c.toLower = c := by
  rcases inert_cases h with hd | he | he | he | he
  · exact digit_toLower hd
  all_goals (subst he; decide)

theorem inert_ne {x : Char} (hx : inertChar x = false) {c : Char}
    (h : inertChar c = true) : c ≠ x := by
  intro he
  rw [he, hx] at h
  exact Bool.noConfusion h

theorem inert_not_alpha {c : Char} (h : inertChar c = true) : c.isAlpha = false := by
  rcases inert_cases h with hd | he | he | he | he
  · exact digit_not_alpha hd
  all_goals (subst he; decide)

theorem all_tail {p : Char → Bool} {c : Char} {s : Str}
    (h : (c :: s).all p = true) : s.all p = true := by
  simp only [List.all_cons, Bool.and_eq_true] at h
  exact h.2

theorem all_dropWhile (p q : Char → Bool) :
    ∀ s : Str, s.all q = true → (s.dropWhile p).all q = true := by
  intro s hs
  induction s with
  | nil => simp [List.dropWhile]
  | cons c cs ih =>
      rw [List.dropWhile]
      cases hp : p c with
      | true => exact ih (all_tail hs)
      | false => exact hs

theorem all_drop (q : Char → Bool) :
    ∀ (n : ℕ) (s : Str), s.all q = true → (s.drop n).all q = true := by
  intro n
  induction n with
  | zero => intro s hs; exact hs
  | succ m ih =>
      intro s hs
      cases s with
      | nil => simp
      | cons c cs => exact ih cs (all_tail hs)

theorem takeWhile_all_of_all (p q : Char → Bool) :
    ∀ s : Str, s.all q = true → (s.takeWhile p).all q = true := by
  intro s hs
  induction s with
  | nil => simp [List.takeWhile]
  | cons c cs ih =>
      rw [List.takeWhile]
      cases hp : p c with
      | true =>
          simp only [List.all_cons, Bool.and_eq_true] at hs ⊢
          exact ⟨hs.1, ih hs.2⟩
      | false => simp

theorem option_bind_some {α β : Type} (a : α) (f : α → Option β) :
    (some a >>= f) = f a := rfl

theorem stripCI_inert_none (p : Char) (hp : inertChar p = false) {ps : Str}
    {c : Char} {cs : Str} (h : inertChar c = true) :
    stripCI (p :: ps) (c :: cs) = none := by
  rw [stripCI]
  rw [if_neg]
  rw [inert_toLower_self h]
  exact inert_ne hp h

theorem stripLit_inert_none (p : Char) (hp : inertChar p = false) {ps : Str}
    {c : Char} {cs : Str} (h : inertChar c = true) :
    stripLit (p :: ps) (c :: cs) = none := by
  rw [stripLit]
  exact if_neg (inert_ne hp h)

theorem set_rate_at_inert {s : Str} (h : s.all inertChar = true) :
    set_rate_at s = none := by
  cases s with
  | nil => rfl
  | cons c cs =>
      have hc : inertChar c = true := by
        simp only [List.all_cons, Bool.and_eq_true] at h; exact h.1
      unfold set_rate_at
      rw [show str "setrate" = 's' :: str "etrate" from rfl]
      rw [stripCI_inert_none 's' (by decide) hc]
      rfl

theorem all_head {p : Char → Bool} {c : Char} {s : Str}
    (h : (c :: s).all p = true) : p c = true := by
  simp only [List.all_cons, Bool.and_eq_true] at h
  exact h.1

theorem all_mono {p q : Char → Bool} (hpq : ∀ c, p c = true → q c = true) :
    ∀ {s : Str}, s.all p = true → s.all q = true := by
  intro s hs
  induction s with
  | nil => rfl
  | cons c cs ih =>
      simp only [List.all_cons, Bool.and_eq_true] at hs ⊢
      exact ⟨hpq c hs.1, ih hs.2⟩

theorem dropWhile_all_true {p : Char → Bool} :
    ∀ {s : Str}, s.all p = true → s.dropWhile p = [] := by
  intro s hs
  induction s with
  | nil => rfl
  | cons c cs ih =>
      rw [List.dropWhile, all_head hs]
      exact ih (all_tail hs)

theorem takeWhile_all_true {p : Char → Bool} :
    ∀ {s : Str}, s.all p = true → s.takeWhile p = s := by
  intro s hs
  induction s with
  | nil => rfl
  | cons c cs ih =>
      rw [List.takeWhile, all_head hs]
      rw [ih (all_tail hs)]

theorem wsPlus_eq {s r : Str} (h : wsPlus s = some r) :
    r = s.dropWhile Char.isWhitespace := by
  unfold wsPlus at h
  split at h
  · exact Option.noConfusion h
  · injection h with h2
    rw [← h2]
    rfl

theorem conv_tail_inert {s : Str} (h : s.all inertChar = true) :
    conv_tail s = none := by
  cases hw : wsPlus s with
  | none => unfold conv_tail; rw [hw]; rfl
  | some s1 =>
      have h1 : s1.all inertChar = true := by
        rw [wsPlus_eq hw]; exact all_dropWhile _ _ s h
      cases s1 with
      | nil => unfold conv_tail; rw [hw]; rfl
      | cons c cs =>
          unfold conv_tail
          rw [hw]
          simp only [option_bind_some]
          rw [show str "in" = 'i' :: str "n" from rfl,
            stripLit_inert_none 'i' (by decide) (all_head h1)]
          rw [show str "to" = 't' :: str "o" from rfl,
            stripLit_inert_none 't' (by decide) (all_head h1)]
          rfl

theorem pct_tail_inert {s : Str} (h : s.all inertChar = true) :
    pct_tail s = none := by
  have hm : ∀ u : Str, u.all inertChar = true →
      (match u with | '%' :: r => some r | _ => none) = (none : Option Str) := by
    intro u hu
    cases u with
    | nil => rfl
    | cons c cs =>
        have hc : c ≠ '%' := inert_ne (by decide) (all_head hu)
        clear hu
        split
        · rename_i r heq
          injection heq with h1 h2
          exact absurd h1 hc
        · rfl
  unfold pct_tail
  rw [hm s h]
  rfl

theorem var_of_at_inert {s : Str} (h : s.all inertChar = true) :
    var_of_at s = none := by
  cases s with
  | nil => rfl
  | cons c cs =>
      simp only [var_of_at]
      by_cases hw : wordChar c = true
      · rw [if_pos hw]
        cases hwp : wsPlus (span2 wordChar (c :: cs)).2 with
        | none => rfl
        | some s2 =>
            have h2 : s2.all inertChar = true := by
              rw [wsPlus_eq hwp]
              exact all_dropWhile _ _ _ (all_dropWhile _ _ _ h)
            simp only [option_bind_some]
            cases s2 with
            | nil => rfl
            | cons d ds =>
                rw [show str "of" = 'o' :: str "f" from rfl,
                  stripLit_inert_none 'o' (by decide) (all_head h2)]
                rfl
      · rw [if_neg hw]

theorem of_what_tail_inert {s : Str} (h : s.all inertChar = true) :
    of_what_tail s = none := by
  cases hw : wsPlus s with
  | none => unfold of_what_tail; rw [hw]; rfl
  | some s1 =>
      have h1 : s1.all inertChar = true := by
        rw [wsPlus_eq hw]; exact all_dropWhile _ _ s h
      cases s1 with
      | nil => unfold of_what_tail; rw [hw]; rfl
      | cons c cs =>
          unfold of_what_tail
          rw [hw]
          simp only [option_bind_some]
          rw [show str "of" = 'o' :: str "f" from rfl,
            stripLit_inert_none 'o' (by decide) (all_head h1)]
          rfl

theorem date_at_inert {s : Str} (h : s.all inertChar = true) :
    date_at s = none := by
  cases s with
  | nil => rfl
  | cons c cs =>
      unfold date_at
      rw [show str "next" = 'n' :: str "ext" from rfl,
        stripCI_inert_none 'n' (by decide) (all_head h)]
      rfl

theorem scan_left_all_none {α : Type} (m : Str → Option α) (p : Char → Bool)
    (hm : ∀ t, t.all p = true → m t = none) :
    ∀ s, s.all p = true → scan_left m s = none := by
  intro s
  induction s with
  | nil => intro _; rfl
  | cons c cs ih =>
      intro hs
      rw [scan_left, hm _ hs]
      exact ih (all_tail hs)

theorem greedy_split_all_none (tail : Str → Option Str) (p : Char → Bool)
    (htail : ∀ t, t.all p = true → tail t = none) :
    ∀ (i : ℕ) (s : Str), s.all p = true → greedy_split_from tail i s = none := by
  intro i
  induction i with
  | zero => intro s _; rfl
  | succ j ih =>
      intro s hs
      rw [greedy_split_from, htail _ (all_drop p (j + 1) s hs)]
      exact ih s hs

theorem parse_set_rate_inert (rates : RateTable) {s : Str}
    (h : s.all inertChar = true) : parse_set_rate rates s = none := by
  unfold parse_set_rate set_rate_find
  rw [scan_left_all_none set_rate_at inertChar (fun t ht => set_rate_at_inert ht) s h]

theorem splitAssign_inert {s : Str} (h : s.all inertChar = true) :
    splitAssign s = none := by
  unfold splitAssign
  have hall : s.all (fun c => decide (c ≠ '=')) = true :=
    all_mono (fun c hc => decide_eq_true (inert_ne (by decide) hc)) h
  have h2 : (span2 (fun c => c ≠ '=') s).2 = [] := dropWhile_all_true hall
  rw [h2]

theorem parse_conversion_split_inert {s : Str} (h : s.all inertChar = true) :
    parse_conversion_split s = none := by
  unfold parse_conversion_split
  exact greedy_split_all_none conv_tail inertChar (fun t ht => conv_tail_inert ht) _ s h

theorem parse_percent_split_inert {s : Str} (h : s.all inertChar = true) :
    parse_percent_split s = none := by
  unfold parse_percent_split
  exact greedy_split_all_none pct_tail inertChar (fun t ht => pct_tail_inert ht) _ s h

theorem var_of_guarded_inert (vars : VarEnv) {s : Str} (h : s.all inertChar = true) :
    var_of_guarded s vars = none := by
  unfold var_of_guarded var_of_find
  rw [scan_left_all_none var_of_at inertChar (fun t ht => var_of_at_inert ht) s h]

theorem of_what_split_inert {s : Str} (h : s.all inertChar = true) :
    of_what_split s = none := by
  unfold of_what_split
  exact greedy_split_all_none of_what_tail inertChar (fun t ht => of_what_tail_inert ht) _ s h

theorem parse_date_expression_inert {s : Str} (h : s.all inertChar = true) :
    parse_date_expression s = none := by
  unfold parse_date_expression date_find
  rw [scan_left_all_none date_at inertChar (fun t ht => date_at_inert ht) s h]
  rfl

theorem stripComment_inert {s : Str} (h : s.all inertChar = true) :
    stripComment s = s := by
  unfold stripComment
  exact takeWhile_all_true
    (all_mono (fun c hc => decide_eq_true (inert_ne (by decide) hc)) h)

theorem split_first_op_go_none (ops : List Char) :
    ∀ (t : Str) (acc : Str), t.all (fun c => !(ops.contains c)) = true →
      split_first_op.go ops acc t = none := by
  intro t
  induction t with
  | nil => intro acc _; rfl
  | cons x xs ih =>
      intro acc ht
      rw [split_first_op.go]
      have hx : ops.contains x = false := by
        have h1 := all_head ht
        rwa [Bool.not_eq_true'] at h1
      rw [hx]
      rw [if_neg (by simp)]
      exact ih (x :: acc) (all_tail ht)

theorem split_first_op_go_split (ops : List Char) (op : Char) (suf : Str)
    (hop : ops.contains op = true) (hsuf : suf ≠ []) :
    ∀ (pre : Str) (acc : Str), pre.all (fun c => !(ops.contains c)) = true →
      split_first_op.go ops acc (pre ++ op :: suf) =
        some (acc.reverse ++ pre, op, suf) := by
  intro pre
  induction pre with
  | nil =>
      intro acc _
      rw [List.nil_append, split_first_op.go, hop]
      rw [if_pos (by simp [hsuf])]
      rw [List.append_nil]
  | cons p ps ih =>
      intro acc hpre
      rw [List.cons_append, split_first_op.go]
      have hx : ops.contains p = false := by
        have h1 := all_head hpre
        rwa [Bool.not_eq_true'] at h1
      rw [hx]
      rw [if_neg (by simp)]
      rw [ih (p :: acc) (all_tail hpre)]
      rw [List.reverse_cons, List.append_assoc, List.singleton_append]

theorem split_first_op_none (ops : List Char) (c0 : Char) {rest : Str}
    (h : rest.all (fun c => !(ops.contains c)) = true) :
    split_first_op ops (c0 :: rest) = none := by
  rw [split_first_op]
  exact split_first_op_go_none ops rest [c0] h

theorem split_first_op_split (ops : List Char) (c0 : Char) (pre : Str) (op : Char)
    (suf : Str) (hpre : pre.all (fun c => !(ops.contains c)) = true)
    (hop : ops.contains op = true) (hsuf : suf ≠ []) :
    split_first_op ops (c0 :: (pre ++ op :: suf)) = some (c0 :: pre, op, suf) := by
  rw [split_first_op]
  rw [split_first_op_go_split ops op suf hop hsuf pre [c0] hpre]
  rfl

theorem dropWhile_append_of_all (p : Char → Bool) :
    ∀ (w t : Str), w.all p = true → (w ++ t).dropWhile p = t.dropWhile p := by
  intro w t
  induction w with
  | nil => intro _; rfl
  | cons x xs ih =>
      intro hw
      rw [List.cons_append, List.dropWhile, all_head hw]
      exact ih (all_tail hw)

theorem dropWhile_cons_of_neg (p : Char → Bool) (c : Char) (t : Str)
    (hc : p c = false) : (c :: t).dropWhile p = c :: t := by
  rw [List.dropWhile, hc]

theorem trim_pad (s w1 w2 : Str) (c : Char) (s1 : Str) (d : Char) (s2 : Str)
    (hw1 : w1.all Char.isWhitespace = true) (hw2 : w2.all Char.isWhitespace = true)
    (hhead : s = c :: s1) (hc : c.isWhitespace = false)
    (hrev : s.reverse = d :: s2) (hd : d.isWhitespace = false) :
    trim (w1 ++ s ++ w2) = s := by
  unfold trim
  rw [List.append_assoc, dropWhile_append_of_all _ w1 (s ++ w2) hw1]
  rw [hhead, List.cons_append, dropWhile_cons_of_neg _ c _ hc, ← List.cons_append, ← hhead]
  rw [List.reverse_append, dropWhile_append_of_all _ w2.reverse s.reverse
    (by rw [List.all_reverse]; exact hw2)]
  rw [hrev, dropWhile_cons_of_neg _ d _ hd, ← hrev, List.reverse_reverse]

theorem takeWhile_all (p : Char → Bool) : ∀ s : Str, (s.takeWhile p).all p = true := by
  intro s
  induction s with
  | nil => rfl
  | cons c cs ih =>
      rw [List.takeWhile]
      cases hp : p c with
      | true =>
          simp only [List.all_cons, Bool.and_eq_true]
          exact ⟨hp, ih⟩
      | false => rfl

theorem unsignedLit_parts {s : Str} (h : isUnsignedLit s = true) :
    ∃ ds rest, s = ds ++ rest ∧ ds ≠ [] ∧ ds.all Char.isDigit = true ∧
      (rest = [] ∨ ∃ d2, rest = '.' :: d2 ∧ d2 ≠ [] ∧ d2.all Char.isDigit = true) := by
  unfold isUnsignedLit at h
  simp only [span2] at h
  rw [Bool.and_eq_true] at h
  obtain ⟨h1, h2⟩ := h
  have hds : s.takeWhile Char.isDigit ≠ [] := of_decide_eq_true h1
  refine ⟨s.takeWhile Char.isDigit, s.dropWhile Char.isDigit,
    (List.takeWhile_append_dropWhile _ _).symm, hds, takeWhile_all _ s, ?_⟩
  cases hrest : s.dropWhile Char.isDigit with
  | nil => exact Or.inl rfl
  | cons r rs =>
      rw [hrest] at h2
      rw [List.isEmpty_cons, Bool.false_or] at h2
      refine Or.inr ?_
      clear hrest
      split at h2
      · rename_i r2 heq
        injection heq with ha hb
        subst ha
        subst hb
        rw [Bool.and_eq_true] at h2
        obtain ⟨h3, h4⟩ := h2
        have hd2 : rs.takeWhile Char.isDigit ≠ [] := of_decide_eq_true h3
        have h5 : rs.dropWhile Char.isDigit = [] := by
          cases h6 : rs.dropWhile Char.isDigit with
          | nil => rfl
          | cons a b => rw [h6] at h4; exact Bool.noConfusion (List.isEmpty_cons ▸ h4)
        have hrs : rs = rs.takeWhile Char.isDigit := by
          conv_lhs => rw [← List.takeWhile_append_dropWhile Char.isDigit rs]
          rw [h5, List.append_nil]
        refine ⟨rs, rfl, ?_, by rw [hrs]; exact takeWhile_all _ _⟩
        intro hn
        rw [hn] at hd2
        exact hd2 (by rw [show List.takeWhile Char.isDigit ([] : Str) = [] from rfl])
      · exact absurd h2 (by decide)

theorem all_reverse_char (p : Char → Bool) {s : Str} (h : s.all p = true) :
    s.reverse.all p = true := by
  rw [List.all_reverse]
  exact h

theorem head_of_all_nonempty {p : Char → Bool} {s : Str} (hne : s ≠ [])
    (h : s.all p = true) : ∃ c t, s = c :: t ∧ p c = true := by
  cases s with
  | nil => exact absurd rfl hne
  | cons c t => exact ⟨c, t, rfl, all_head h⟩

theorem unsignedLit_facts {s : Str} (h : isUnsignedLit s = true) :
    s.all (fun c => c.isDigit || c = '.') = true ∧
    (∃ c t, s = c :: t ∧ c.isDigit = true) ∧
    (∃ d t, s.reverse = d :: t ∧ d.isDigit = true) := by
  obtain ⟨ds, rest, hs, hne, hall, hrest⟩ := unsignedLit_parts h
  have hmono : ∀ c : Char, c.isDigit = true → (c.isDigit || c = '.') = true := by
    intro c hc
    rw [hc, Bool.true_or]
  rcases hrest with hr | ⟨d2, hr, hd2ne, hd2⟩
  · subst hr
    rw [List.append_nil] at hs
    subst hs
    obtain ⟨c, t, hct, hc⟩ := head_of_all_nonempty hne hall
    obtain ⟨d, t2, hdt, hd⟩ := head_of_all_nonempty
      (fun hn => hne (List.reverse_eq_nil_iff.mp hn)) (all_reverse_char _ hall)
    exact ⟨all_mono hmono hall, ⟨c, t, hct, hc⟩, ⟨d, t2, hdt, hd⟩⟩
  · subst hr
    subst hs
    refine ⟨?_, ?_, ?_⟩
    · rw [List.all_append, Bool.and_eq_true]
      refine ⟨all_mono hmono hall, ?_⟩
      rw [List.all_cons, Bool.and_eq_true]
      exact ⟨by decide, all_mono hmono hd2⟩
    · obtain ⟨c, t, hct, hc⟩ := head_of_all_nonempty hne hall
      exact ⟨c, t ++ '.' :: d2, by rw [hct, List.cons_append], hc⟩
    · obtain ⟨d, t2, hdt, hd⟩ := head_of_all_nonempty
        (fun hn => hd2ne (List.reverse_eq_nil_iff.mp hn)) (all_reverse_char _ hd2)
      refine ⟨d, t2 ++ '.' :: ds.reverse, ?_, hd⟩
      rw [List.reverse_append, List.reverse_cons, List.append_assoc, hdt]
      rfl

theorem signedLit_facts {s : Str} (h : isSignedLit s = true) :
    s.all (fun c => c.isDigit || c = '.' || c = '-') = true ∧
    (∃ c t, s = c :: t ∧ (c.isDigit || c = '-') = true ∧
       t.all (fun c2 => c2.isDigit || c2 = '.') = true) ∧
    (∃ d t, s.reverse = d :: t ∧ d.isDigit = true) := by
  have hmono2 : ∀ c : Char, (c.isDigit || c = '.') = true →
      (c.isDigit || c = '.' || c = '-') = true := by
    intro c hc
    rw [Bool.or_eq_true]
    exact Or.inl hc
  cases s with
  | nil => exact absurd h (by decide)
  | cons c cs =>
      by_cases hc : c = '-'
      · subst hc
        have h2 : isUnsignedLit cs = true := h
        obtain ⟨hall, ⟨c1, t1, hct, hc1⟩, ⟨d, t2, hdt, hd⟩⟩ := unsignedLit_facts h2
        refine ⟨?_, ⟨'-', cs, rfl, by decide, hall⟩, ?_⟩
        · simp only [List.all_cons, Bool.and_eq_true]
          exact ⟨by decide, all_mono hmono2 hall⟩
        · refine ⟨d, t2 ++ ['-'], ?_, hd⟩
          rw [List.reverse_cons, hdt]
          rfl
      · have h2 : isUnsignedLit (c :: cs) = true := by
          unfold isSignedLit at h
          split at h
          · rename_i r heq
            injection heq with ha hb
            exact absurd ha hc
          · exact h
        obtain ⟨hall, ⟨c1, t1, hct, hc1⟩, ⟨d, t2, hdt, hd⟩⟩ := unsignedLit_facts h2
        refine ⟨all_mono hmono2 hall, ?_, ⟨d, t2, hdt, hd⟩⟩
        injection hct with ha hb
        refine ⟨c, cs, rfl, ?_, all_tail hall⟩
        rw [← ha] at hc1
        rw [hc1, Bool.true_or]

theorem signed_of_unsigned {s : Str} (h : isUnsignedLit s = true) :
    isSignedLit s = true := by
  obtain ⟨hall, ⟨c, t, hct, hc⟩, _⟩ := unsignedLit_facts h
  subst hct
  have hcm : c ≠ '-' := digit_ne (by decide) hc
  unfold isSignedLit
  split
  · rename_i r heq
    injection heq with ha hb
    exact absurd ha hcm
  · exact h

theorem number_unit_at_ddm {s : Str}
    (h : s.all (fun c => c.isDigit || c = '.' || c = '-') = true) :
    number_unit_at s = none := by
  have hclass : ∀ c : Char, (c.isDigit || c = '.' || c = '-') = true →
      c.isWhitespace = false ∧ c.isAlpha = false := by
    intro c hc
    rw [Bool.or_eq_true, Bool.or_eq_true] at hc
    rcases hc with (hd | hd) | hd
    · exact ⟨digit_not_ws hd, digit_not_alpha hd⟩
    · rw [decide_eq_true_eq] at hd; subst hd; exact ⟨by decide, by decide⟩
    · rw [decide_eq_true_eq] at hd; subst hd; exact ⟨by decide, by decide⟩
  cases s with
  | nil => rfl
  | cons c0 cs0 =>
      by_cases hm : c0 = '-'
      · subst hm
        have ht : cs0.all (fun c => c.isDigit || c = '.' || c = '-') = true := all_tail h
        unfold number_unit_at
        simp only [span2]
        by_cases hd1 : List.takeWhile Char.isDigit cs0 = []
        · rw [if_pos hd1]
        · rw [if_neg hd1]
          cases hr1 : List.dropWhile Char.isDigit cs0 with
          | nil => simp only [hr1, List.dropWhile_nil]
          | cons r rs =>
              have hrall : ((r :: rs).all
                  (fun c => c.isDigit || c = '.' || c = '-')) = true := by
                rw [← hr1]; exact all_dropWhile _ _ _ ht
              have hrsall := all_tail hrall
              by_cases hr : r = '.'
              · subst hr
                by_cases hd2 : List.takeWhile Char.isDigit rs = []
                · simp only [hr1, if_pos hd2]
                  rw [dropWhile_cons_of_neg _ _ _ (by decide)]
                  rfl
                · simp only [hr1, if_neg hd2]
                  cases hz : List.dropWhile Char.isDigit rs with
                  | nil => simp only [List.dropWhile_nil]
                  | cons z zs =>
                      have hzc := all_head (hz ▸ all_dropWhile _ _ _ hrsall)
                      rw [dropWhile_cons_of_neg _ _ _ (hclass z hzc).1]
                      simp [(hclass z hzc).2]
              · split
                · rename_i r4v cv r2v heq
                  split at heq
                  · rename_i r2b heqb
                    injection heqb with ha hb
                    exact absurd ha hr
                  · dsimp only at heq
                    rw [dropWhile_cons_of_neg _ _ _ (hclass r (all_head hrall)).1] at heq
                    injection heq with ha hb
                    rw [← ha]
                    simp [(hclass r (all_head hrall)).2]
                · rfl
      · unfold number_unit_at
        split
        · rename_i t heqo
          injection heqo with ha hb
          exact absurd ha hm
        · simp only [span2]
          by_cases hd1 : List.takeWhile Char.isDigit (c0 :: cs0) = []
          · rw [if_pos hd1]
          · rw [if_neg hd1]
            cases hr1 : List.dropWhile Char.isDigit (c0 :: cs0) with
            | nil => simp only [hr1, List.dropWhile_nil]
            | cons r rs =>
                have hrall : ((r :: rs).all
                    (fun c => c.isDigit || c = '.' || c = '-')) = true := by
                  rw [← hr1]; exact all_dropWhile _ _ _ h
                have hrsall := all_tail hrall
                by_cases hr : r = '.'
                · subst hr
                  by_cases hd2 : List.takeWhile Char.isDigit rs = []
                  · simp only [hr1, if_pos hd2]
                    rw [dropWhile_cons_of_neg _ _ _ (by decide)]
                    rfl
                  · simp only [hr1, if_neg hd2]
                    cases hz : List.dropWhile Char.isDigit rs with
                    | nil => simp only [List.dropWhile_nil]
                    | cons z zs =>
                        have hzc := all_head (hz ▸ all_dropWhile _ _ _ hrsall)
                        rw [dropWhile_cons_of_neg _ _ _ (hclass z hzc).1]
                        simp [(hclass z hzc).2]
                · split
                  · rename_i r4v cv r2v heq
                    split at heq
                    · rename_i r2b heqb
                      injection heqb with ha hb
                      exact absurd ha hr
                    · dsimp only at heq
                      rw [dropWhile_cons_of_neg _ _ _ (hclass r (all_head hrall)).1] at heq
                      injection heq with ha hb
                      rw [← ha]
                      simp [(hclass r (all_head hrall)).2]
                  · rfl

theorem var_unit_at_ddm {s : Str}
    (h : s.all (fun c => c.isDigit || c = '.' || c = '-') = true) :
    var_unit_at s = none := by
  cases s with
  | nil => rfl
  | cons c cs =>
      have hna : c.isAlpha = false := by
        have hc := all_head h
        rw [Bool.or_eq_true, Bool.or_eq_true] at hc
        rcases hc with (hd | hd) | hd
        · exact digit_not_alpha hd
        · rw [decide_eq_true_eq] at hd; subst hd; decide
        · rw [decide_eq_true_eq] at hd; subst hd; decide
      simp only [var_unit_at]
      rw [hna]
      rw [if_neg (by exact Bool.noConfusion)]

theorem parse_unit_value_ddm {s : Str}
    (h : s.all (fun c => c.isDigit || c = '.' || c = '-') = true) :
    parse_unit_value s = none := by
  unfold parse_unit_value number_unit_find
  rw [scan_left_all_none number_unit_at _ (fun t ht => number_unit_at_ddm ht) s h]

theorem var_unit_find_ddm {s : Str}
    (h : s.all (fun c => c.isDigit || c = '.' || c = '-') = true) :
    var_unit_find s = none := by
  unfold var_unit_find
  exact scan_left_all_none var_unit_at _ (fun t ht => var_unit_at_ddm ht) s h

theorem parse_simple_value_lit (vars : VarEnv) {s : Str} {q : ℚ}
    (hs : isSignedLit s = true) (hq : parseNumber s = some q) :
    parse_simple_value s vars = .number q := by
  obtain ⟨hall, ⟨c, t, hct, hc, htall⟩, ⟨d, t2, hdt, hd⟩⟩ := signedLit_facts hs
  have hnws : c.isWhitespace = false := by
    rw [Bool.or_eq_true] at hc
    rcases hc with hcd | hcd
    · exact digit_not_ws hcd
    · rw [decide_eq_true_eq] at hcd; subst hcd; decide
  have htrim : trim s = s := by
    have h := trim_pad s [] [] c t d t2 rfl rfl hct hnws hdt (digit_not_ws hd)
    rwa [List.nil_append, List.append_nil] at h
  have hlast : s.getLast? = some d := by
    rw [← List.head?_reverse, hdt]
    rfl
  unfold parse_simple_value
  rw [htrim]
  dsimp only
  rw [hlast]
  split
  · rename_i e he
    split at he
    · rename_i heq
      injection heq with hdq
      exact absurd hdq (digit_ne (by decide) hd)
    · exact Option.noConfusion he
  · simp only [parse_unit_value_ddm hall, var_unit_find_ddm hall, hq]

theorem digitDot_not_addsub {c : Char} (h : (c.isDigit || c = '.') = true) :
    (!(addSubOps.contains c)) = true := by
  rw [Bool.or_eq_true] at h
  rcases h with hd | hd
  · have h1 : c ≠ '+' := digit_ne (by decide) hd
    have h2 : c ≠ '-' := digit_ne (by decide) hd
    simp [addSubOps, List.contains, h1, h2, Ne.symm h1, Ne.symm h2]
  · rw [decide_eq_true_eq] at hd; subst hd; decide

theorem digitDot_not_muldiv {c : Char} (h : (c.isDigit || c = '.') = true) :
    (!(mulDivOps.contains c)) = true := by
  rw [Bool.or_eq_true] at h
  rcases h with hd | hd
  · have h1 : c ≠ '*' := digit_ne (by decide) hd
    have h2 : c ≠ '/' := digit_ne (by decide) hd
    have h3 : c ≠ '^' := digit_ne (by decide) hd
    have h4 : c ≠ '%' := digit_ne (by decide) hd
    simp [mulDivOps, List.contains, h1, h2, h3, h4,
      Ne.symm h1, Ne.symm h2, Ne.symm h3, Ne.symm h4]
  · rw [decide_eq_true_eq] at hd; subst hd; decide

theorem ddm_inert {s : Str}
    (h : s.all (fun c => c.isDigit || c = '.' || c = '-') = true) :
    s.all inertChar = true := by
  refine all_mono ?_ h
  intro a ha
  simp only [inertChar, Bool.or_eq_true]
  simp only [Bool.or_eq_true] at ha
  tauto

theorem parse_line_lit (rates : RateTable) (vars : VarEnv) (s0 : Str) {s : Str} {q : ℚ}
    (htrim : trim (stripComment s0) = s)
    (hs : isSignedLit s = true) (hq : parseNumber s = some q) :
    parse_line rates s0 vars = (.number q, rates) := by
  obtain ⟨hall, ⟨c, t, hct, hc, htall⟩, hrev⟩ := signedLit_facts hs
  have hinert : s.all inertChar = true := ddm_inert hall
  have hne : s ≠ [] := by rw [hct]; exact List.cons_ne_nil c t
  have haddsub : split_first_op addSubOps s = none := by
    rw [hct]
    exact split_first_op_none _ c (all_mono (fun a ha => digitDot_not_addsub ha) htall)
  have hmuldiv : split_first_op mulDivOps s = none := by
    rw [hct]
    exact split_first_op_none _ c (all_mono (fun a ha => digitDot_not_muldiv ha) htall)
  rw [parse_line_eq]
  show parseTrimmed (fun p r => parse_line r p vars) rates (trim (stripComment s0)) vars = _
  rw [htrim]
  unfold parseTrimmed
  rw [if_neg hne]
  simp only [parse_set_rate_inert rates hinert, splitAssign_inert hinert,
    parse_conversion_split_inert hinert, parse_percent_split_inert hinert,
    var_of_guarded_inert vars hinert, of_what_split_inert hinert,
    parse_date_expression_inert hinert, haddsub, hmuldiv,
    parse_simple_value_lit vars hs hq]

theorem reverse_append_head {sb : Str} {d : Char} {t2 : Str}
    (h : sb.reverse = d :: t2) (pre : Str) :
    (pre ++ sb).reverse = d :: (t2 ++ pre.reverse) := by
  rw [List.reverse_append, h, List.cons_append]

theorem evalValue_div (today : ℤ) (rates : RateTable) (vars : VarEnv) (qa qb : ℚ) :
    evalValue today rates (.binaryOp (.number qa) .divide (.number qb)) vars =
      if qb = 0 then Value.error (str "Division by zero") else Value.number (qa / qb) := by
  unfold evalValue
  by_cases hqb : qb = 0
  · simp [evaluate, evaluate_binary_op, hqb]
  · simp [evaluate, evaluate_binary_op, hqb]

/-- C1 (amended): for every signed number literal a and UNSIGNED number
literal b, parsing and evaluating the rendered line "a / b" yields
Number(a/b) when b is non-zero and the division-by-zero Error value (returned
as data) when b is zero.  The unsigned restriction on b is necessary: the
multiplicative regex needs a non-empty remainder after the operator and scans
left to right, so a sign on b is torn off by the additive stage first (see
the counterexample). -/
theorem C1_division_amended (today : ℤ) (rates : RateTable) (vars : VarEnv)
    (sa sb : Str) (qa qb : ℚ)
    (hsa : isSignedLit sa = true) (hsb : isUnsignedLit sb = true)
    (ha : parseNumber sa = some qa) (hb : parseNumber sb = some qb) :
    parse_eval today rates (sa ++ str " / " ++ sb) vars =
      if qb = 0 then Value.error (str "Division by zero") else Value.number (qa / qb) := by
  obtain ⟨haall, ⟨c, t, hct, hc, htall⟩, dA, t2A, hrevA, hdA⟩ := signedLit_facts hsa
  obtain ⟨hball, ⟨cb, tb, hcbt, hcb⟩, ⟨d, t2, hdt, hd⟩⟩ := unsignedLit_facts hsb
  have hbddm : sb.all (fun c2 => c2.isDigit || c2 = '.' || c2 = '-') = true := by
    refine all_mono ?_ hball
    intro a ha2
    rw [Bool.or_eq_true]
    exact Or.inl ha2
  have hcnws : c.isWhitespace = false := by
    rw [Bool.or_eq_true] at hc
    rcases hc with hcd | hcd
    · exact digit_not_ws hcd
    · rw [decide_eq_true_eq] at hcd; subst hcd; decide
  have hline_inert : (sa ++ str " / " ++ sb).all inertChar = true := by
    rw [List.all_append, Bool.and_eq_true, List.all_append, Bool.and_eq_true]
    exact ⟨⟨ddm_inert haall, by decide⟩, ddm_inert hbddm⟩
  have hstrip : stripComment (sa ++ str " / " ++ sb) = sa ++ str " / " ++ sb :=
    stripComment_inert hline_inert
  have hlrev : (sa ++ str " / " ++ sb).reverse =
      d :: (t2 ++ (sa ++ str " / ").reverse) := reverse_append_head hdt _
  have hhead : sa ++ str " / " ++ sb = c :: (t ++ str " / " ++ sb) := by
    rw [hct, List.cons_append, List.cons_append]
  have htrim : trim (stripComment (sa ++ str " / " ++ sb)) = sa ++ str " / " ++ sb := by
    rw [hstrip]
    have h2 := trim_pad (sa ++ str " / " ++ sb) [] [] c (t ++ str " / " ++ sb)
      d (t2 ++ (sa ++ str " / ").reverse) rfl rfl hhead hcnws hlrev (digit_not_ws hd)
    rwa [List.nil_append, List.append_nil] at h2
  have hlne : sa ++ str " / " ++ sb ≠ [] := by
    rw [hhead]; exact List.cons_ne_nil _ _
  have haddsub : split_first_op addSubOps (sa ++ str " / " ++ sb) = none := by
    rw [hhead]
    refine split_first_op_none _ c ?_
    rw [List.all_append, Bool.and_eq_true, List.all_append, Bool.and_eq_true]
    exact ⟨⟨all_mono (fun a ha2 => digitDot_not_addsub ha2) htall, by decide⟩,
      all_mono (fun a ha2 => digitDot_not_addsub ha2) hball⟩
  have hmuldiv : split_first_op mulDivOps (sa ++ str " / " ++ sb) =
      some (sa ++ [' '], '/', ' ' :: sb) := by
    have hshape : sa ++ str " / " ++ sb = c :: ((t ++ [' ']) ++ '/' :: ' ' :: sb) := by
      rw [hhead]
      simp only [List.append_assoc, List.cons_append, List.singleton_append, List.nil_append]
      rfl
    rw [hshape]
    have hpre : ((t ++ [' ']).all (fun c2 => !(mulDivOps.contains c2))) = true := by
      rw [List.all_append, Bool.and_eq_true]
      exact ⟨all_mono (fun a ha2 => digitDot_not_muldiv ha2) htall, by decide⟩
    rw [split_first_op_split mulDivOps c (t ++ [' ']) '/' (' ' :: sb) hpre
      (by decide) (List.cons_ne_nil _ _)]
    rw [hct, List.cons_append]
  have hL : parse_line rates (sa ++ [' ']) vars = (.number qa, rates) := by
    refine parse_line_lit rates vars (sa ++ [' ']) ?_ hsa ha
    have hinertA : (sa ++ [' ']).all inertChar = true := by
      rw [List.all_append, Bool.and_eq_true]
      exact ⟨ddm_inert haall, by decide⟩
    rw [stripComment_inert hinertA]
    have h2 := trim_pad sa [] [' '] c t dA t2A rfl (by decide) hct hcnws hrevA
      (digit_not_ws hdA)
    rwa [List.nil_append] at h2
  have hR : parse_line rates (' ' :: sb) vars = (.number qb, rates) := by
    refine parse_line_lit rates vars (' ' :: sb) ?_ (signed_of_unsigned hsb) hb
    have hinertB : (' ' :: sb).all inertChar = true := by
      simp only [List.all_cons, Bool.and_eq_true]
      exact ⟨by decide, ddm_inert hbddm⟩
    rw [stripComment_inert hinertB]
    have h2 := trim_pad sb [' '] [] cb tb d t2 (by decide) rfl hcbt (digit_not_ws hcb)
      hdt (digit_not_ws hd)
    rwa [List.append_nil, List.singleton_append] at h2
  have hparse : parse_line rates (sa ++ str " / " ++ sb) vars =
      (.binaryOp (.number qa) .divide (.number qb), rates) := by
    rw [parse_line_eq]
    show parseTrimmed (fun p r => parse_line r p vars) rates
      (trim (stripComment (sa ++ str " / " ++ sb))) vars = _
    rw [htrim]
    unfold parseTrimmed
    rw [if_neg hlne]
    simp only [parse_set_rate_inert rates hline_inert, splitAssign_inert hline_inert,
      parse_conversion_split_inert hline_inert, parse_percent_split_inert hline_inert,
      var_of_guarded_inert vars hline_inert, of_what_split_inert hline_inert,
      parse_date_expression_inert hline_inert, haddsub, hmuldiv, hL, hR]
    rw [show mul_div_op '/' = Op.divide from by decide]
  unfold parse_eval
  rw [hparse]
  exact evalValue_div today rates vars qa qb

/-- C1 counterexample: for the literals a = 1, b = -1 the rendered line is
"1 / -1" and b is non-zero, yet parsing and evaluating it yields an Error
value, not Number(1 / -1) = Number(-1): the additive stage fires first on the
'-' sign of the divisor, splitting the line as "1 / " minus "1", and the
left fragment "1 / " fails to parse. -/
theorem C1_negative_divisor_counterexample :
    parseNumber (str "-1") = some (-1) ∧ ((-1 : ℚ) ≠ 0) ∧
    isErrorV (parse_eval 0 [] (str "1 / -1") []) = true ∧
    parse_eval 0 [] (str "1 / -1") [] ≠ Value.number (1 / (-1)) :=
  ⟨by decide, by decide, by decide, by decide⟩

/-- C1 witness: the amended theorem applied to the literals "1" and "2". -/
theorem C1_division_amended_witness :
    parse_eval 0 [] (str "1" ++ str " / " ++ str "2") [] =
      if (2 : ℚ) = 0 then Value.error (str "Division by zero")
      else Value.number (1 / 2) :=
  C1_division_amended 0 [] [] (str "1") (str "2") 1 2
    (by decide) (by decide) (by decide) (by decide)

theorem getD_set_self {α : Type} :
    ∀ (l : List α) (i : Nat) (a d : α), i < l.length → (l.set i a).getD i d = a := by
  intro l
  induction l with
  | nil => intro i a d h; exact absurd h (by simp)
  | cons x xs ih =>
      intro i a d h
      cases i with
      | zero => rfl
      | succ j =>
          rw [List.set_cons_succ]
          exact ih j a d (by simpa using h)

theorem getD_set_ne {α : Type} :
    ∀ (l : List α) (j i : Nat) (a d : α), i ≠ j → (l.set j a).getD i d = l.getD i d := by
  intro l
  induction l with
  | nil => intro j i a d h; rfl
  | cons x xs ih =>
      intro j i a d h
      cases j with
      | zero =>
          cases i with
          | zero => exact absurd rfl h
          | succ i2 => rfl
      | succ j2 =>
          cases i with
          | zero => rfl
          | succ i2 =>
              rw [List.set_cons_succ]
              exact ih j2 i2 a d (fun he => h (by rw [he]))

theorem update_result_lines (st : AppState) (j : Nat) (v : Value) :
    (update_result_for_line st j v).lines = st.lines := by
  unfold update_result_for_line
  split
  · cases v <;> rfl
  · rfl

theorem update_result_rlen (st : AppState) (j : Nat) (v : Value) :
    (update_result_for_line st j v).results.length = st.results.length := by
  unfold update_result_for_line
  split
  · cases v <;> simp
  · rfl

theorem update_result_dlen (st : AppState) (j : Nat) (v : Value) :
    (update_result_for_line st j v).debounced_results.length =
      st.debounced_results.length := by
  unfold update_result_for_line
  split
  · cases v <;> simp
  · rfl

theorem update_result_getD_ne (st : AppState) (j : Nat) (v : Value) (i : Nat)
    (h : i ≠ j) :
    (update_result_for_line st j v).results.getD i [] = st.results.getD i [] ∧
    (update_result_for_line st j v).debounced_results.getD i [] =
      st.debounced_results.getD i [] := by
  unfold update_result_for_line
  split
  · cases v <;> exact ⟨getD_set_ne _ _ _ _ _ h, getD_set_ne _ _ _ _ _ h⟩
  · exact ⟨rfl, rfl⟩

theorem update_result_getD_self (st : AppState) (i : Nat) (v : Value)
    (h1 : i < st.results.length) (h2 : i < st.debounced_results.length) :
    (update_result_for_line st i v).results.getD i [] =
      (if st.withinDebounce && isErrorV v then [] else fmt_value v) ∧
    (update_result_for_line st i v).debounced_results.getD i [] = fmt_value v := by
  unfold update_result_for_line
  rw [if_pos h1]
  cases v <;> exact ⟨getD_set_self _ _ _ _ h1, getD_set_self _ _ _ _ h2⟩

theorem foldl_preserve {α : Type} (f : AppState → α → AppState)
    (hf : ∀ st a, (f st a).lines = st.lines ∧
      (f st a).results.length = st.results.length ∧
      (f st a).debounced_results.length = st.debounced_results.length) :
    ∀ (l : List α) (st : AppState),
      (l.foldl f st).lines = st.lines ∧
      (l.foldl f st).results.length = st.results.length ∧
      (l.foldl f st).debounced_results.length = st.debounced_results.length := by
  intro l
  induction l with
  | nil => intro st; exact ⟨rfl, rfl, rfl⟩
  | cons a as ih =>
      intro st
      rw [List.foldl_cons]
      obtain ⟨h1, h2, h3⟩ := ih (f st a)
      obtain ⟨g1, g2, g3⟩ := hf st a
      exact ⟨h1.trans g1, h2.trans g2, h3.trans g3⟩

theorem eval_modified_invar (st : AppState) (m : List Nat) :
    (evaluate_modified_lines st m).lines = st.lines ∧
    (evaluate_modified_lines st m).results.length = st.results.length ∧
    (evaluate_modified_lines st m).debounced_results.length =
      st.debounced_results.length := by
  unfold evaluate_modified_lines
  refine foldl_preserve _ ?_ m st
  intro st2 j
  dsimp only
  split
  · split
    · exact ⟨rfl, rfl, rfl⟩
    · refine ⟨?_, ?_, ?_⟩
      · rw [update_result_lines]
      · rw [update_result_rlen]
      · rw [update_result_dlen]
  · exact ⟨rfl, rfl, rfl⟩

theorem reeval_dep_step_invar (ch : List Str) (st : AppState) (i : Nat) :
    (reeval_dep_step ch st i).lines = st.lines ∧
    (reeval_dep_step ch st i).results.length = st.results.length ∧
    (reeval_dep_step ch st i).debounced_results.length =
      st.debounced_results.length := by
  unfold reeval_dep_step
  dsimp only
  split
  · refine ⟨?_, ?_, ?_⟩
    · rw [update_result_lines]
    · rw [update_result_rlen]
    · rw [update_result_dlen]
  · exact ⟨rfl, rfl, rfl⟩

theorem reeval_dep_from_invar (ch : List Str) :
    ∀ (fuel i : Nat) (st : AppState),
      (reeval_dep_from ch fuel i st).lines = st.lines ∧
      (reeval_dep_from ch fuel i st).results.length = st.results.length ∧
      (reeval_dep_from ch fuel i st).debounced_results.length =
        st.debounced_results.length := by
  intro fuel
  induction fuel with
  | zero => intro i st; exact ⟨rfl, rfl, rfl⟩
  | succ f ih =>
      intro i st
      rw [reeval_dep_from]
      split
      · obtain ⟨h1, h2, h3⟩ := ih (i + 1) (reeval_dep_step ch st i)
        obtain ⟨g1, g2, g3⟩ := reeval_dep_step_invar ch st i
        exact ⟨h1.trans g1, h2.trans g2, h3.trans g3⟩
      · exact ⟨rfl, rfl, rfl⟩

theorem reeval_dep_step_frame (ch : List Str) (st : AppState) (j i : Nat) (h : i ≠ j) :
    (reeval_dep_step ch st j).results.getD i [] = st.results.getD i [] ∧
    (reeval_dep_step ch st j).debounced_results.getD i [] =
      st.debounced_results.getD i [] := by
  unfold reeval_dep_step
  dsimp only
  split
  · exact update_result_getD_ne _ j _ i h
  · exact ⟨rfl, rfl⟩

theorem reeval_dep_from_frame (ch : List Str) (i : Nat) :
    ∀ (fuel j : Nat) (st : AppState), i < j →
      (reeval_dep_from ch fuel j st).results.getD i [] = st.results.getD i [] ∧
      (reeval_dep_from ch fuel j st).debounced_results.getD i [] =
        st.debounced_results.getD i [] := by
  intro fuel
  induction fuel with
  | zero => intro j st _; exact ⟨rfl, rfl⟩
  | succ f ih =>
      intro j st hij
      rw [reeval_dep_from]
      split
      · obtain ⟨h1, h2⟩ := ih (j + 1) (reeval_dep_step ch st j) (by omega)
        obtain ⟨g1, g2⟩ := reeval_dep_step_frame ch st j i (by omega)
        exact ⟨h1.trans g1, h2.trans g2⟩
      · exact ⟨rfl, rfl⟩

theorem reeval_dep_from_add (ch : List Str) :
    ∀ (a b i : Nat) (st : AppState), i + a ≤ st.lines.length →
      reeval_dep_from ch (a + b) i st =
        reeval_dep_from ch b (i + a) (reeval_dep_from ch a i st) := by
  intro a
  induction a with
  | zero =>
      intro b i st _
      rw [Nat.zero_add, Nat.add_zero]
      rfl
  | succ a2 ih =>
      intro b i st hlen
      have hi : i < st.lines.length := by omega
      rw [show a2 + 1 + b = (a2 + b) + 1 from by omega]
      rw [reeval_dep_from, if_pos hi]
      rw [show reeval_dep_from ch (a2 + 1) i st =
        reeval_dep_from ch a2 (i + 1) (reeval_dep_step ch st i) from by
          rw [reeval_dep_from, if_pos hi]]
      rw [ih b (i + 1) (reeval_dep_step ch st i)
        (by rw [(reeval_dep_step_invar ch st i).1]; omega)]
      rw [show i + 1 + a2 = i + (a2 + 1) from by omega]

theorem reeval_dep_step_getD (ch : List Str) (st : AppState) (i : Nat)
    (hany : ch.any (fun v => isSubstr v (st.lines.getD i [])) = true)
    (h1 : i < st.results.length) (h2 : i < st.debounced_results.length) :
    (reeval_dep_step ch st i).results.getD i [] =
      (if st.withinDebounce && isErrorV
          (evalValue st.today (parse_line st.rates (st.lines.getD i []) st.vars).2
            (parse_line st.rates (st.lines.getD i []) st.vars).1 st.vars) then []
       else fmt_value (evalValue st.today
          (parse_line st.rates (st.lines.getD i []) st.vars).2
          (parse_line st.rates (st.lines.getD i []) st.vars).1 st.vars)) ∧
    (reeval_dep_step ch st i).debounced_results.getD i [] =
      fmt_value (evalValue st.today
        (parse_line st.rates (st.lines.getD i []) st.vars).2
        (parse_line st.rates (st.lines.getD i []) st.vars).1 st.vars) := by
  unfold reeval_dep_step
  dsimp only
  rw [if_pos hany]
  exact update_result_getD_self
    { st with rates := (parse_line st.rates (st.lines.getD i []) st.vars).2 } i
    (evalValue st.today (parse_line st.rates (st.lines.getD i []) st.vars).2
      (parse_line st.rates (st.lines.getD i []) st.vars).1 st.vars) h1 h2

/-- C9: after an evaluation pass starting from a state with a non-empty
dirty set whose first pass changes at least one variable (by structural
comparison with the pre-pass snapshot), EVERY line i of the whole document
whose raw text contains a changed variable's name as a literal substring —
whether or not i was dirty, and even when the occurrence is inside an
unrelated identifier — ends the pass with exactly the result of re-parsing
and re-evaluating that line against the environment and currency cache
current when the dependent loop reaches it (i.e. after the first pass's
commits and the dependent re-evaluation of all earlier lines), for both the
live (debounce-filtered) and the debounced result columns.  The two length
hypotheses are the engine's structural invariant that the result columns
run parallel to the document. -/
theorem C9_dependent_lines_recomputed (st : AppState)
    (hmod : st.modified_lines ≠ [])
    (hch : pass_changed st ≠ [])
    (hlen1 : st.results.length = st.lines.length)
    (hlen2 : st.debounced_results.length = st.lines.length)
    (i : Nat) (hi : i < st.lines.length)
    (hcont : contains_changed (pass_changed st) st i = true) :
    (evaluate_expressions st).results.getD i [] = (recompute_at st i).1 ∧
    (evaluate_expressions st).debounced_results.getD i [] = (recompute_at st i).2 := by
  have hEE : evaluate_expressions st =
      { reevaluate_dependent_lines (pass_changed st) (first_pass st) with
          modified_lines := [],
          cached_variables :=
            (reevaluate_dependent_lines (pass_changed st) (first_pass st)).vars } := by
    unfold evaluate_expressions
    rw [if_neg hmod]
    dsimp only
    rw [if_neg (show ¬(find_changed_variables
      (evaluate_modified_lines st (sortNats st.modified_lines)) st.vars = []) from hch)]
    rfl
  obtain ⟨hfl, hfr, hfd⟩ := eval_modified_invar st (sortNats st.modified_lines)
  have hfl' : (first_pass st).lines = st.lines := hfl
  have hfr' : (first_pass st).results.length = st.lines.length := hfr.trans hlen1
  have hfd' : (first_pass st).debounced_results.length = st.lines.length :=
    hfd.trans hlen2
  obtain ⟨hpl, hpr, hpd⟩ := reeval_dep_from_invar (pass_changed st) i 0 (first_pass st)
  have hsl : (dep_reach st i).lines = st.lines := hpl.trans hfl'
  have hsr : (dep_reach st i).results.length = st.lines.length := hpr.trans hfr'
  have hsd : (dep_reach st i).debounced_results.length = st.lines.length :=
    hpd.trans hfd'
  have hdep : reevaluate_dependent_lines (pass_changed st) (first_pass st) =
      reeval_dep_from (pass_changed st) (st.lines.length - i - 1 + 1) i
        (dep_reach st i) := by
    unfold reevaluate_dependent_lines
    rw [hfl']
    conv_lhs => rw [show st.lines.length = i + (st.lines.length - i - 1 + 1) from by omega]
    rw [reeval_dep_from_add (pass_changed st) i (st.lines.length - i - 1 + 1) 0
      (first_pass st) (by rw [hfl']; omega)]
    rw [Nat.zero_add]
    rfl
  have hpeel : reeval_dep_from (pass_changed st) (st.lines.length - i - 1 + 1) i
      (dep_reach st i) =
      reeval_dep_from (pass_changed st) (st.lines.length - i - 1) (i + 1)
        (reeval_dep_step (pass_changed st) (dep_reach st i) i) := by
    rw [reeval_dep_from]
    rw [if_pos (by rw [hsl]; exact hi)]
  have hframe := reeval_dep_from_frame (pass_changed st) i
    (st.lines.length - i - 1) (i + 1)
    (reeval_dep_step (pass_changed st) (dep_reach st i) i) (by omega)
  have hany : (pass_changed st).any
      (fun v => isSubstr v ((dep_reach st i).lines.getD i [])) = true := by
    rw [hsl]
    exact hcont
  have hstep := reeval_dep_step_getD (pass_changed st) (dep_reach st i) i hany
    (by rw [hsr]; exact hi) (by rw [hsd]; exact hi)
  rw [hEE]
  refine ⟨?_, ?_⟩
  · show (reevaluate_dependent_lines (pass_changed st) (first_pass st)).results.getD i []
      = (recompute_at st i).1
    rw [hdep, hpeel, hframe.1, hstep.1]
    rfl
  · show (reevaluate_dependent_lines (pass_changed st)
      (first_pass st)).debounced_results.getD i [] = (recompute_at st i).2
    rw [hdep, hpeel, hframe.2, hstep.2]
    rfl

/-- C9 witness: a two-line document where only line 0 is dirty; the pass
changes `x`, and line 1, which merely mentions `xylophone` (containing "x"
as a substring of an unrelated identifier), is nevertheless recomputed. -/
theorem C9_dependent_lines_recomputed_witness :
    (evaluate_expressions
      { lines := [str "x = 2", str "xylophone * 2"],
        vars := [(str "x", Value.number 1), (str "xylophone", Value.number 7)],
        results := [[], []], debounced_results := [[], []],
        modified_lines := [0], cached_variables := [], rates := [],
        today := 0, withinDebounce := false }).results.getD 1 [] =
      (recompute_at
        { lines := [str "x = 2", str "xylophone * 2"],
          vars := [(str "x", Value.number 1), (str "xylophone", Value.number 7)],
          results := [[], []], debounced_results := [[], []],
          modified_lines := [0], cached_variables := [], rates := [],
          today := 0, withinDebounce := false } 1).1 ∧
    (evaluate_expressions
      { lines := [str "x = 2", str "xylophone * 2"],
        vars := [(str "x", Value.number 1), (str "xylophone", Value.number 7)],
        results := [[], []], debounced_results := [[], []],
        modified_lines := [0], cached_variables := [], rates := [],
        today := 0, withinDebounce := false }).debounced_results.getD 1 [] =
      (recompute_at
        { lines := [str "x = 2", str "xylophone * 2"],
          vars := [(str "x", Value.number 1), (str "xylophone", Value.number 7)],
          results := [[], []], debounced_results := [[], []],
          modified_lines := [0], cached_variables := [], rates := [],
          today := 0, withinDebounce := false } 1).2 :=
  C9_dependent_lines_recomputed
    { lines := [str "x = 2", str "xylophone * 2"],
      vars := [(str "x", Value.number 1), (str "xylophone", Value.number 7)],
      results := [[], []], debounced_results := [[], []],
      modified_lines := [0], cached_variables := [], rates := [],
      today := 0, withinDebounce := false }
    (by decide) (by decide) (by decide) (by decide) 1 (by decide) (by decide)
